import Mathlib

/-!
# AliEmcalMCTrackSelector

A shallow embedding of `PWG/EMCAL/AliEmcalMCTrackSelector.cxx`: the cut pipeline, the two
per-event passes `ConvertMCParticles` (truth tracks, ESD) and `CopyMCParticles` (flat
particles, AOD) over explicit models of the containers they write to, and the entry point
`UserExec` with its one-time setup, over an explicit model of the event's list of objects.

Conventions.
* `Int_t` counts are `Int`; the one arithmetic operation of the passes, `Nparticles*2`, is
  wrapped to 32 bits by `wrapInt32`.
* Pseudorapidity and the threshold `fEtaMax` are `Double_t`: a finite value held as an exact
  rational, an infinity, or NaN. The task only compares doubles and takes absolute values,
  which is exact in IEEE-754 arithmetic; a comparison with NaN is false.
* Loop indices are natural numbers: both loops start at `0` and count upwards.
-/

namespace AliEmcalMCTrackSelector

/-! ## Machine integers -/

/-- Wrap-around of an integer to the range of `Int_t` (32 bits, signed): the value an
`Int_t` product takes when it leaves that range. -/
def wrapInt32 (z : Int) : Int := (z + 2147483648) % 4294967296 - 2147483648

/-! ## Doubles -/

/-- A `Double_t` as far as the task reads it: a finite value, held exactly (every finite
double is a rational number; the two zeros compare equal and are one value here), one of
the two infinities, or NaN. -/
inductive Double_t where
  | finite (q : ℚ)
  | posInf
  | negInf
  | nan
deriving DecidableEq

/-- The comparison `a > b` of two doubles: false as soon as one side is NaN. -/
def Double_t.gt : Double_t → Double_t → Bool
  | .finite a, .finite b => decide (a > b)
  | .finite _, .negInf => true
  | .posInf, .finite _ => true
  | .posInf, .negInf => true
  | _, _ => false

/-- The comparison `a <= b` of two doubles: false as soon as one side is NaN. -/
def Double_t.le : Double_t → Double_t → Bool
  | .finite a, .finite b => decide (a ≤ b)
  | .finite _, .posInf => true
  | .negInf, .finite _ => true
  | .negInf, .posInf => true
  | .negInf, .negInf => true
  | .posInf, .posInf => true
  | _, _ => false

/-- `TMath::Abs(Double_t d)` (ROOT): the absolute value of a finite double, `+inf` for an
infinity, NaN for NaN. -/
def TMath.Abs : Double_t → Double_t
  | .finite q => .finite |q|
  | .posInf => .posInf
  | .negInf => .posInf
  | .nan => .nan

/-! ## Records read and written by the task -/

/-- Modelled from the spec: the flag bits of the output schema (`AliAODMCParticle.h` is not
among the sources). The four flags Primary, PhysicalPrimary, SecondaryFromWeakDecay and
SecondaryFromMaterial occupy four distinct bits of the flag word. -/
def kPrimary : Nat := 1

/-- Modelled from the spec: the PhysicalPrimary bit of the flag word. -/
def kPhysicalPrim : Nat := 2

/-- Modelled from the spec: the SecondaryFromWeakDecay bit of the flag word. -/
def kSecondaryFromWeakDecay : Nat := 4

/-- Modelled from the spec: the SecondaryFromMaterial bit of the flag word. -/
def kSecondaryFromMaterial : Nat := 8

/-- Modelled from the spec: the Input Truth Track (`AliMCParticle.h` is not among the
sources), reduced to what the task reads from it: `Eta()`, `PdgCode()`, `Charge()`,
`GetGeneratorIndex()`, and the status code and unique id of the underlying `Particle()`. -/
structure AliMCParticle where
  Eta : Double_t
  PdgCode : Int
  Charge : Int
  GeneratorIndex : Int
  StatusCode : Int
  UniqueID : Int
deriving DecidableEq

/-- Modelled from the spec: the Input Flat Particle, which is also the Output Particle
(`AliAODMCParticle.h` is not among the sources). `Label` and `Flag` are the second and third
argument of the converting constructor; `GeneratorIndex`, `Status` and `MCProcessCode` hold
the value last handed to `SetGeneratorIndex`, `SetStatus` and `SetMCProcessCode`. -/
structure AliAODMCParticle where
  Eta : Double_t
  PdgCode : Int
  Charge : Int
  GeneratorIndex : Int
  Label : Int
  Flag : Nat
  Status : Int
  MCProcessCode : Int
deriving DecidableEq

/-- Modelled from the spec: `AliAODMCParticle::IsPhysicalPrimary()`, the precomputed
physical-primary flag of a flat particle, read from the PhysicalPrimary bit of its flags. -/
def AliAODMCParticle.IsPhysicalPrimary (p : AliAODMCParticle) : Bool :=
  p.Flag &&& kPhysicalPrim == kPhysicalPrim

/-- Modelled from the spec: the truth-event source (`AliMCEvent.h` is not among the sources):
`TrackCount`, `PrimaryCount`, `GetTrack(id)` which may be absent, and the three queries by
track id. -/
structure AliMCEvent where
  GetNumberOfTracks : Int
  GetNumberOfPrimaries : Int
  GetTrack : Nat → Option AliMCParticle
  IsPhysicalPrimary : Nat → Bool
  IsSecondaryFromWeakDecay : Nat → Bool
  IsSecondaryFromMaterial : Nat → Bool

/-- The cut configuration: the five data members read by the cut pipeline. -/
structure Config where
  fOnlyPhysPrim : Bool
  fRejectNK : Bool
  fChargedMC : Bool
  fOnlyHIJING : Bool
  fEtaMax : Double_t
deriving DecidableEq

/-! ## Containers -/

/-- Modelled from the spec: the ordered, appendable `TClonesArray` (ROOT, not among the
sources): a sequence of slots, each holding an object or empty. -/
abbrev TClonesArray (α : Type) : Type := List (Option α)

namespace TClonesArray

/-- `TClonesArray::Delete()` (ROOT): removes every object; the array is empty afterwards. -/
def Delete {α : Type} (_a : TClonesArray α) : TClonesArray α := []

/-- `TClonesArray::GetEntriesFast()` (ROOT): one more than the index of the last slot. -/
def GetEntriesFast {α : Type} (a : TClonesArray α) : Nat := a.length

/-- `TClonesArray::At(i)` (ROOT): the object in slot `i`, null for an empty slot and for a
slot past the end. -/
def At {α : Type} (a : TClonesArray α) (i : Nat) : Option α := a.getD i none

/-- `new ((*a)[idx]) T(...)`: constructs `x` in slot `idx`; the array grows to reach that
slot, and the slots it skips stay empty. -/
def ConstructAt {α : Type} (a : TClonesArray α) (idx : Nat) (x : α) : TClonesArray α :=
  if idx < a.length then a.set idx (some x)
  else a ++ List.replicate (idx - a.length) none ++ [some x]

end TClonesArray

/-- Modelled from the spec: the Index Map `AliNamedArrayI` (`AliNamedArrayI.h` is not among the
sources), a named ROOT `TArrayI`: a resizable array indexed by source index whose cell is
either an output index (`some j`) or the cleared value that marks a source index as unmapped
(`none`). -/
structure AliNamedArrayI where
  cells : List (Option Nat)
deriving DecidableEq

namespace AliNamedArrayI

/-- `TArrayI::GetSize()` (ROOT): the number of cells of the storage. -/
def GetSize (m : AliNamedArrayI) : Nat := m.cells.length

/-- Get-or-absent at an index: the output index stored for source index `i`; absent for a
cleared cell and for an index outside the storage. -/
def At (m : AliNamedArrayI) (i : Nat) : Option Nat := m.cells.getD i none

/-- Modelled from the spec: `AliNamedArrayI::Clear()`, the physical clearing of the map at
the start of a pass: every cell is reset to the unmapped value and the size stays. -/
def Clear (m : AliNamedArrayI) : AliNamedArrayI :=
  ⟨List.replicate m.cells.length none⟩

/-- `TArrayI::Set(n)` (ROOT): resizes the storage to `n` cells. A negative `n` is ignored;
the old cells are kept up to the new size and the added cells are zero-filled, so that an
added cell reads as output index `0`. -/
def Set (m : AliNamedArrayI) (n : Int) : AliNamedArrayI :=
  if n < 0 then m
  else ⟨m.cells.take n.toNat ++ List.replicate (n.toNat - m.cells.length) (some 0)⟩

/-- `TArrayI::AddAt(c, i)` (ROOT): stores `c` in cell `i`; the call is bounds-checked and an
index outside the storage is reported and not written. -/
def AddAt (m : AliNamedArrayI) (c : Nat) (i : Nat) : AliNamedArrayI :=
  if i < m.cells.length then ⟨m.cells.set i (some c)⟩ else m

end AliNamedArrayI

/-! ## The task -/

/-- The two objects the task owns across events. -/
structure Buffers where
  fParticlesOut : TClonesArray AliAODMCParticle
  fParticlesMap : AliNamedArrayI
deriving DecidableEq

/-- The state of a filter loop: the two buffers and the loop variable `nacc`. -/
structure LoopState where
  fParticlesOut : TClonesArray AliAODMCParticle
  fParticlesMap : AliNamedArrayI
  nacc : Nat
deriving DecidableEq

/-- The write block that ends an iteration of either loop for an admitted element:
`fParticlesMap->AddAt(nacc, iPart)`, the output particle `q` constructed at slot `nacc` of
`fParticlesOut`, and `nacc++`. -/
def LoopState.write (s : LoopState) (iPart : Nat) (q : AliAODMCParticle) : LoopState :=
  { fParticlesOut := TClonesArray.ConstructAt s.fParticlesOut s.nacc q
    fParticlesMap := s.fParticlesMap.AddAt s.nacc iPart
    nacc := s.nacc + 1 }

/-- The cut pipeline of `ConvertMCParticles` (lines 156-166): `false` where one of the five
`continue` statements is taken, in the order of the source. -/
def ConvertMCParticles.accept (cfg : Config) (fMC : AliMCEvent) (part : AliMCParticle)
    (iPart : Nat) : Bool :=
  if Double_t.gt cfg.fEtaMax (.finite 0) = true ∧
      Double_t.gt (TMath.Abs part.Eta) cfg.fEtaMax = true then false
  else if cfg.fRejectNK = true ∧ (part.PdgCode = 130 ∨ part.PdgCode = 2112) then false
  else if cfg.fChargedMC = true ∧ part.Charge = 0 then false
  else
    let genIndex := part.GeneratorIndex
    if cfg.fOnlyHIJING = true ∧ genIndex ≠ 0 then false
    else
      let isPhysPrim := fMC.IsPhysicalPrimary iPart
      if cfg.fOnlyPhysPrim = true ∧ isPhysPrim = false then false
      else true

/-- The flag word composed for an admitted track (lines 170-174). -/
def ConvertMCParticles.flag (fMC : AliMCEvent) (nprim : Int) (iPart : Nat) : Nat :=
  let flag := 0
  let flag := if (iPart : Int) < nprim then flag ||| kPrimary else flag
  let flag := if fMC.IsPhysicalPrimary iPart = true then flag ||| kPhysicalPrim else flag
  let flag := if fMC.IsSecondaryFromWeakDecay iPart = true then flag ||| kSecondaryFromWeakDecay
    else flag
  let flag := if fMC.IsSecondaryFromMaterial iPart = true then flag ||| kSecondaryFromMaterial
    else flag
  flag

/-- The output particle built for an admitted track (lines 176-179): the converting
constructor on the track, its id and the flag word, then the three setters. -/
def ConvertMCParticles.aodPart (fMC : AliMCEvent) (nprim : Int) (part : AliMCParticle)
    (iPart : Nat) : AliAODMCParticle :=
  { Eta := part.Eta
    PdgCode := part.PdgCode
    Charge := part.Charge
    Label := (iPart : Int)
    Flag := ConvertMCParticles.flag fMC nprim iPart
    GeneratorIndex := part.GeneratorIndex
    Status := part.StatusCode
    MCProcessCode := part.UniqueID }

/-- One iteration of the loop of `ConvertMCParticles` (lines 152-181). -/
def ConvertMCParticles.body (cfg : Config) (fMC : AliMCEvent) (nprim : Int) (s : LoopState)
    (iPart : Nat) : LoopState :=
  match fMC.GetTrack iPart with
  | none => s
  | some part =>
    if ConvertMCParticles.accept cfg fMC part iPart = true then
      s.write iPart (ConvertMCParticles.aodPart fMC nprim part iPart)
    else s

/-- `AliEmcalMCTrackSelector::ConvertMCParticles()` (lines 134-183). -/
def ConvertMCParticles (cfg : Config) (fMC : AliMCEvent) (b : Buffers) : Buffers :=
  let fParticlesOut := TClonesArray.Delete b.fParticlesOut
  let fParticlesMap := b.fParticlesMap.Clear
  let Nparticles := fMC.GetNumberOfTracks
  let nprim := fMC.GetNumberOfPrimaries
  let fParticlesMap :=
    if (fParticlesMap.GetSize : Int) ≤ Nparticles then
      fParticlesMap.Set (wrapInt32 (Nparticles * 2))
    else fParticlesMap
  let s := (List.range Nparticles.toNat).foldl (ConvertMCParticles.body cfg fMC nprim)
    { fParticlesOut := fParticlesOut, fParticlesMap := fParticlesMap, nacc := 0 }
  { fParticlesOut := s.fParticlesOut, fParticlesMap := s.fParticlesMap }

/-- The cut pipeline of `CopyMCParticles` (lines 207-215): `false` where one of the five
`continue` statements is taken, in the order of the source. -/
def CopyMCParticles.accept (cfg : Config) (part : AliAODMCParticle) : Bool :=
  if Double_t.gt cfg.fEtaMax (.finite 0) = true ∧
      Double_t.gt (TMath.Abs part.Eta) cfg.fEtaMax = true then false
  else if cfg.fRejectNK = true ∧ (part.PdgCode = 130 ∨ part.PdgCode = 2112) then false
  else if cfg.fChargedMC = true ∧ part.Charge = 0 then false
  else if cfg.fOnlyHIJING = true ∧ part.GeneratorIndex ≠ 0 then false
  else if cfg.fOnlyPhysPrim = true ∧ part.IsPhysicalPrimary = false then false
  else true

/-- One iteration of the loop of `CopyMCParticles` (lines 203-221); the output particle is
the copy `AliAODMCParticle(*part)`. -/
def CopyMCParticles.body (cfg : Config) (fParticlesIn : TClonesArray AliAODMCParticle)
    (s : LoopState) (iPart : Nat) : LoopState :=
  match TClonesArray.At fParticlesIn iPart with
  | none => s
  | some part =>
    if CopyMCParticles.accept cfg part = true then s.write iPart part
    else s

/-- `AliEmcalMCTrackSelector::CopyMCParticles()` (lines 186-223); `fParticlesIn` is `none`
for the null pointer. -/
def CopyMCParticles (cfg : Config) (fParticlesIn : Option (TClonesArray AliAODMCParticle))
    (b : Buffers) : Buffers :=
  match fParticlesIn with
  | none => b
  | some fParticlesIn =>
    let fParticlesOut := TClonesArray.Delete b.fParticlesOut
    let fParticlesMap := b.fParticlesMap.Clear
    let Nparticles := TClonesArray.GetEntriesFast fParticlesIn
    let s := (List.range Nparticles).foldl (CopyMCParticles.body cfg fParticlesIn)
      { fParticlesOut := fParticlesOut, fParticlesMap := fParticlesMap, nacc := 0 }
    { fParticlesOut := s.fParticlesOut, fParticlesMap := s.fParticlesMap }

/-! ## The passes as filter loops

Both loops have the same shape: element `i` either yields an output particle, which the
write block stores, or leaves the state as it is. -/

/-- An iteration of a filter loop whose element `i` yields the output particle `d i`, or
nothing when the element is absent or cut. -/
def LoopState.step (d : Nat → Option AliAODMCParticle) (s : LoopState) (i : Nat) : LoopState :=
  match d i with
  | none => s
  | some q => s.write i q

/-- The state of a filter loop after its first `n` iterations, started on an empty output
collection, the map `m` and `nacc = 0`. -/
def LoopState.run (d : Nat → Option AliAODMCParticle) (m : AliNamedArrayI) (n : Nat) :
    LoopState :=
  (List.range n).foldl (LoopState.step d) { fParticlesOut := [], fParticlesMap := m, nacc := 0 }

/-- The output particles of the elements below `n`, in increasing source order. -/
def survivors (d : Nat → Option AliAODMCParticle) (n : Nat) : List AliAODMCParticle :=
  (List.range n).filterMap d

/-- Track `iPart` is fetched and passes the cut pipeline of `ConvertMCParticles`. -/
def ConvertMCParticles.survives (cfg : Config) (fMC : AliMCEvent) (iPart : Nat) : Bool :=
  match fMC.GetTrack iPart with
  | none => false
  | some part => ConvertMCParticles.accept cfg fMC part iPart

/-- The output particle `ConvertMCParticles` derives from track `iPart`, if the track is
fetched and admitted. -/
def ConvertMCParticles.derive (cfg : Config) (fMC : AliMCEvent) (iPart : Nat) :
    Option AliAODMCParticle :=
  match fMC.GetTrack iPart with
  | none => none
  | some part =>
    if ConvertMCParticles.accept cfg fMC part iPart = true then
      some (ConvertMCParticles.aodPart fMC fMC.GetNumberOfPrimaries part iPart)
    else none

/-- The index map as `ConvertMCParticles` enters its loop: cleared (line 142), then resized
by the guard of line 147. -/
def ConvertMCParticles.sized (fMC : AliMCEvent) (m : AliNamedArrayI) : AliNamedArrayI :=
  if (m.Clear.GetSize : Int) ≤ fMC.GetNumberOfTracks then
    m.Clear.Set (wrapInt32 (fMC.GetNumberOfTracks * 2))
  else m.Clear

/-- Position `iPart` holds an element that passes the cut pipeline of `CopyMCParticles`. -/
def CopyMCParticles.survives (cfg : Config) (fParticlesIn : TClonesArray AliAODMCParticle)
    (iPart : Nat) : Bool :=
  match TClonesArray.At fParticlesIn iPart with
  | none => false
  | some part => CopyMCParticles.accept cfg part

/-- The output particle `CopyMCParticles` derives from position `iPart`, if the element is
present and admitted: the element itself. -/
def CopyMCParticles.derive (cfg : Config) (fParticlesIn : TClonesArray AliAODMCParticle)
    (iPart : Nat) : Option AliAODMCParticle :=
  match TClonesArray.At fParticlesIn iPart with
  | none => none
  | some part => if CopyMCParticles.accept cfg part = true then some part else none

/-! ## The five cuts, one at a time -/

/-- The five cuts of the pipeline, in the order of the source. -/
inductive Cut where
  | eta
  | rejectNK
  | chargedMC
  | onlyHIJING
  | onlyPhysPrim
deriving DecidableEq

/-- The configuration with cut `c` switched off; the eta cut is switched off by the
threshold `t`, which disables it when `t ≤ 0`. -/
def Config.disable (c : Cut) (t : ℚ) (cfg : Config) : Config :=
  match c with
  | .eta => { cfg with fEtaMax := .finite t }
  | .rejectNK => { cfg with fRejectNK := false }
  | .chargedMC => { cfg with fChargedMC := false }
  | .onlyHIJING => { cfg with fOnlyHIJING := false }
  | .onlyPhysPrim => { cfg with fOnlyPhysPrim := false }

/-- Configuration `other` differs from `cfg` at most in the setting of cut `c`. -/
def Config.agreeExcept (c : Cut) (cfg other : Config) : Prop :=
  (c ≠ .eta → other.fEtaMax = cfg.fEtaMax) ∧
  (c ≠ .rejectNK → other.fRejectNK = cfg.fRejectNK) ∧
  (c ≠ .chargedMC → other.fChargedMC = cfg.fChargedMC) ∧
  (c ≠ .onlyHIJING → other.fOnlyHIJING = cfg.fOnlyHIJING) ∧
  (c ≠ .onlyPhysPrim → other.fOnlyPhysPrim = cfg.fOnlyPhysPrim)

/-- The guard of cut `c` in `ConvertMCParticles`: `false` where its `continue` is taken. -/
def ConvertMCParticles.passes (c : Cut) (cfg : Config) (fMC : AliMCEvent)
    (part : AliMCParticle) (iPart : Nat) : Bool :=
  match c with
  | .eta => !decide (Double_t.gt cfg.fEtaMax (.finite 0) = true ∧
      Double_t.gt (TMath.Abs part.Eta) cfg.fEtaMax = true)
  | .rejectNK => !decide (cfg.fRejectNK = true ∧ (part.PdgCode = 130 ∨ part.PdgCode = 2112))
  | .chargedMC => !decide (cfg.fChargedMC = true ∧ part.Charge = 0)
  | .onlyHIJING => !decide (cfg.fOnlyHIJING = true ∧ part.GeneratorIndex ≠ 0)
  | .onlyPhysPrim => !decide (cfg.fOnlyPhysPrim = true ∧ fMC.IsPhysicalPrimary iPart = false)

/-- The guard of cut `c` in `CopyMCParticles`: `false` where its `continue` is taken. -/
def CopyMCParticles.passes (c : Cut) (cfg : Config) (part : AliAODMCParticle) : Bool :=
  match c with
  | .eta => !decide (Double_t.gt cfg.fEtaMax (.finite 0) = true ∧
      Double_t.gt (TMath.Abs part.Eta) cfg.fEtaMax = true)
  | .rejectNK => !decide (cfg.fRejectNK = true ∧ (part.PdgCode = 130 ∨ part.PdgCode = 2112))
  | .chargedMC => !decide (cfg.fChargedMC = true ∧ part.Charge = 0)
  | .onlyHIJING => !decide (cfg.fOnlyHIJING = true ∧ part.GeneratorIndex ≠ 0)
  | .onlyPhysPrim => !decide (cfg.fOnlyPhysPrim = true ∧ part.IsPhysicalPrimary = false)

/-! ## Concrete inputs -/

/-- The configuration both constructors set (lines 22-61): physical primaries only, eta
threshold `1`, the other cuts off. -/
def defaultConfig : Config :=
  { fOnlyPhysPrim := true, fRejectNK := false, fChargedMC := false, fOnlyHIJING := false,
    fEtaMax := .finite 1 }

/-- The configuration with every cut on, eta threshold `1`. -/
def allCutsConfig : Config :=
  { fOnlyPhysPrim := true, fRejectNK := true, fChargedMC := true, fOnlyHIJING := true,
    fEtaMax := .finite 1 }

/-- The configuration with every cut off. -/
def noCutsConfig : Config :=
  { fOnlyPhysPrim := false, fRejectNK := false, fChargedMC := false, fOnlyHIJING := false,
    fEtaMax := .finite 0 }

/-- The buffers as `UserExec` allocates them (lines 97-103): an empty output collection and
an index map of `99999` cleared cells. -/
def setupBuffers : Buffers :=
  { fParticlesOut := [], fParticlesMap := ⟨List.replicate 99999 none⟩ }

/-- A charged pion at mid-rapidity from the primary generator, as a truth track. -/
def pionTrack : AliMCParticle :=
  { Eta := .finite 0, PdgCode := 211, Charge := 3, GeneratorIndex := 0, StatusCode := 1,
    UniqueID := 0 }

/-- A neutron at mid-rapidity from the primary generator, as a truth track. -/
def neutronTrack : AliMCParticle :=
  { Eta := .finite 0, PdgCode := 2112, Charge := 0, GeneratorIndex := 0, StatusCode := 1,
    UniqueID := 0 }

/-- A charged pion at mid-rapidity, flagged physical primary, as a flat particle. -/
def pionFlat : AliAODMCParticle :=
  { Eta := .finite 0, PdgCode := 211, Charge := 3, GeneratorIndex := 0, Label := 0,
    Flag := kPhysicalPrim, Status := 1, MCProcessCode := 0 }

/-- A physical-primary charged pion from an embedded generator, as a flat particle. -/
def embeddedPionFlat : AliAODMCParticle :=
  { Eta := .finite 0, PdgCode := 211, Charge := 3, GeneratorIndex := 1, Label := 0,
    Flag := kPhysicalPrim, Status := 1, MCProcessCode := 0 }

/-- A neutron at mid-rapidity, flagged physical primary, as a flat particle. -/
def neutronFlat : AliAODMCParticle :=
  { Eta := .finite 0, PdgCode := 2112, Charge := 0, GeneratorIndex := 0, Label := 0,
    Flag := kPhysicalPrim, Status := 1, MCProcessCode := 0 }

/-- A truth event of `n` pion tracks, two of them primaries, in which all ids but `1` and
`3` are physical primaries. -/
def pionEvent (n : Int) : AliMCEvent :=
  { GetNumberOfTracks := n
    GetNumberOfPrimaries := 2
    GetTrack := fun _ => some pionTrack
    IsPhysicalPrimary := fun i => i != 1 && i != 3
    IsSecondaryFromWeakDecay := fun _ => false
    IsSecondaryFromMaterial := fun _ => false }

/-- A truth event of `n` pion tracks none of which is a physical primary. -/
def secondaryEvent (n : Int) : AliMCEvent :=
  { GetNumberOfTracks := n
    GetNumberOfPrimaries := 0
    GetTrack := fun _ => some pionTrack
    IsPhysicalPrimary := fun _ => false
    IsSecondaryFromWeakDecay := fun _ => true
    IsSecondaryFromMaterial := fun _ => false }

/-- A truth event announcing `n` tracks none of which can be fetched. -/
def absentEvent (n : Int) : AliMCEvent :=
  { GetNumberOfTracks := n
    GetNumberOfPrimaries := 0
    GetTrack := fun _ => none
    IsPhysicalPrimary := fun _ => false
    IsSecondaryFromWeakDecay := fun _ => false
    IsSecondaryFromMaterial := fun _ => false }

/-- A charged pion from a weak decay, not a physical primary, as a flat particle. -/
def secondaryPionFlat : AliAODMCParticle :=
  { Eta := .finite 0, PdgCode := 211, Charge := 3, GeneratorIndex := 0, Label := 3,
    Flag := kSecondaryFromWeakDecay, Status := 1, MCProcessCode := 4 }

/-- A flat input collection of five slots: a pion, an empty slot, a neutron, a secondary
pion and a pion. -/
def mixedCollection : TClonesArray AliAODMCParticle :=
  [some pionFlat, none, some neutronFlat, some secondaryPionFlat, some pionFlat]

/-- A flat input collection of `n` physical-primary pions. -/
def pionCollection (n : Nat) : TClonesArray AliAODMCParticle :=
  List.replicate n (some pionFlat)

/-! ## The task object and its entry point

`UserExec` reads two things from the framework, the current event and the truth event, and
writes to the event's list of named objects. The objects behind the pointers the task
caches (`fMC`, `fParticlesIn`) are held by value: a cached pointer is `none` when null and
otherwise carries the object as it was read. Every early `return` of the source ends the
invocation with the state reached so far; this includes the `return` that follows each
`AliFatal`. What an invocation does is recorded, in order, in a log of effects. -/

/-- Modelled from the spec: `AliAODMCParticle::StdBranchName()`, the well-known name under
which the flat input collection is looked up (`AliAODMCParticle.h` is not among the
sources). -/
def StdBranchName : String := "mcparticles"

/-- Modelled from the spec: an object of the event's list, as far as setup looks at it:
whether its class of elements derives from `AliAODMCParticle` (the answer of
`GetClass()->GetBaseClass("AliAODMCParticle")`), and its elements. -/
structure TObject where
  inheritsAODMCParticle : Bool
  items : TClonesArray AliAODMCParticle
deriving DecidableEq

/-- Modelled from the spec: the host event (`AliVEvent.h` is not among the sources): its
runtime format, `InheritsFrom("AliESDEvent")`, and its list of named objects. -/
structure AliVEvent where
  inheritsESD : Bool
  fList : List (String × TObject)
deriving DecidableEq

/-- `AliVEvent::FindListObject(name)`: the first object of the list with that name, or
null. -/
def AliVEvent.FindListObject (ev : AliVEvent) (name : String) : Option TObject :=
  (ev.fList.find? (fun e => e.1 == name)).map (fun e => e.2)

/-- `AliVEvent::AddObject(obj)`: appends the object, under its name, to the list. -/
def AliVEvent.AddObject (ev : AliVEvent) (name : String) (obj : TObject) : AliVEvent :=
  { ev with fList := ev.fList ++ [(name, obj)] }

/-- What the framework offers to one invocation: `InputEvent()` and `MCEvent()`, each of
which may be null. -/
structure Host where
  InputEvent : Option AliVEvent
  MCEvent : Option AliMCEvent

/-- The data members of `AliEmcalMCTrackSelector`, in the order of the constructors, after
the name of the task. `fEvent` records whether the cached event pointer is set. -/
structure Selector where
  name : String
  fParticlesOutName : String
  fOnlyPhysPrim : Bool
  fRejectNK : Bool
  fChargedMC : Bool
  fOnlyHIJING : Bool
  fEtaMax : Double_t
  fParticlesMapName : String
  fInit : Bool
  fParticlesIn : Option (TClonesArray AliAODMCParticle)
  fParticlesOut : Option (TClonesArray AliAODMCParticle)
  fParticlesMap : Option AliNamedArrayI
  fEvent : Bool
  fMC : Option AliMCEvent
  fIsESD : Bool

/-- The default constructor (lines 22-40). -/
def Selector.new : Selector :=
  { name := "AliEmcalMCTrackSelector"
    fParticlesOutName := "MCParticlesSelected"
    fOnlyPhysPrim := true
    fRejectNK := false
    fChargedMC := false
    fOnlyHIJING := false
    fEtaMax := .finite 1
    fParticlesMapName := ""
    fInit := false
    fParticlesIn := none
    fParticlesOut := none
    fParticlesMap := none
    fEvent := false
    fMC := none
    fIsESD := false }

/-- The named constructor (lines 43-61). -/
def Selector.newNamed (name : String) : Selector :=
  { name := name
    fParticlesOutName := "MCParticlesSelected"
    fOnlyPhysPrim := true
    fRejectNK := false
    fChargedMC := false
    fOnlyHIJING := false
    fEtaMax := .finite 1
    fParticlesMapName := ""
    fInit := false
    fParticlesIn := none
    fParticlesOut := none
    fParticlesMap := none
    fEvent := false
    fMC := none
    fIsESD := false }

/-- The cut configuration held by the task. -/
def Selector.config (t : Selector) : Config :=
  { fOnlyPhysPrim := t.fOnlyPhysPrim
    fRejectNK := t.fRejectNK
    fChargedMC := t.fChargedMC
    fOnlyHIJING := t.fOnlyHIJING
    fEtaMax := t.fEtaMax }

/-- What an invocation of `UserExec` does, as far as the outside can tell. -/
inductive Effect where
  /-- `AliError(msg)`: an ordinary error report. -/
  | error (msg : String)
  /-- `AliFatal(msg)`: a report through the fatal-error mechanism. -/
  | fatal (msg : String)
  /-- The format of the event is read and stored in `fIsESD` (lines 87-88). -/
  | detectFormat (isESD : Bool)
  /-- The output collection is allocated (line 97). -/
  | allocateOutput
  /-- An object is added to the event's list under this name (line 99). -/
  | publish (name : String)
  /-- The index map is allocated under this name (line 103). -/
  | allocateMap (name : String)
  /-- `ConvertMCParticles()` is called (line 129). -/
  | convert
  /-- `CopyMCParticles()` is called (line 130). -/
  | copy
  /-- A filter pass is entered with a null output collection, index map or truth event. -/
  | nullDereference
deriving DecidableEq

/-- The effect is a report through the fatal-error mechanism. -/
def Effect.isFatal : Effect → Bool
  | .fatal _ => true
  | _ => false

/-- The effect is the call of a filter pass. -/
def Effect.isPass : Effect → Bool
  | .convert => true
  | .copy => true
  | _ => false

/-- The effect belongs to setup: format detection, an allocation or a publication. -/
def Effect.isSetup : Effect → Bool
  | .detectFormat _ => true
  | .allocateOutput => true
  | .publish _ => true
  | .allocateMap _ => true
  | _ => false

/-- The effect is a publication into the event's list. -/
def Effect.isPublish : Effect → Bool
  | .publish _ => true
  | _ => false

/-- The effect is the allocation of the output collection. -/
def Effect.isAllocateOutput : Effect → Bool
  | .allocateOutput => true
  | _ => false

/-- The call of the filter pass that belongs to a format: `ConvertMCParticles()` for an
ESD, `CopyMCParticles()` otherwise. -/
def Effect.pass (isESD : Bool) : Effect :=
  if isESD = true then Effect.convert else Effect.copy

/-- The outcome of one invocation of `UserExec`: the task afterwards, the event afterwards
(null when the framework had none), and the log of effects. -/
structure ExecResult where
  task : Selector
  event : Option AliVEvent
  log : List Effect

/-- Lines 129-130 of `UserExec`: the filter pass chosen by `fIsESD`, on the buffers and the
cached inputs of the task. `CopyMCParticles` returns at once on a null `fParticlesIn`. -/
def UserExec.dispatch (t : Selector) : Selector × List Effect :=
  if t.fIsESD = true then
    match t.fParticlesOut, t.fParticlesMap, t.fMC with
    | some out, some map, some fMC =>
      let b := ConvertMCParticles t.config fMC { fParticlesOut := out, fParticlesMap := map }
      ({ t with fParticlesOut := some b.fParticlesOut, fParticlesMap := some b.fParticlesMap },
        [Effect.convert])
    | _, _, _ => (t, [Effect.convert, Effect.nullDereference])
  else
    match t.fParticlesIn, t.fParticlesOut, t.fParticlesMap with
    | none, _, _ => (t, [Effect.copy])
    | some fParticlesIn, some out, some map =>
      let b := CopyMCParticles t.config (some fParticlesIn)
        { fParticlesOut := out, fParticlesMap := map }
      ({ t with fParticlesOut := some b.fParticlesOut, fParticlesMap := some b.fParticlesMap },
        [Effect.copy])
    | some _, _, _ => (t, [Effect.copy, Effect.nullDereference])

/-- Lines 120-130 of `UserExec`: the truth event is fetched; without it the invocation ends
in a fatal report, with it setup is complete and the filter pass runs. -/
def UserExec.fetchMC (t : Selector) (ev : AliVEvent) (h : Host) (log : List Effect) :
    ExecResult :=
  match h.MCEvent with
  | none =>
    { task := { t with fMC := none }
      event := some ev
      log := log ++ [Effect.fatal "Could not retrieve MC event! Returning"] }
  | some fMC =>
    let r := UserExec.dispatch { t with fMC := some fMC, fInit := true }
    { task := r.1, event := some ev, log := log ++ r.2 }

/-- Lines 105-117 of `UserExec`, for an event that is not an ESD: the flat input collection
is looked up under its standard name and its class of elements is checked. -/
def UserExec.resolveInput (t : Selector) (ev : AliVEvent) (h : Host) (log : List Effect) :
    ExecResult :=
  match ev.FindListObject StdBranchName with
  | none =>
    { task := { t with fParticlesIn := none }
      event := some ev
      log := log ++ [Effect.fatal "Could not retrieve AOD MC particles! Returning"] }
  | some obj =>
    if obj.inheritsAODMCParticle = false then
      { task := { t with fParticlesIn := none }
        event := some ev
        log := log ++ [Effect.fatal (t.name ++ ": Collection " ++ StdBranchName ++
          " does not contain AliAODMCParticle!")] }
    else UserExec.fetchMC { t with fParticlesIn := some obj.items } ev h log

/-- `AliEmcalMCTrackSelector::UserExec()` (lines 76-131). -/
def UserExec (t : Selector) (h : Host) : ExecResult :=
  if t.fInit = false then
    match h.InputEvent with
    | none =>
      { task := { t with fEvent := false }
        event := none
        log := [Effect.error "Could not retrieve event! Returning"] }
    | some ev =>
      let t := { t with fEvent := true, fIsESD := ev.inheritsESD }
      match ev.FindListObject t.fParticlesOutName with
      | some _ =>
        { task := t
          event := some ev
          log := [Effect.detectFormat ev.inheritsESD,
            Effect.fatal ("The output array " ++ t.fParticlesOutName ++
              " is already present in the array!")] }
      | none =>
        let t := { t with fParticlesOut := some [] }
        let ev := ev.AddObject t.fParticlesOutName
          { inheritsAODMCParticle := true, items := [] }
        let t := { t with
          fParticlesMapName := t.fParticlesOutName ++ "_Map"
          fParticlesMap := some ⟨List.replicate 99999 none⟩ }
        let log := [Effect.detectFormat ev.inheritsESD, Effect.allocateOutput,
          Effect.publish t.fParticlesOutName, Effect.allocateMap t.fParticlesMapName]
        if t.fIsESD = false then UserExec.resolveInput t ev h log
        else UserExec.fetchMC t ev h log
  else
    let r := UserExec.dispatch t
    { task := r.1, event := h.InputEvent, log := r.2 }

/-! ## Sequences of invocations on one event list -/

/-- One call of `UserExec` by the framework: the format of the current event, or `none`
when there is no event; the truth event, or `none`; and, where the framework has refilled
it for this event, the flat input collection. -/
structure Invocation where
  InputEvent : Option Bool
  MCEvent : Option AliMCEvent
  particles : Option (TClonesArray AliAODMCParticle)

/-- A task together with the list of named objects of the event it runs on. -/
structure World where
  task : Selector
  fList : List (String × TObject)

/-- The framework refills, for the event at hand, the objects behind the pointers the task
has cached; a null pointer stays null. -/
def Selector.refill (t : Selector) (inv : Invocation) : Selector :=
  { t with
    fMC := match t.fMC, inv.MCEvent with
      | some _, some fMC => some fMC
      | cur, _ => cur
    fParticlesIn := match t.fParticlesIn, inv.particles with
      | some _, some items => some items
      | cur, _ => cur }

/-- The event list of the world holds an object under the output name of the task. -/
def World.found (w : World) : Bool :=
  (w.fList.find? (fun e => e.1 == w.task.fParticlesOutName)).isSome

/-- One invocation on the world: the cached objects are refilled, `UserExec` runs on the
event list as it stands, and the list is kept as `UserExec` leaves it. -/
def World.step (w : World) (inv : Invocation) : World × List Effect :=
  let r := UserExec (w.task.refill inv)
    { InputEvent := inv.InputEvent.map (fun isESD => { inheritsESD := isESD, fList := w.fList })
      MCEvent := inv.MCEvent }
  ({ task := r.task
     fList := match r.event with
       | some ev => ev.fList
       | none => w.fList },
    r.log)

/-- A sequence of invocations: the world at the end and the log of each invocation. -/
def World.run (w : World) : List Invocation → World × List (List Effect)
  | [] => (w, [])
  | inv :: rest =>
    let s := w.step inv
    let r := World.run s.1 rest
    (r.1, s.2 :: r.2)

/-- A sequence of truth events through `ConvertMCParticles`, on the same buffers. -/
def ConvertMCParticles.events (cfg : Config) (b : Buffers) (evs : List AliMCEvent) : Buffers :=
  evs.foldl (fun b fMC => ConvertMCParticles cfg fMC b) b

/-! ## Concrete hosts and invocations -/

/-- An ESD event with an empty list of objects. -/
def emptyESD : AliVEvent := { inheritsESD := true, fList := [] }

/-- The ESD event after a selector with the default output name has published its output
collection into it. -/
def sharedESD : AliVEvent :=
  { inheritsESD := true
    fList := [("MCParticlesSelected", { inheritsAODMCParticle := true, items := [] })] }

/-- An event that is not an ESD, with an empty list of objects: it holds no flat input
collection. -/
def emptyAOD : AliVEvent := { inheritsESD := false, fList := [] }

/-- A task from the default constructor whose output name has been set to the standard name
of the flat input collection. -/
def aliasSelector : Selector := { Selector.new with fParticlesOutName := StdBranchName }

/-- A host offering the empty ESD event and the five-pion truth event. -/
def esdHost : Host := { InputEvent := some emptyESD, MCEvent := some (pionEvent 5) }

/-- A task as the default constructor leaves it, on an empty list of objects. -/
def freshWorld : World := { task := Selector.new, fList := [] }

/-- An invocation without a current event. -/
def noEventCall : Invocation := { InputEvent := none, MCEvent := none, particles := none }

/-- An invocation on an ESD event without a truth event. -/
def esdCallWithoutTruth : Invocation :=
  { InputEvent := some true, MCEvent := none, particles := none }

/-- An invocation on an ESD event with the five-pion truth event. -/
def esdCall : Invocation :=
  { InputEvent := some true, MCEvent := some (pionEvent 5), particles := none }

/-! ## Lemmas: the containers -/

theorem AliNamedArrayI.At_of_size_le (m : AliNamedArrayI) (i : Nat) (h : m.GetSize ≤ i) :
    m.At i = none := by
  unfold AliNamedArrayI.At AliNamedArrayI.GetSize at *
  simp [List.getD_eq_getElem?_getD, List.getElem?_eq_none h]

theorem AliNamedArrayI.GetSize_Clear (m : AliNamedArrayI) : m.Clear.GetSize = m.GetSize := by
  simp [AliNamedArrayI.Clear, AliNamedArrayI.GetSize]

theorem AliNamedArrayI.At_Clear (m : AliNamedArrayI) (i : Nat) : m.Clear.At i = none := by
  simp only [AliNamedArrayI.Clear, AliNamedArrayI.At, List.getD_eq_getElem?_getD,
    List.getElem?_replicate]
  split <;> rfl

theorem AliNamedArrayI.GetSize_AddAt (m : AliNamedArrayI) (c i : Nat) :
    (m.AddAt c i).GetSize = m.GetSize := by
  unfold AliNamedArrayI.AddAt AliNamedArrayI.GetSize
  split <;> simp

theorem AliNamedArrayI.At_AddAt (m : AliNamedArrayI) (c i j : Nat) :
    (m.AddAt c i).At j = if j = i ∧ i < m.GetSize then some c else m.At j := by
  unfold AliNamedArrayI.AddAt AliNamedArrayI.GetSize AliNamedArrayI.At
  by_cases hi : i < m.cells.length
  · by_cases hj : j = i
    · subst hj
      simp [hi, List.getD_eq_getElem?_getD]
    · have hj2 : ¬ i = j := fun h => hj h.symm
      simp [hi, hj, hj2, List.getD_eq_getElem?_getD, List.getElem?_set]
  · simp [hi]

theorem AliNamedArrayI.GetSize_Set (m : AliNamedArrayI) (n : Int) (hn : 0 ≤ n) :
    (m.Set n).GetSize = n.toNat := by
  unfold AliNamedArrayI.Set AliNamedArrayI.GetSize
  have : ¬ n < 0 := not_lt.mpr hn
  simp only [this, if_false, List.length_append, List.length_take, List.length_replicate]
  omega

theorem AliNamedArrayI.Set_of_neg (m : AliNamedArrayI) (n : Int) (hn : n < 0) :
    m.Set n = m := by
  simp [AliNamedArrayI.Set, hn]

theorem AliNamedArrayI.At_Set_old (m : AliNamedArrayI) (n : Int) (i : Nat)
    (h : i < m.GetSize) (hi : (i : Int) < n) : (m.Set n).At i = m.At i := by
  unfold AliNamedArrayI.Set AliNamedArrayI.GetSize AliNamedArrayI.At at *
  have : ¬ n < 0 := by omega
  have h2 : i < n.toNat := by omega
  simp only [this, if_false, List.getD_eq_getElem?_getD]
  rw [List.getElem?_append_left (by simp; omega)]
  simp [List.getElem?_take, h2]

theorem AliNamedArrayI.At_Set_fresh (m : AliNamedArrayI) (n : Int) (i : Nat)
    (h : m.GetSize ≤ i) (hi : (i : Int) < n) : (m.Set n).At i = some 0 := by
  unfold AliNamedArrayI.Set AliNamedArrayI.GetSize AliNamedArrayI.At at *
  have : ¬ n < 0 := by omega
  have h2 : i < n.toNat := by omega
  simp only [this, if_false, List.getD_eq_getElem?_getD]
  rw [List.getElem?_append_right (by simp; omega)]
  have h3 : i - min n.toNat m.cells.length < n.toNat - m.cells.length := by
    omega
  simp [List.getElem?_replicate, h3]

theorem TClonesArray.ConstructAt_length {α : Type} (a : TClonesArray α) (x : α) :
    TClonesArray.ConstructAt a a.length x = a ++ [some x] := by
  simp [TClonesArray.ConstructAt]

/-! ## Lemmas: the filter loop -/

theorem survivors_succ (d : Nat → Option AliAODMCParticle) (n : Nat) :
    survivors d (n + 1) = survivors d n ++ (d n).toList := by
  unfold survivors
  rw [List.range_succ, List.filterMap_append]
  cases h : d n <;> simp [List.filterMap, h]

theorem survivors_length_le (d : Nat → Option AliAODMCParticle) (n : Nat) :
    (survivors d n).length ≤ n := by
  unfold survivors
  calc ((List.range n).filterMap d).length ≤ (List.range n).length := List.length_filterMap_le _ _
    _ = n := List.length_range n

theorem survivors_length_mono (d : Nat → Option AliAODMCParticle) {i j : Nat} (h : i ≤ j) :
    (survivors d i).length ≤ (survivors d j).length := by
  induction j with
  | zero =>
    have : i = 0 := by omega
    subst this; exact le_refl _
  | succ k ih =>
    by_cases hk : i ≤ k
    · have := ih hk
      rw [survivors_succ, List.length_append]
      omega
    · have : i = k + 1 := by omega
      subst this; exact le_refl _

theorem survivors_length_lt (d : Nat → Option AliAODMCParticle) {i j : Nat} (h : i < j)
    (hi : (d i).isSome = true) : (survivors d i).length < (survivors d j).length := by
  have h1 : (survivors d (i + 1)).length = (survivors d i).length + 1 := by
    rw [survivors_succ, List.length_append]
    cases hd : d i with
    | none => simp [hd] at hi
    | some q => simp
  have h2 := survivors_length_mono d (show i + 1 ≤ j from h)
  omega

theorem LoopState.run_succ (d : Nat → Option AliAODMCParticle) (m : AliNamedArrayI) (n : Nat) :
    LoopState.run d m (n + 1) = LoopState.step d (LoopState.run d m n) n := by
  simp [LoopState.run, List.range_succ, List.foldl_append]

theorem LoopState.run_out (d : Nat → Option AliAODMCParticle) (m : AliNamedArrayI) (n : Nat) :
    (LoopState.run d m n).nacc = (survivors d n).length ∧
    (LoopState.run d m n).fParticlesOut = (survivors d n).map some := by
  induction n with
  | zero => simp [LoopState.run, survivors]
  | succ k ih =>
    obtain ⟨h1, h2⟩ := ih
    rw [LoopState.run_succ, survivors_succ]
    unfold LoopState.step
    cases hd : d k with
    | none => simp [h1, h2]
    | some q =>
      have hlen : (LoopState.run d m k).nacc = (LoopState.run d m k).fParticlesOut.length := by
        rw [h1, h2, List.length_map]
      simp only [LoopState.write, Option.toList, List.length_append, List.length_singleton,
        List.map_append, List.map_cons, List.map_nil]
      refine ⟨by rw [h1], ?_⟩
      rw [hlen, TClonesArray.ConstructAt_length, h2]

theorem LoopState.run_size (d : Nat → Option AliAODMCParticle) (m : AliNamedArrayI) (n : Nat) :
    (LoopState.run d m n).fParticlesMap.GetSize = m.GetSize := by
  induction n with
  | zero => simp [LoopState.run]
  | succ k ih =>
    rw [LoopState.run_succ]
    unfold LoopState.step
    cases hd : d k with
    | none => simpa using ih
    | some q => simpa [LoopState.write, AliNamedArrayI.GetSize_AddAt] using ih

theorem LoopState.run_At (d : Nat → Option AliAODMCParticle) (m : AliNamedArrayI) (n j : Nat) :
    (LoopState.run d m n).fParticlesMap.At j =
      if j < n ∧ j < m.GetSize ∧ (d j).isSome = true then some (survivors d j).length
      else m.At j := by
  induction n with
  | zero => simp [LoopState.run]
  | succ k ih =>
    rw [LoopState.run_succ]
    unfold LoopState.step
    cases hd : d k with
    | none =>
      simp only [ih]
      by_cases hjk : j = k
      · subst hjk; simp [hd]
      · have hlt : j < k + 1 ↔ j < k := by omega
        simp only [hlt]
    | some q =>
      simp only [LoopState.write, AliNamedArrayI.At_AddAt, LoopState.run_size, ih,
        (LoopState.run_out d m k).1]
      by_cases hjk : j = k
      · subst hjk
        by_cases hs : j < m.GetSize
        · simp [hs, hd]
        · simp [hs]
      · have hlt : j < k + 1 ↔ j < k := by omega
        simp only [hlt, hjk, false_and, if_false]

theorem survivors_length_eq_filter (d : Nat → Option AliAODMCParticle) (p : Nat → Bool)
    (h : ∀ j, (d j).isSome = p j) (n : Nat) :
    (survivors d n).length = ((List.range n).filter p).length := by
  induction n with
  | zero => simp [survivors]
  | succ k ih =>
    rw [survivors_succ, List.range_succ, List.filter_append, List.length_append,
      List.length_append, ih]
    have hk := h k
    cases hd : d k with
    | none =>
      rw [hd] at hk
      simp [List.filter, ← hk]
    | some q =>
      rw [hd] at hk
      simp [List.filter, ← hk]

/-! ## Lemmas: the two passes are filter loops -/

theorem ConvertMCParticles.convert_body_eq_step (cfg : Config) (fMC : AliMCEvent) :
    ConvertMCParticles.body cfg fMC fMC.GetNumberOfPrimaries =
      LoopState.step (ConvertMCParticles.derive cfg fMC) := by
  funext s i
  unfold ConvertMCParticles.body LoopState.step ConvertMCParticles.derive
  cases fMC.GetTrack i with
  | none => rfl
  | some part =>
    by_cases h : ConvertMCParticles.accept cfg fMC part i = true <;> simp [h]

theorem CopyMCParticles.copy_body_eq_step (cfg : Config)
    (fParticlesIn : TClonesArray AliAODMCParticle) :
    CopyMCParticles.body cfg fParticlesIn =
      LoopState.step (CopyMCParticles.derive cfg fParticlesIn) := by
  funext s i
  unfold CopyMCParticles.body LoopState.step CopyMCParticles.derive
  cases TClonesArray.At fParticlesIn i with
  | none => rfl
  | some part =>
    by_cases h : CopyMCParticles.accept cfg part = true <;> simp [h]

theorem ConvertMCParticles.convert_derive_isSome (cfg : Config) (fMC : AliMCEvent) (i : Nat) :
    (ConvertMCParticles.derive cfg fMC i).isSome = ConvertMCParticles.survives cfg fMC i := by
  unfold ConvertMCParticles.derive ConvertMCParticles.survives
  cases fMC.GetTrack i with
  | none => rfl
  | some part =>
    by_cases h : ConvertMCParticles.accept cfg fMC part i = true <;> simp [h]

theorem CopyMCParticles.copy_derive_isSome (cfg : Config)
    (fParticlesIn : TClonesArray AliAODMCParticle) (i : Nat) :
    (CopyMCParticles.derive cfg fParticlesIn i).isSome =
      CopyMCParticles.survives cfg fParticlesIn i := by
  unfold CopyMCParticles.derive CopyMCParticles.survives
  cases TClonesArray.At fParticlesIn i with
  | none => rfl
  | some part =>
    by_cases h : CopyMCParticles.accept cfg part = true <;> simp [h]

theorem ConvertMCParticles_eq_run (cfg : Config) (fMC : AliMCEvent) (b : Buffers) :
    ConvertMCParticles cfg fMC b =
      { fParticlesOut := (LoopState.run (ConvertMCParticles.derive cfg fMC)
          (ConvertMCParticles.sized fMC b.fParticlesMap) fMC.GetNumberOfTracks.toNat).fParticlesOut
        fParticlesMap := (LoopState.run (ConvertMCParticles.derive cfg fMC)
          (ConvertMCParticles.sized fMC b.fParticlesMap)
          fMC.GetNumberOfTracks.toNat).fParticlesMap } := by
  simp only [ConvertMCParticles, ConvertMCParticles.convert_body_eq_step, LoopState.run,
    ConvertMCParticles.sized, TClonesArray.Delete]

theorem CopyMCParticles_eq_run (cfg : Config) (fParticlesIn : TClonesArray AliAODMCParticle)
    (b : Buffers) :
    CopyMCParticles cfg (some fParticlesIn) b =
      { fParticlesOut := (LoopState.run (CopyMCParticles.derive cfg fParticlesIn)
          b.fParticlesMap.Clear fParticlesIn.length).fParticlesOut
        fParticlesMap := (LoopState.run (CopyMCParticles.derive cfg fParticlesIn)
          b.fParticlesMap.Clear fParticlesIn.length).fParticlesMap } := by
  simp only [CopyMCParticles, CopyMCParticles.copy_body_eq_step, LoopState.run,
    TClonesArray.Delete, TClonesArray.GetEntriesFast]

/-! ## Lemmas: the cut pipeline -/

theorem ite_false_eq_true_iff (c : Prop) [Decidable c] (b : Bool) :
    ((if c then false else b) = true) ↔ (¬ c ∧ b = true) := by
  by_cases h : c <;> simp [h]

theorem Double_t.gt_finite (a b : ℚ) :
    Double_t.gt (.finite a) (.finite b) = true ↔ a > b := by
  simp [Double_t.gt]

theorem Double_t.le_finite (a b : ℚ) :
    Double_t.le (.finite a) (.finite b) = true ↔ a ≤ b := by
  simp [Double_t.le]

theorem Double_t.gt_eq_false_iff (a b : Double_t) :
    Double_t.gt a b = false ↔ (a = .nan ∨ b = .nan ∨ Double_t.le a b = true) := by
  cases a <;> cases b <;> simp [Double_t.gt, Double_t.le]

theorem TMath.Abs_eq_nan_iff (a : Double_t) : TMath.Abs a = .nan ↔ a = .nan := by
  cases a <;> simp [TMath.Abs]

theorem ConvertMCParticles.convert_accept_iff_guards (cfg : Config) (fMC : AliMCEvent)
    (part : AliMCParticle) (iPart : Nat) :
    ConvertMCParticles.accept cfg fMC part iPart = true ↔
      ¬ (Double_t.gt cfg.fEtaMax (.finite 0) = true ∧
        Double_t.gt (TMath.Abs part.Eta) cfg.fEtaMax = true) ∧
      (cfg.fRejectNK = false ∨ (part.PdgCode ≠ 130 ∧ part.PdgCode ≠ 2112)) ∧
      (cfg.fChargedMC = false ∨ part.Charge ≠ 0) ∧
      (cfg.fOnlyHIJING = false ∨ part.GeneratorIndex = 0) ∧
      (cfg.fOnlyPhysPrim = false ∨ fMC.IsPhysicalPrimary iPart = true) := by
  unfold ConvertMCParticles.accept
  simp only [ite_false_eq_true_iff, and_true]
  refine and_congr Iff.rfl (and_congr ?_ (and_congr ?_ (and_congr ?_ ?_)))
  · cases cfg.fRejectNK <;> simp
  · cases cfg.fChargedMC <;> simp
  · cases cfg.fOnlyHIJING <;> simp
  · cases cfg.fOnlyPhysPrim <;> simp

theorem CopyMCParticles.copy_accept_iff_guards (cfg : Config) (part : AliAODMCParticle) :
    CopyMCParticles.accept cfg part = true ↔
      ¬ (Double_t.gt cfg.fEtaMax (.finite 0) = true ∧
        Double_t.gt (TMath.Abs part.Eta) cfg.fEtaMax = true) ∧
      (cfg.fRejectNK = false ∨ (part.PdgCode ≠ 130 ∧ part.PdgCode ≠ 2112)) ∧
      (cfg.fChargedMC = false ∨ part.Charge ≠ 0) ∧
      (cfg.fOnlyHIJING = false ∨ part.GeneratorIndex = 0) ∧
      (cfg.fOnlyPhysPrim = false ∨ part.IsPhysicalPrimary = true) := by
  unfold CopyMCParticles.accept
  simp only [ite_false_eq_true_iff, and_true]
  refine and_congr Iff.rfl (and_congr ?_ (and_congr ?_ (and_congr ?_ ?_)))
  · cases cfg.fRejectNK <;> simp
  · cases cfg.fChargedMC <;> simp
  · cases cfg.fOnlyHIJING <;> simp
  · cases cfg.fOnlyPhysPrim <;> simp

theorem Double_t.eta_guard_finite (etaMax eta : ℚ) :
    ¬ (Double_t.gt (.finite etaMax) (.finite 0) = true ∧
      Double_t.gt (TMath.Abs (.finite eta)) (.finite etaMax) = true) ↔
      (etaMax ≤ 0 ∨ |eta| ≤ etaMax) := by
  simp only [TMath.Abs, Double_t.gt_finite]
  rw [not_and_or, not_lt, not_lt]

theorem ConvertMCParticles.convert_accept_iff (cfg : Config) (fMC : AliMCEvent)
    (part : AliMCParticle) (iPart : Nat) (etaMax eta : ℚ)
    (hmax : cfg.fEtaMax = .finite etaMax) (heta : part.Eta = .finite eta) :
    ConvertMCParticles.accept cfg fMC part iPart = true ↔
      (etaMax ≤ 0 ∨ |eta| ≤ etaMax) ∧
      (cfg.fRejectNK = false ∨ (part.PdgCode ≠ 130 ∧ part.PdgCode ≠ 2112)) ∧
      (cfg.fChargedMC = false ∨ part.Charge ≠ 0) ∧
      (cfg.fOnlyHIJING = false ∨ part.GeneratorIndex = 0) ∧
      (cfg.fOnlyPhysPrim = false ∨ fMC.IsPhysicalPrimary iPart = true) := by
  rw [ConvertMCParticles.convert_accept_iff_guards, hmax, heta, Double_t.eta_guard_finite]

theorem CopyMCParticles.copy_accept_iff (cfg : Config) (part : AliAODMCParticle)
    (etaMax eta : ℚ) (hmax : cfg.fEtaMax = .finite etaMax) (heta : part.Eta = .finite eta) :
    CopyMCParticles.accept cfg part = true ↔
      (etaMax ≤ 0 ∨ |eta| ≤ etaMax) ∧
      (cfg.fRejectNK = false ∨ (part.PdgCode ≠ 130 ∧ part.PdgCode ≠ 2112)) ∧
      (cfg.fChargedMC = false ∨ part.Charge ≠ 0) ∧
      (cfg.fOnlyHIJING = false ∨ part.GeneratorIndex = 0) ∧
      (cfg.fOnlyPhysPrim = false ∨ part.IsPhysicalPrimary = true) := by
  rw [CopyMCParticles.copy_accept_iff_guards, hmax, heta, Double_t.eta_guard_finite]

theorem LoopState.write_ne (s : LoopState) (i : Nat) (q : AliAODMCParticle) :
    s.write i q ≠ s := by
  intro h
  have := congrArg LoopState.nacc h
  simp [LoopState.write] at this


theorem ConvertMCParticles.convert_accept_eq_passes (cfg : Config) (fMC : AliMCEvent)
    (part : AliMCParticle) (iPart : Nat) :
    ConvertMCParticles.accept cfg fMC part iPart =
      (ConvertMCParticles.passes .eta cfg fMC part iPart &&
       ConvertMCParticles.passes .rejectNK cfg fMC part iPart &&
       ConvertMCParticles.passes .chargedMC cfg fMC part iPart &&
       ConvertMCParticles.passes .onlyHIJING cfg fMC part iPart &&
       ConvertMCParticles.passes .onlyPhysPrim cfg fMC part iPart) := by
  unfold ConvertMCParticles.accept ConvertMCParticles.passes
  by_cases h1 : Double_t.gt cfg.fEtaMax (.finite 0) = true ∧
      Double_t.gt (TMath.Abs part.Eta) cfg.fEtaMax = true
  · simp [h1]
  · by_cases h2 : cfg.fRejectNK = true ∧ (part.PdgCode = 130 ∨ part.PdgCode = 2112)
    · simp only [h1, h2, if_true, if_false]; simp
    · by_cases h3 : cfg.fChargedMC = true ∧ part.Charge = 0
      · simp only [h1, h2, h3, if_true, if_false]; simp
      · by_cases h4 : cfg.fOnlyHIJING = true ∧ part.GeneratorIndex ≠ 0
        · simp only [h1, h2, h3, h4, if_true, if_false]; simp
        · by_cases h5 : cfg.fOnlyPhysPrim = true ∧ fMC.IsPhysicalPrimary iPart = false
          · simp only [h1, h2, h3, h4, h5, if_true, if_false]; simp
          · simp only [h1, h2, h3, h4, h5, if_false]; simp

theorem CopyMCParticles.copy_accept_eq_passes (cfg : Config) (part : AliAODMCParticle) :
    CopyMCParticles.accept cfg part =
      (CopyMCParticles.passes .eta cfg part &&
       CopyMCParticles.passes .rejectNK cfg part &&
       CopyMCParticles.passes .chargedMC cfg part &&
       CopyMCParticles.passes .onlyHIJING cfg part &&
       CopyMCParticles.passes .onlyPhysPrim cfg part) := by
  unfold CopyMCParticles.accept CopyMCParticles.passes
  by_cases h1 : Double_t.gt cfg.fEtaMax (.finite 0) = true ∧
      Double_t.gt (TMath.Abs part.Eta) cfg.fEtaMax = true
  · simp [h1]
  · by_cases h2 : cfg.fRejectNK = true ∧ (part.PdgCode = 130 ∨ part.PdgCode = 2112)
    · simp only [h1, h2, if_true, if_false]; simp
    · by_cases h3 : cfg.fChargedMC = true ∧ part.Charge = 0
      · simp only [h1, h2, h3, if_true, if_false]; simp
      · by_cases h4 : cfg.fOnlyHIJING = true ∧ part.GeneratorIndex ≠ 0
        · simp only [h1, h2, h3, h4, if_true, if_false]; simp
        · by_cases h5 : cfg.fOnlyPhysPrim = true ∧ part.IsPhysicalPrimary = false
          · simp only [h1, h2, h3, h4, h5, if_true, if_false]; simp
          · simp only [h1, h2, h3, h4, h5, if_false]; simp

theorem ConvertMCParticles.convert_passes_congr (k c : Cut) (cfg other : Config) (fMC : AliMCEvent)
    (part : AliMCParticle) (iPart : Nat) (hc : c ≠ k) (h : Config.agreeExcept c cfg other) :
    ConvertMCParticles.passes k other fMC part iPart =
      ConvertMCParticles.passes k cfg fMC part iPart := by
  obtain ⟨h1, h2, h3, h4, h5⟩ := h
  cases k <;> simp only [ConvertMCParticles.passes]
  · rw [h1 hc]
  · rw [h2 hc]
  · rw [h3 hc]
  · rw [h4 hc]
  · rw [h5 hc]

theorem CopyMCParticles.copy_passes_congr (k c : Cut) (cfg other : Config)
    (part : AliAODMCParticle) (hc : c ≠ k) (h : Config.agreeExcept c cfg other) :
    CopyMCParticles.passes k other part = CopyMCParticles.passes k cfg part := by
  obtain ⟨h1, h2, h3, h4, h5⟩ := h
  cases k <;> simp only [CopyMCParticles.passes]
  · rw [h1 hc]
  · rw [h2 hc]
  · rw [h3 hc]
  · rw [h4 hc]
  · rw [h5 hc]

theorem ConvertMCParticles.convert_accept_false_of_passes (k : Cut) (cfg : Config) (fMC : AliMCEvent)
    (part : AliMCParticle) (iPart : Nat)
    (h : ConvertMCParticles.passes k cfg fMC part iPart = false) :
    ConvertMCParticles.accept cfg fMC part iPart = false := by
  rw [ConvertMCParticles.convert_accept_eq_passes]
  cases k <;> simp [h]

theorem CopyMCParticles.copy_accept_false_of_passes (k : Cut) (cfg : Config)
    (part : AliAODMCParticle) (h : CopyMCParticles.passes k cfg part = false) :
    CopyMCParticles.accept cfg part = false := by
  rw [CopyMCParticles.copy_accept_eq_passes]
  cases k <;> simp [h]

theorem ConvertMCParticles.convert_passes_disable (k c : Cut) (t : ℚ) (ht : t ≤ 0) (cfg : Config)
    (fMC : AliMCEvent) (part : AliMCParticle) (iPart : Nat)
    (h : c ≠ k → ConvertMCParticles.passes c cfg fMC part iPart = true) :
    ConvertMCParticles.passes c (cfg.disable k t) fMC part iPart = true := by
  have hnt : Double_t.gt (.finite t) (.finite 0) = false := by
    simp [Double_t.gt, ht]
  cases k <;> cases c <;>
    first
    | exact h (by decide)
    | simp [ConvertMCParticles.passes, Config.disable, hnt]

theorem CopyMCParticles.copy_passes_disable (k c : Cut) (t : ℚ) (ht : t ≤ 0) (cfg : Config)
    (part : AliAODMCParticle) (h : c ≠ k → CopyMCParticles.passes c cfg part = true) :
    CopyMCParticles.passes c (cfg.disable k t) part = true := by
  have hnt : Double_t.gt (.finite t) (.finite 0) = false := by
    simp [Double_t.gt, ht]
  cases k <;> cases c <;>
    first
    | exact h (by decide)
    | simp [CopyMCParticles.passes, Config.disable, hnt]

/-! ## Lemmas: the index map and the output collection after a pass -/

theorem wrapInt32_of_mem (z : Int) (h0 : -2147483648 ≤ z) (h1 : z ≤ 2147483647) :
    wrapInt32 z = z := by
  unfold wrapInt32
  omega

theorem ConvertMCParticles.convert_lt_sized (fMC : AliMCEvent) (m : AliNamedArrayI) (i : Nat)
    (hN : fMC.GetNumberOfTracks * 2 ≤ 2147483647) (hi : (i : Int) < fMC.GetNumberOfTracks) :
    i < (ConvertMCParticles.sized fMC m).GetSize := by
  unfold ConvertMCParticles.sized
  by_cases h : (m.Clear.GetSize : Int) ≤ fMC.GetNumberOfTracks
  · rw [if_pos h, wrapInt32_of_mem _ (by omega) hN, AliNamedArrayI.GetSize_Set _ _ (by omega)]
    omega
  · rw [if_neg h]
    omega

theorem ConvertMCParticles.convert_map_At (cfg : Config) (fMC : AliMCEvent) (b : Buffers) (j : Nat) :
    (ConvertMCParticles cfg fMC b).fParticlesMap.At j =
      if j < fMC.GetNumberOfTracks.toNat ∧ j < (ConvertMCParticles.sized fMC b.fParticlesMap).GetSize
          ∧ ConvertMCParticles.survives cfg fMC j = true then
        some ((List.range j).filter (ConvertMCParticles.survives cfg fMC)).length
      else (ConvertMCParticles.sized fMC b.fParticlesMap).At j := by
  rw [ConvertMCParticles_eq_run]
  simp only [LoopState.run_At, ConvertMCParticles.convert_derive_isSome]
  rw [survivors_length_eq_filter _ _ (ConvertMCParticles.convert_derive_isSome cfg fMC)]

theorem CopyMCParticles.copy_map_At (cfg : Config) (fParticlesIn : TClonesArray AliAODMCParticle)
    (b : Buffers) (j : Nat) :
    (CopyMCParticles cfg (some fParticlesIn) b).fParticlesMap.At j =
      if j < fParticlesIn.length ∧ j < b.fParticlesMap.GetSize
          ∧ CopyMCParticles.survives cfg fParticlesIn j = true then
        some ((List.range j).filter (CopyMCParticles.survives cfg fParticlesIn)).length
      else none := by
  rw [CopyMCParticles_eq_run]
  simp only [LoopState.run_At, CopyMCParticles.copy_derive_isSome, AliNamedArrayI.GetSize_Clear,
    AliNamedArrayI.At_Clear]
  rw [survivors_length_eq_filter _ _ (CopyMCParticles.copy_derive_isSome cfg fParticlesIn)]

theorem ConvertMCParticles.convert_map_GetSize (cfg : Config) (fMC : AliMCEvent) (b : Buffers) :
    (ConvertMCParticles cfg fMC b).fParticlesMap.GetSize =
      (ConvertMCParticles.sized fMC b.fParticlesMap).GetSize := by
  rw [ConvertMCParticles_eq_run]
  exact LoopState.run_size _ _ _

theorem CopyMCParticles.copy_map_GetSize (cfg : Config)
    (fParticlesIn : TClonesArray AliAODMCParticle) (b : Buffers) :
    (CopyMCParticles cfg (some fParticlesIn) b).fParticlesMap.GetSize =
      b.fParticlesMap.GetSize := by
  rw [CopyMCParticles_eq_run]
  simp only [LoopState.run_size, AliNamedArrayI.GetSize_Clear]

theorem ConvertMCParticles.convert_out_eq (cfg : Config) (fMC : AliMCEvent) (b : Buffers) :
    (ConvertMCParticles cfg fMC b).fParticlesOut =
      ((List.range fMC.GetNumberOfTracks.toNat).filterMap
        (ConvertMCParticles.derive cfg fMC)).map some := by
  rw [ConvertMCParticles_eq_run]
  exact (LoopState.run_out _ _ _).2

theorem CopyMCParticles.copy_out_eq (cfg : Config) (fParticlesIn : TClonesArray AliAODMCParticle)
    (b : Buffers) :
    (CopyMCParticles cfg (some fParticlesIn) b).fParticlesOut =
      ((List.range fParticlesIn.length).filterMap
        (CopyMCParticles.derive cfg fParticlesIn)).map some := by
  rw [CopyMCParticles_eq_run]
  exact (LoopState.run_out _ _ _).2

theorem ConvertMCParticles.convert_sized_of_overflow (fMC : AliMCEvent) (m : AliNamedArrayI)
    (h : wrapInt32 (fMC.GetNumberOfTracks * 2) < 0) :
    (ConvertMCParticles.sized fMC m).GetSize = m.GetSize := by
  unfold ConvertMCParticles.sized
  split
  · rw [AliNamedArrayI.Set_of_neg _ _ h, AliNamedArrayI.GetSize_Clear]
  · rw [AliNamedArrayI.GetSize_Clear]

theorem setupBuffers_GetSize : setupBuffers.fParticlesMap.GetSize = 99999 := by
  show (List.replicate 99999 (none : Option Nat)).length = 99999
  exact List.length_replicate _ _

theorem ConvertMCParticles.convert_sized_eq_of_overflow (fMC : AliMCEvent) (m : AliNamedArrayI)
    (h : wrapInt32 (fMC.GetNumberOfTracks * 2) < 0) :
    ConvertMCParticles.sized fMC m = m.Clear := by
  unfold ConvertMCParticles.sized
  split
  · rw [AliNamedArrayI.Set_of_neg _ _ h]
  · rfl

theorem survivors_length_of_all (d : Nat → Option AliAODMCParticle) (n : Nat)
    (h : ∀ i, i < n → (d i).isSome = true) : (survivors d n).length = n := by
  induction n with
  | zero => simp [survivors]
  | succ k ih =>
    rw [survivors_succ, List.length_append, ih (fun i hi => h i (by omega))]
    have hk := h k (by omega)
    cases hd : d k with
    | none => simp [hd] at hk
    | some q => simp

theorem survivors_getElem (d : Nat → Option AliAODMCParticle) (i n : Nat) (hin : i < n)
    (hi : (d i).isSome = true) : (survivors d n)[(survivors d i).length]? = d i := by
  induction n with
  | zero => omega
  | succ k ih =>
    rw [survivors_succ]
    by_cases hik : i = k
    · subst hik
      cases hd : d i with
      | none => simp [hd] at hi
      | some q => simp
    · have hlt : i < k := by omega
      rw [List.getElem?_append_left (survivors_length_lt d hlt hi)]
      exact ih hlt

theorem survivors_exists_rank (d : Nat → Option AliAODMCParticle) (n v : Nat)
    (hv : v < (survivors d n).length) :
    ∃ i, i < n ∧ (d i).isSome = true ∧ (survivors d i).length = v := by
  induction n with
  | zero => simp [survivors] at hv
  | succ k ih =>
    rw [survivors_succ, List.length_append] at hv
    by_cases hlt : v < (survivors d k).length
    · obtain ⟨i, hi, h1, h2⟩ := ih hlt
      exact ⟨i, by omega, h1, h2⟩
    · cases hd : d k with
      | none =>
        rw [hd] at hv
        simp at hv
        omega
      | some q =>
        rw [hd] at hv
        simp at hv
        exact ⟨k, by omega, by simp [hd], by omega⟩

theorem ConvertMCParticles.convert_accept_noCuts (fMC : AliMCEvent) (part : AliMCParticle)
    (iPart : Nat) : ConvertMCParticles.accept noCutsConfig fMC part iPart = true := by
  simp [ConvertMCParticles.accept, noCutsConfig, Double_t.gt]

theorem TClonesArray.At_map_some {α : Type} (l : List α) (j : Nat) :
    TClonesArray.At (l.map some) j = l[j]? := by
  unfold TClonesArray.At
  rw [List.getD_eq_getElem?_getD, List.getElem?_map]
  cases l[j]? <;> rfl

theorem pionCollection_At (n i : Nat) (h : i < n) :
    TClonesArray.At (pionCollection n) i = some pionFlat := by
  simp [TClonesArray.At, pionCollection, List.getD_eq_getElem?_getD, List.getElem?_replicate, h]

theorem pionCollection_length (n : Nat) : (pionCollection n).length = n := by
  simp [pionCollection]

/-! ## Lemmas: what the passes leave unmapped, and running a pass twice -/

theorem AliNamedArrayI.At_Set_of_cleared (m : AliNamedArrayI) (n : Int) (j : Nat)
    (hj : j < m.GetSize) : (m.Clear.Set n).At j = none := by
  by_cases hn : n < 0
  · rw [AliNamedArrayI.Set_of_neg _ _ hn]
    exact AliNamedArrayI.At_Clear _ _
  · by_cases hjn : (j : Int) < n
    · rw [AliNamedArrayI.At_Set_old _ _ _ (by rw [AliNamedArrayI.GetSize_Clear]; exact hj) hjn]
      exact AliNamedArrayI.At_Clear _ _
    · apply AliNamedArrayI.At_of_size_le
      rw [AliNamedArrayI.GetSize_Set _ _ (by omega)]
      omega

theorem ConvertMCParticles.convert_unmapped_of_old_cell (cfg : Config) (fMC : AliMCEvent)
    (b : Buffers) (j : Nat) (hj : j < b.fParticlesMap.GetSize)
    (hs : ConvertMCParticles.survives cfg fMC j = false) :
    (ConvertMCParticles cfg fMC b).fParticlesMap.At j = none := by
  rw [ConvertMCParticles.convert_map_At, if_neg (by
    rintro ⟨_, _, h⟩
    rw [hs] at h
    exact Bool.noConfusion h)]
  unfold ConvertMCParticles.sized
  split
  · exact AliNamedArrayI.At_Set_of_cleared _ _ _ hj
  · exact AliNamedArrayI.At_Clear _ _

theorem CopyMCParticles.copy_unmapped (cfg : Config)
    (fParticlesIn : TClonesArray AliAODMCParticle) (b : Buffers) (j : Nat)
    (hs : CopyMCParticles.survives cfg fParticlesIn j = false) :
    (CopyMCParticles cfg (some fParticlesIn) b).fParticlesMap.At j = none := by
  rw [CopyMCParticles.copy_map_At, if_neg (by
    rintro ⟨_, _, h⟩
    rw [hs] at h
    exact Bool.noConfusion h)]

theorem AliNamedArrayI.Clear_eq_of_size (m n : AliNamedArrayI) (h : m.GetSize = n.GetSize) :
    m.Clear = n.Clear := by
  unfold AliNamedArrayI.Clear
  unfold AliNamedArrayI.GetSize at h
  rw [h]

theorem CopyMCParticles_twice (cfg : Config) (fParticlesIn : TClonesArray AliAODMCParticle)
    (b : Buffers) :
    CopyMCParticles cfg (some fParticlesIn) (CopyMCParticles cfg (some fParticlesIn) b) =
      CopyMCParticles cfg (some fParticlesIn) b := by
  rw [CopyMCParticles_eq_run cfg fParticlesIn (CopyMCParticles cfg (some fParticlesIn) b),
    AliNamedArrayI.Clear_eq_of_size _ _ (CopyMCParticles.copy_map_GetSize cfg fParticlesIn b),
    ← CopyMCParticles_eq_run]

theorem ConvertMCParticles_twice_of_large_map (cfg : Config) (fMC : AliMCEvent) (b : Buffers)
    (h : fMC.GetNumberOfTracks < (b.fParticlesMap.GetSize : Int)) :
    ConvertMCParticles cfg fMC (ConvertMCParticles cfg fMC b) = ConvertMCParticles cfg fMC b := by
  have hsized : ∀ m : AliNamedArrayI, fMC.GetNumberOfTracks < (m.GetSize : Int) →
      ConvertMCParticles.sized fMC m = m.Clear := by
    intro m hm
    unfold ConvertMCParticles.sized
    rw [if_neg (by rw [AliNamedArrayI.GetSize_Clear]; omega)]
  have hsize : (ConvertMCParticles cfg fMC b).fParticlesMap.GetSize =
      b.fParticlesMap.GetSize := by
    rw [ConvertMCParticles.convert_map_GetSize, hsized _ h, AliNamedArrayI.GetSize_Clear]
  rw [ConvertMCParticles_eq_run cfg fMC (ConvertMCParticles cfg fMC b),
    hsized _ (by rw [hsize]; exact h), AliNamedArrayI.Clear_eq_of_size _ _ hsize,
    ← hsized _ h, ← ConvertMCParticles_eq_run]

theorem TClonesArray.At_ConstructAt {α : Type} (a : TClonesArray α) (idx : Nat) (x : α) :
    TClonesArray.At (TClonesArray.ConstructAt a idx x) idx = some x := by
  unfold TClonesArray.At TClonesArray.ConstructAt
  by_cases h : idx < a.length
  · simp [h, List.getD_eq_getElem?_getD]
  · have hlen : (a ++ List.replicate (idx - a.length) (none : Option α)).length = idx := by
      rw [List.length_append, List.length_replicate]
      omega
    rw [if_neg h, List.getD_eq_getElem?_getD, List.getElem?_append_right (by omega), hlen]
    simp

theorem LoopState.write_out_At (s : LoopState) (i : Nat) (q : AliAODMCParticle) :
    TClonesArray.At (s.write i q).fParticlesOut s.nacc = some q := by
  unfold LoopState.write
  exact TClonesArray.At_ConstructAt _ _ _

theorem LoopState.write_map_At (s : LoopState) (i : Nat) (q : AliAODMCParticle)
    (h : i < s.fParticlesMap.GetSize) : (s.write i q).fParticlesMap.At i = some s.nacc := by
  unfold LoopState.write
  simp [AliNamedArrayI.At_AddAt, h]

/-! ## Lemmas: the flag word, the loop prefix and the capacity of the map -/

theorem ConvertMCParticles.convert_flag_bits (fMC : AliMCEvent) (nprim : Int) (iPart : Nat) :
    ((ConvertMCParticles.flag fMC nprim iPart &&& kPrimary = kPrimary ↔
        (iPart : Int) < nprim) ∧
      (ConvertMCParticles.flag fMC nprim iPart &&& kPhysicalPrim = kPhysicalPrim ↔
        fMC.IsPhysicalPrimary iPart = true) ∧
      (ConvertMCParticles.flag fMC nprim iPart &&& kSecondaryFromWeakDecay =
          kSecondaryFromWeakDecay ↔ fMC.IsSecondaryFromWeakDecay iPart = true) ∧
      (ConvertMCParticles.flag fMC nprim iPart &&& kSecondaryFromMaterial =
          kSecondaryFromMaterial ↔ fMC.IsSecondaryFromMaterial iPart = true)) ∧
    ConvertMCParticles.flag fMC nprim iPart &&&
      (kPrimary ||| kPhysicalPrim ||| kSecondaryFromWeakDecay ||| kSecondaryFromMaterial) =
      ConvertMCParticles.flag fMC nprim iPart := by
  unfold ConvertMCParticles.flag kPrimary kPhysicalPrim kSecondaryFromWeakDecay
    kSecondaryFromMaterial
  by_cases h1 : (iPart : Int) < nprim <;> cases h2 : fMC.IsPhysicalPrimary iPart <;>
    cases h3 : fMC.IsSecondaryFromWeakDecay iPart <;>
    cases h4 : fMC.IsSecondaryFromMaterial iPart <;>
    simp [h1] <;> decide

theorem ConvertMCParticles.convert_flag_eq (fMC : AliMCEvent) (nprim : Int) (iPart : Nat) :
    ConvertMCParticles.flag fMC nprim iPart =
      (if (iPart : Int) < nprim then kPrimary else 0) |||
      (if fMC.IsPhysicalPrimary iPart = true then kPhysicalPrim else 0) |||
      (if fMC.IsSecondaryFromWeakDecay iPart = true then kSecondaryFromWeakDecay else 0) |||
      (if fMC.IsSecondaryFromMaterial iPart = true then kSecondaryFromMaterial else 0) := by
  unfold ConvertMCParticles.flag kPrimary kPhysicalPrim kSecondaryFromWeakDecay
    kSecondaryFromMaterial
  by_cases h1 : (iPart : Int) < nprim <;> cases h2 : fMC.IsPhysicalPrimary iPart <;>
    cases h3 : fMC.IsSecondaryFromWeakDecay iPart <;>
    cases h4 : fMC.IsSecondaryFromMaterial iPart <;>
    simp [h1]

theorem ConvertMCParticles.convert_prefix_eq_run (cfg : Config) (fMC : AliMCEvent)
    (m : AliNamedArrayI) (n : Nat) :
    (List.range n).foldl (ConvertMCParticles.body cfg fMC fMC.GetNumberOfPrimaries)
        { fParticlesOut := [], fParticlesMap := m, nacc := 0 } =
      LoopState.run (ConvertMCParticles.derive cfg fMC) m n := by
  rw [ConvertMCParticles.convert_body_eq_step]
  rfl

theorem ConvertMCParticles.convert_sized_cases (fMC : AliMCEvent) (m : AliNamedArrayI)
    (hN : fMC.GetNumberOfTracks * 2 ≤ 2147483647) :
    m.GetSize ≤ (ConvertMCParticles.sized fMC m).GetSize ∧
    (1 ≤ m.GetSize →
      fMC.GetNumberOfTracks < ((ConvertMCParticles.sized fMC m).GetSize : Int)) ∧
    (((m.GetSize : Nat) : Int) ≤ fMC.GetNumberOfTracks →
      (((ConvertMCParticles.sized fMC m).GetSize : Nat) : Int) =
        2 * fMC.GetNumberOfTracks) := by
  unfold ConvertMCParticles.sized
  by_cases h : (m.Clear.GetSize : Int) ≤ fMC.GetNumberOfTracks
  · rw [if_pos h]
    rw [AliNamedArrayI.GetSize_Clear] at h
    rw [wrapInt32_of_mem _ (by omega) hN, AliNamedArrayI.GetSize_Set _ _ (by omega)]
    refine ⟨by omega, fun _ => by omega, fun _ => by omega⟩
  · rw [if_neg h, AliNamedArrayI.GetSize_Clear]
    rw [AliNamedArrayI.GetSize_Clear] at h
    refine ⟨le_refl _, fun _ => by omega, fun h2 => absurd h2 h⟩

theorem ConvertMCParticles.convert_events_size (cfg : Config) (evs : List AliMCEvent) :
    ∀ b : Buffers, 1 ≤ b.fParticlesMap.GetSize →
      (∀ fMC, fMC ∈ evs → fMC.GetNumberOfTracks * 2 ≤ 2147483647) →
      b.fParticlesMap.GetSize ≤ (ConvertMCParticles.events cfg b evs).fParticlesMap.GetSize ∧
      ∀ fMC, fMC ∈ evs → fMC.GetNumberOfTracks <
        (((ConvertMCParticles.events cfg b evs).fParticlesMap.GetSize : Nat) : Int) := by
  induction evs with
  | nil =>
    intro b _ _
    exact ⟨le_refl _, fun fMC h => absurd h (List.not_mem_nil fMC)⟩
  | cons e rest ih =>
    intro b hb hN
    have hc := ConvertMCParticles.convert_sized_cases e b.fParticlesMap
      (hN e (List.mem_cons_self e rest))
    have hsz := ConvertMCParticles.convert_map_GetSize cfg e b
    have hstep : 1 ≤ (ConvertMCParticles cfg e b).fParticlesMap.GetSize := by
      rw [hsz]
      omega
    have hrec := ih (ConvertMCParticles cfg e b) hstep
      (fun fMC h => hN fMC (List.mem_cons_of_mem e h))
    have hev : ConvertMCParticles.events cfg b (e :: rest) =
        ConvertMCParticles.events cfg (ConvertMCParticles cfg e b) rest := rfl
    rw [hev]
    refine ⟨by omega, ?_⟩
    intro fMC hmem
    rcases List.mem_cons.mp hmem with h | h
    · subst h
      have := hc.2.1 hb
      omega
    · exact hrec.2 fMC h

/-! ## Lemmas: one invocation of `UserExec` -/

theorem UserExec.dispatch_fields (t : Selector) :
    (UserExec.dispatch t).1.fParticlesOutName = t.fParticlesOutName ∧
    (UserExec.dispatch t).1.fInit = t.fInit ∧
    (UserExec.dispatch t).1.fIsESD = t.fIsESD ∧
    (UserExec.dispatch t).1.config = t.config ∧
    (UserExec.dispatch t).1.fMC = t.fMC ∧
    (UserExec.dispatch t).1.fParticlesIn = t.fParticlesIn ∧
    (UserExec.dispatch t).1.fParticlesOut.isSome = t.fParticlesOut.isSome ∧
    (UserExec.dispatch t).1.fParticlesMap.isSome = t.fParticlesMap.isSome := by
  unfold UserExec.dispatch
  split <;> split <;> simp_all [Selector.config]

theorem UserExec.dispatch_log (t : Selector) :
    (UserExec.dispatch t).2 = [Effect.pass t.fIsESD] ∨
    (UserExec.dispatch t).2 = [Effect.pass t.fIsESD, Effect.nullDereference] := by
  unfold UserExec.dispatch Effect.pass
  split <;> split <;> simp_all

theorem UserExec.dispatch_log_of_ready (t : Selector)
    (hout : t.fParticlesOut.isSome = true) (hmap : t.fParticlesMap.isSome = true)
    (hin : t.fIsESD = true → t.fMC.isSome = true) :
    (UserExec.dispatch t).2 = [Effect.pass t.fIsESD] := by
  obtain ⟨out, hout⟩ := Option.isSome_iff_exists.mp hout
  obtain ⟨map, hmap⟩ := Option.isSome_iff_exists.mp hmap
  unfold UserExec.dispatch Effect.pass
  cases hesd : t.fIsESD with
  | true =>
    obtain ⟨fMC, hmc⟩ := Option.isSome_iff_exists.mp (hin hesd)
    simp [hout, hmap, hmc]
  | false =>
    cases hinp : t.fParticlesIn with
    | none => simp
    | some inp => simp [hout, hmap]

theorem UserExec.fetchMC_shape (t : Selector) (ev : AliVEvent) (h : Host) (log : List Effect) :
    (UserExec.fetchMC t ev h log).event = some ev ∧
    (UserExec.fetchMC t ev h log).task.fParticlesOutName = t.fParticlesOutName ∧
    (UserExec.fetchMC t ev h log).task.fIsESD = t.fIsESD ∧
    ((h.MCEvent = none ∧ (UserExec.fetchMC t ev h log).task.fInit = t.fInit ∧
        (UserExec.fetchMC t ev h log).log =
          log ++ [Effect.fatal "Could not retrieve MC event! Returning"]) ∨
      (h.MCEvent.isSome = true ∧ (UserExec.fetchMC t ev h log).task.fInit = true ∧
        ((UserExec.fetchMC t ev h log).log = log ++ [Effect.pass t.fIsESD] ∨
          (UserExec.fetchMC t ev h log).log =
            log ++ [Effect.pass t.fIsESD, Effect.nullDereference]) ∧
        (t.fParticlesOut.isSome = true → t.fParticlesMap.isSome = true →
          (UserExec.fetchMC t ev h log).log = log ++ [Effect.pass t.fIsESD]))) := by
  unfold UserExec.fetchMC
  cases hmc : h.MCEvent with
  | none => simp
  | some fMC =>
    have hf := UserExec.dispatch_fields { t with fMC := some fMC, fInit := true }
    have hl := UserExec.dispatch_log { t with fMC := some fMC, fInit := true }
    refine ⟨rfl, hf.1, hf.2.2.1, Or.inr ⟨rfl, hf.2.1, ?_, ?_⟩⟩
    · rcases hl with hl | hl
      · exact Or.inl (by simp only [hl])
      · exact Or.inr (by simp only [hl])
    · intro hout hmap
      have := UserExec.dispatch_log_of_ready { t with fMC := some fMC, fInit := true }
        hout hmap (fun _ => rfl)
      simp only [this]

theorem UserExec.resolveInput_shape (t : Selector) (ev : AliVEvent) (h : Host)
    (log : List Effect) :
    (UserExec.resolveInput t ev h log).event = some ev ∧
    (UserExec.resolveInput t ev h log).task.fParticlesOutName = t.fParticlesOutName ∧
    (UserExec.resolveInput t ev h log).task.fIsESD = t.fIsESD ∧
    ((∃ msg, (UserExec.resolveInput t ev h log).task.fInit = t.fInit ∧
        (UserExec.resolveInput t ev h log).log = log ++ [Effect.fatal msg] ∧
        (h.MCEvent = none ∨ ev.FindListObject StdBranchName = none ∨
          ∃ obj, ev.FindListObject StdBranchName = some obj ∧
            obj.inheritsAODMCParticle = false)) ∨
      (h.MCEvent.isSome = true ∧
        (∃ obj, ev.FindListObject StdBranchName = some obj ∧
          obj.inheritsAODMCParticle = true) ∧
        (UserExec.resolveInput t ev h log).task.fInit = true ∧
        ((UserExec.resolveInput t ev h log).log = log ++ [Effect.pass t.fIsESD] ∨
          (UserExec.resolveInput t ev h log).log =
            log ++ [Effect.pass t.fIsESD, Effect.nullDereference]) ∧
        (t.fParticlesOut.isSome = true → t.fParticlesMap.isSome = true →
          (UserExec.resolveInput t ev h log).log = log ++ [Effect.pass t.fIsESD]))) := by
  unfold UserExec.resolveInput
  cases hfind : ev.FindListObject StdBranchName with
  | none => exact ⟨rfl, rfl, rfl, Or.inl ⟨_, rfl, rfl, Or.inr (Or.inl rfl)⟩⟩
  | some obj =>
    simp only []
    cases hcls : obj.inheritsAODMCParticle with
    | false =>
      rw [if_pos rfl]
      exact ⟨rfl, rfl, rfl, Or.inl ⟨_, rfl, rfl, Or.inr (Or.inr ⟨obj, rfl, hcls⟩)⟩⟩
    | true =>
      have hne : ¬ (true = false) := Bool.noConfusion
      rw [if_neg hne]
      obtain ⟨h1, h2, h3, h4⟩ :=
        UserExec.fetchMC_shape { t with fParticlesIn := some obj.items } ev h log
      refine ⟨h1, h2, h3, ?_⟩
      rcases h4 with ⟨hmc, hinit, hlog⟩ | ⟨hmc, hinit, hlog, hready⟩
      · exact Or.inl ⟨_, hinit, hlog, Or.inl hmc⟩
      · exact Or.inr ⟨hmc, ⟨obj, rfl, hcls⟩, hinit, hlog, hready⟩

theorem UserExec_of_init (t : Selector) (h : Host) (h1 : t.fInit = true) :
    UserExec t h =
      { task := (UserExec.dispatch t).1, event := h.InputEvent, log := (UserExec.dispatch t).2 } := by
  unfold UserExec
  rw [if_neg (by rw [h1]; exact Bool.noConfusion)]

theorem UserExec_of_no_event (t : Selector) (h : Host) (h0 : t.fInit = false)
    (h1 : h.InputEvent = none) :
    UserExec t h =
      { task := { t with fEvent := false }
        event := none
        log := [Effect.error "Could not retrieve event! Returning"] } := by
  unfold UserExec
  rw [if_pos h0, h1]

theorem UserExec_of_collision (t : Selector) (h : Host) (ev : AliVEvent) (obj : TObject)
    (h0 : t.fInit = false) (h1 : h.InputEvent = some ev)
    (h2 : ev.FindListObject t.fParticlesOutName = some obj) :
    UserExec t h =
      { task := { t with fEvent := true, fIsESD := ev.inheritsESD }
        event := some ev
        log := [Effect.detectFormat ev.inheritsESD,
          Effect.fatal ("The output array " ++ t.fParticlesOutName ++
            " is already present in the array!")] } := by
  unfold UserExec
  rw [if_pos h0, h1]
  simp only [h2]

theorem UserExec_of_fresh (t : Selector) (h : Host) (ev : AliVEvent)
    (h0 : t.fInit = false) (h1 : h.InputEvent = some ev)
    (h2 : ev.FindListObject t.fParticlesOutName = none) :
    UserExec t h =
      if ev.inheritsESD = false then
        UserExec.resolveInput
          { t with
            fEvent := true, fIsESD := ev.inheritsESD, fParticlesOut := some [],
            fParticlesMapName := t.fParticlesOutName ++ "_Map",
            fParticlesMap := some ⟨List.replicate 99999 none⟩ }
          (ev.AddObject t.fParticlesOutName { inheritsAODMCParticle := true, items := [] }) h
          [Effect.detectFormat ev.inheritsESD, Effect.allocateOutput,
            Effect.publish t.fParticlesOutName,
            Effect.allocateMap (t.fParticlesOutName ++ "_Map")]
      else
        UserExec.fetchMC
          { t with
            fEvent := true, fIsESD := ev.inheritsESD, fParticlesOut := some [],
            fParticlesMapName := t.fParticlesOutName ++ "_Map",
            fParticlesMap := some ⟨List.replicate 99999 none⟩ }
          (ev.AddObject t.fParticlesOutName { inheritsAODMCParticle := true, items := [] }) h
          [Effect.detectFormat ev.inheritsESD, Effect.allocateOutput,
            Effect.publish t.fParticlesOutName,
            Effect.allocateMap (t.fParticlesOutName ++ "_Map")] := by
  unfold UserExec
  rw [if_pos h0, h1]
  simp only [h2]
  rfl

/-- The five ways an invocation of `UserExec` can go. -/
theorem UserExec_shape (t : Selector) (h : Host) :
    (UserExec t h).task.fParticlesOutName = t.fParticlesOutName ∧
    ((t.fInit = true ∧ (UserExec t h).task.fInit = true ∧
        (UserExec t h).task.fIsESD = t.fIsESD ∧ (UserExec t h).event = h.InputEvent ∧
        ((UserExec t h).log = [Effect.pass t.fIsESD] ∨
          (UserExec t h).log = [Effect.pass t.fIsESD, Effect.nullDereference])) ∨
      (t.fInit = false ∧ h.InputEvent = none ∧ (UserExec t h).event = none ∧
        (UserExec t h).task.fInit = false ∧
        (UserExec t h).log = [Effect.error "Could not retrieve event! Returning"]) ∨
      (t.fInit = false ∧ ∃ ev, h.InputEvent = some ev ∧
        (ev.FindListObject t.fParticlesOutName).isSome = true ∧
        (UserExec t h).event = some ev ∧ (UserExec t h).task.fInit = false ∧
        ∃ msg, (UserExec t h).log = [Effect.detectFormat ev.inheritsESD, Effect.fatal msg]) ∨
      (t.fInit = false ∧ ∃ ev, h.InputEvent = some ev ∧
        ev.FindListObject t.fParticlesOutName = none ∧
        (UserExec t h).event = some (ev.AddObject t.fParticlesOutName
          { inheritsAODMCParticle := true, items := [] }) ∧
        (UserExec t h).task.fInit = false ∧
        ∃ msg, (UserExec t h).log = [Effect.detectFormat ev.inheritsESD, Effect.allocateOutput,
          Effect.publish t.fParticlesOutName,
          Effect.allocateMap (t.fParticlesOutName ++ "_Map"), Effect.fatal msg]) ∨
      (t.fInit = false ∧ ∃ ev, h.InputEvent = some ev ∧
        ev.FindListObject t.fParticlesOutName = none ∧
        (UserExec t h).event = some (ev.AddObject t.fParticlesOutName
          { inheritsAODMCParticle := true, items := [] }) ∧
        (UserExec t h).task.fInit = true ∧ (UserExec t h).task.fIsESD = ev.inheritsESD ∧
        (UserExec t h).log = [Effect.detectFormat ev.inheritsESD, Effect.allocateOutput,
          Effect.publish t.fParticlesOutName,
          Effect.allocateMap (t.fParticlesOutName ++ "_Map"),
          Effect.pass ev.inheritsESD])) := by
  cases h0 : t.fInit with
  | true =>
    rw [UserExec_of_init t h h0]
    have hf := UserExec.dispatch_fields t
    exact ⟨hf.1, Or.inl ⟨rfl, by rw [hf.2.1, h0], hf.2.2.1, rfl, UserExec.dispatch_log t⟩⟩
  | false =>
    cases h1 : h.InputEvent with
    | none =>
      rw [UserExec_of_no_event t h h0 h1]
      exact ⟨rfl, Or.inr (Or.inl ⟨rfl, rfl, rfl, h0, rfl⟩)⟩
    | some ev =>
      cases h2 : ev.FindListObject t.fParticlesOutName with
      | some obj =>
        rw [UserExec_of_collision t h ev obj h0 h1 h2]
        exact ⟨rfl, Or.inr (Or.inr (Or.inl ⟨rfl, ev, rfl, by rw [h2]; rfl, rfl, h0, _, rfl⟩))⟩
      | none =>
        rw [UserExec_of_fresh t h ev h0 h1 h2]
        cases hesd : ev.inheritsESD with
        | false =>
          rw [if_pos rfl]
          obtain ⟨e1, e2, e3, e4⟩ := UserExec.resolveInput_shape
            { t with
              fEvent := true, fIsESD := false, fParticlesOut := some [],
              fParticlesMapName := t.fParticlesOutName ++ "_Map",
              fParticlesMap := some ⟨List.replicate 99999 none⟩ }
            (ev.AddObject t.fParticlesOutName { inheritsAODMCParticle := true, items := [] }) h
            [Effect.detectFormat false, Effect.allocateOutput,
              Effect.publish t.fParticlesOutName,
              Effect.allocateMap (t.fParticlesOutName ++ "_Map")]
          refine ⟨e2, Or.inr (Or.inr (Or.inr ?_))⟩
          rcases e4 with ⟨msg, hinit, hlog, _⟩ | ⟨_, _, hinit, _, hready⟩
          · exact Or.inl ⟨rfl, ev, rfl, h2, e1, hinit.trans h0, msg, by rw [hesd]; exact hlog⟩
          · exact Or.inr ⟨rfl, ev, rfl, h2, e1, hinit, by rw [hesd]; exact e3,
              by rw [hesd]; exact hready rfl rfl⟩
        | true =>
          rw [if_neg (by exact Bool.noConfusion)]
          obtain ⟨e1, e2, e3, e4⟩ := UserExec.fetchMC_shape
            { t with
              fEvent := true, fIsESD := true, fParticlesOut := some [],
              fParticlesMapName := t.fParticlesOutName ++ "_Map",
              fParticlesMap := some ⟨List.replicate 99999 none⟩ }
            (ev.AddObject t.fParticlesOutName { inheritsAODMCParticle := true, items := [] }) h
            [Effect.detectFormat true, Effect.allocateOutput,
              Effect.publish t.fParticlesOutName,
              Effect.allocateMap (t.fParticlesOutName ++ "_Map")]
          refine ⟨e2, Or.inr (Or.inr (Or.inr ?_))⟩
          rcases e4 with ⟨_, hinit, hlog⟩ | ⟨_, hinit, _, hready⟩
          · exact Or.inl ⟨rfl, ev, rfl, h2, e1, hinit.trans h0, _, by rw [hesd]; exact hlog⟩
          · exact Or.inr ⟨rfl, ev, rfl, h2, e1, hinit, by rw [hesd]; exact e3,
              by rw [hesd]; exact hready rfl rfl⟩

/-! ## Lemmas: sequences of invocations -/

theorem AliVEvent.FindListObject_isSome (isESD : Bool) (l : List (String × TObject))
    (name : String) :
    (AliVEvent.FindListObject { inheritsESD := isESD, fList := l } name).isSome =
      (l.find? (fun e => e.1 == name)).isSome := by
  unfold AliVEvent.FindListObject
  cases l.find? (fun e => e.1 == name) <;> rfl

theorem List.find?_isSome_append_self (l : List (String × TObject)) (name : String)
    (obj : TObject) :
    ((l ++ [(name, obj)]).find? (fun e => e.1 == name)).isSome = true := by
  rw [List.find?_isSome]
  exact ⟨(name, obj), by simp, by simp⟩

/-- The five ways one invocation on a world can go. -/
theorem World.step_shape (w : World) (inv : Invocation) :
    (w.step inv).1.task.fParticlesOutName = w.task.fParticlesOutName ∧
    ((w.task.fInit = true ∧ (w.step inv).1.task.fInit = true ∧
        (w.step inv).1.task.fIsESD = w.task.fIsESD ∧ (w.step inv).1.fList = w.fList ∧
        ((w.step inv).2 = [Effect.pass w.task.fIsESD] ∨
          (w.step inv).2 = [Effect.pass w.task.fIsESD, Effect.nullDereference])) ∨
      (w.task.fInit = false ∧ inv.InputEvent = none ∧ (w.step inv).1.fList = w.fList ∧
        (w.step inv).1.task.fInit = false ∧
        (w.step inv).2 = [Effect.error "Could not retrieve event! Returning"]) ∨
      (w.task.fInit = false ∧ ∃ isESD, inv.InputEvent = some isESD ∧ w.found = true ∧
        (w.step inv).1.fList = w.fList ∧ (w.step inv).1.task.fInit = false ∧
        ∃ msg, (w.step inv).2 = [Effect.detectFormat isESD, Effect.fatal msg]) ∨
      (w.task.fInit = false ∧ ∃ isESD, inv.InputEvent = some isESD ∧ w.found = false ∧
        (w.step inv).1.fList = w.fList ++ [(w.task.fParticlesOutName,
          { inheritsAODMCParticle := true, items := [] })] ∧
        (w.step inv).1.task.fInit = false ∧
        ∃ msg, (w.step inv).2 = [Effect.detectFormat isESD, Effect.allocateOutput,
          Effect.publish w.task.fParticlesOutName,
          Effect.allocateMap (w.task.fParticlesOutName ++ "_Map"), Effect.fatal msg]) ∨
      (w.task.fInit = false ∧ ∃ isESD, inv.InputEvent = some isESD ∧ w.found = false ∧
        (w.step inv).1.fList = w.fList ++ [(w.task.fParticlesOutName,
          { inheritsAODMCParticle := true, items := [] })] ∧
        (w.step inv).1.task.fInit = true ∧ (w.step inv).1.task.fIsESD = isESD ∧
        (w.step inv).2 = [Effect.detectFormat isESD, Effect.allocateOutput,
          Effect.publish w.task.fParticlesOutName,
          Effect.allocateMap (w.task.fParticlesOutName ++ "_Map"),
          Effect.pass isESD])) := by
  have hn : (w.task.refill inv).fParticlesOutName = w.task.fParticlesOutName := rfl
  have hi : (w.task.refill inv).fInit = w.task.fInit := rfl
  have he : (w.task.refill inv).fIsESD = w.task.fIsESD := rfl
  cases hie : inv.InputEvent with
  | none =>
    have hstep : w.step inv =
        ({ task := (UserExec (w.task.refill inv) ⟨none, inv.MCEvent⟩).task
           fList := match (UserExec (w.task.refill inv) ⟨none, inv.MCEvent⟩).event with
             | some ev => ev.fList
             | none => w.fList },
          (UserExec (w.task.refill inv) ⟨none, inv.MCEvent⟩).log) := by
      unfold World.step
      rw [hie]
      rfl
    rw [hstep]
    obtain ⟨hname, hshape⟩ := UserExec_shape (w.task.refill inv) ⟨none, inv.MCEvent⟩
    rw [hn] at hname
    rw [hn, hi, he] at hshape
    generalize UserExec (w.task.refill inv) ⟨none, inv.MCEvent⟩ = r at hname hshape ⊢
    refine ⟨hname, ?_⟩
    rcases hshape with ⟨h0, h1, h2, h3, h4⟩ | ⟨h0, h1, h2, h3, h4⟩ |
      ⟨h0, ev, h1, h2, h3, h4, h5⟩ | ⟨h0, ev, h1, h2, h3, h4, h5⟩ |
      ⟨h0, ev, h1, h2, h3, h4, h5, h6⟩
    · exact Or.inl ⟨h0, h1, h2, by simp only [h3], h4⟩
    · exact Or.inr (Or.inl ⟨h0, rfl, by simp only [h2], h3, h4⟩)
    · exact Option.noConfusion h1
    · exact Option.noConfusion h1
    · exact Option.noConfusion h1
  | some b =>
    have hstep : w.step inv =
        ({ task := (UserExec (w.task.refill inv) ⟨some ⟨b, w.fList⟩, inv.MCEvent⟩).task
           fList := match (UserExec (w.task.refill inv)
               ⟨some ⟨b, w.fList⟩, inv.MCEvent⟩).event with
             | some ev => ev.fList
             | none => w.fList },
          (UserExec (w.task.refill inv) ⟨some ⟨b, w.fList⟩, inv.MCEvent⟩).log) := by
      unfold World.step
      rw [hie]
      rfl
    rw [hstep]
    obtain ⟨hname, hshape⟩ := UserExec_shape (w.task.refill inv)
      ⟨some ⟨b, w.fList⟩, inv.MCEvent⟩
    rw [hn] at hname
    rw [hn, hi, he] at hshape
    have hfound := AliVEvent.FindListObject_isSome b w.fList w.task.fParticlesOutName
    generalize UserExec (w.task.refill inv) ⟨some ⟨b, w.fList⟩, inv.MCEvent⟩ = r
      at hname hshape ⊢
    refine ⟨hname, ?_⟩
    rcases hshape with ⟨h0, h1, h2, h3, h4⟩ | ⟨h0, h1, h2, h3, h4⟩ |
      ⟨h0, ev, h1, h2, h3, h4, h5⟩ | ⟨h0, ev, h1, h2, h3, h4, h5⟩ |
      ⟨h0, ev, h1, h2, h3, h4, h5, h6⟩
    · exact Or.inl ⟨h0, h1, h2, by simp only [h3], h4⟩
    · exact Option.noConfusion h1
    · have hev : ev = ⟨b, w.fList⟩ := (Option.some.inj h1).symm
      subst hev
      exact Or.inr (Or.inr (Or.inl ⟨h0, b, rfl, hfound.symm.trans h2,
        by simp only [h3], h4, h5⟩))
    · have hev : ev = ⟨b, w.fList⟩ := (Option.some.inj h1).symm
      subst hev
      refine Or.inr (Or.inr (Or.inr (Or.inl ⟨h0, b, rfl, ?_, ?_, h4, h5⟩)))
      · rw [h2] at hfound
        exact hfound.symm.trans rfl
      · simp only [h3]
        rfl
    · have hev : ev = ⟨b, w.fList⟩ := (Option.some.inj h1).symm
      subst hev
      refine Or.inr (Or.inr (Or.inr (Or.inr ⟨h0, b, rfl, ?_, ?_, h4, h5, h6⟩)))
      · rw [h2] at hfound
        exact hfound.symm.trans rfl
      · simp only [h3]
        rfl

theorem Effect.pass_kinds (b : Bool) :
    (Effect.pass b).isPass = true ∧ (Effect.pass b).isSetup = false ∧
    (Effect.pass b).isPublish = false ∧ (Effect.pass b).isAllocateOutput = false ∧
    (Effect.pass b).isFatal = false := by
  cases b <;> exact ⟨rfl, rfl, rfl, rfl, rfl⟩

theorem Effect.eq_pass_of_isPass (e : Effect) (b : Bool) (h : e.isPass = true)
    (hc : e = Effect.convert → b = true) (hd : e = Effect.copy → b = false) :
    e = Effect.pass b := by
  cases e <;> first
    | exact Bool.noConfusion h
    | (rw [hc rfl]; rfl)
    | (rw [hd rfl]; rfl)

theorem World.run_cons (w : World) (inv : Invocation) (rest : List Invocation) :
    w.run (inv :: rest) =
      (((w.step inv).1.run rest).1, (w.step inv).2 :: ((w.step inv).1.run rest).2) := rfl

theorem World.run_append (pre post : List Invocation) :
    ∀ w : World, (w.run (pre ++ post)).1 = ((w.run pre).1.run post).1 ∧
      (w.run (pre ++ post)).2 = (w.run pre).2 ++ ((w.run pre).1.run post).2 := by
  induction pre with
  | nil => intro w; exact ⟨rfl, rfl⟩
  | cons inv rest ih =>
    intro w
    have h := ih (w.step inv).1
    rw [List.cons_append, World.run_cons, World.run_cons]
    exact ⟨h.1, by simp only [h.2, List.cons_append]⟩

theorem World.run_of_init (invs : List Invocation) :
    ∀ w : World, w.task.fInit = true →
      (w.run invs).1.task.fInit = true ∧ (w.run invs).1.task.fIsESD = w.task.fIsESD ∧
      ∀ log, log ∈ (w.run invs).2 → ∀ e, e ∈ log →
        e.isSetup = false ∧ (e.isPass = true → e = Effect.pass w.task.fIsESD) := by
  induction invs with
  | nil =>
    intro w h
    exact ⟨h, rfl, fun log hl => absurd hl (List.not_mem_nil log)⟩
  | cons inv rest ih =>
    intro w h
    obtain ⟨_, hs⟩ := World.step_shape w inv
    rcases hs with ⟨_, h1, h2, _, h4⟩ | ⟨h0, _⟩ | ⟨h0, _⟩ | ⟨h0, _⟩ | ⟨h0, _⟩
    · obtain ⟨r1, r2, r3⟩ := ih (w.step inv).1 h1
      rw [World.run_cons]
      refine ⟨r1, r2.trans h2, ?_⟩
      intro log hl e he
      rcases List.mem_cons.mp hl with hl | hl
      · subst hl
        have hk := Effect.pass_kinds w.task.fIsESD
        rcases h4 with h4 | h4
        · rw [h4] at he
          rcases List.mem_cons.mp he with he | he
          · subst he
            exact ⟨hk.2.1, fun _ => rfl⟩
          · exact absurd he (List.not_mem_nil e)
        · rw [h4] at he
          rcases List.mem_cons.mp he with he | he
          · subst he
            exact ⟨hk.2.1, fun _ => rfl⟩
          · rcases List.mem_cons.mp he with he | he
            · subst he
              exact ⟨rfl, fun hp => Bool.noConfusion hp⟩
            · exact absurd he (List.not_mem_nil e)
      · have := r3 log hl e he
        rw [h2] at this
        exact this
    all_goals (rw [h] at h0; exact Bool.noConfusion h0)

theorem World.run_no_pass_before_init (invs : List Invocation) :
    ∀ w : World, (w.run invs).1.task.fInit = false →
      ∀ log, log ∈ (w.run invs).2 → ∀ e, e ∈ log → e.isPass = false := by
  induction invs with
  | nil =>
    intro w _ log hl
    exact absurd hl (List.not_mem_nil log)
  | cons inv rest ih =>
    intro w hfin log hl e he
    rw [World.run_cons] at hfin hl
    rcases List.mem_cons.mp hl with hl | hl
    · subst hl
      obtain ⟨_, hs⟩ := World.step_shape w inv
      rcases hs with ⟨_, h1, _⟩ | ⟨_, _, _, _, h4⟩ | ⟨_, _, _, _, _, _, msg, h4⟩ |
        ⟨_, _, _, _, _, _, msg, h4⟩ | ⟨_, _, _, _, _, h1, _⟩
      · have := (World.run_of_init rest (w.step inv).1 h1).1
        rw [this] at hfin
        exact Bool.noConfusion hfin
      · rw [h4] at he
        simp only [List.mem_cons, List.mem_singleton, List.not_mem_nil, or_false] at he
        subst he
        rfl
      · rw [h4] at he
        simp only [List.mem_cons, List.mem_singleton, List.not_mem_nil, or_false] at he
        rcases he with he | he <;> subst he <;> rfl
      · rw [h4] at he
        simp only [List.mem_cons, List.mem_singleton, List.not_mem_nil, or_false] at he
        rcases he with he | he | he | he | he <;> subst he <;> rfl
      · have := (World.run_of_init rest (w.step inv).1 h1).1
        rw [this] at hfin
        exact Bool.noConfusion hfin
    · exact ih (w.step inv).1 hfin log hl e he

theorem World.run_no_publish (invs : List Invocation) :
    ∀ w : World, (w.found = true ∨ w.task.fInit = true) →
      ∀ log, log ∈ (w.run invs).2 → ∀ e, e ∈ log →
        e.isPublish = false ∧ e.isAllocateOutput = false := by
  induction invs with
  | nil =>
    intro w _ log hl
    exact absurd hl (List.not_mem_nil log)
  | cons inv rest ih =>
    intro w hw log hl e he
    rw [World.run_cons] at hl
    obtain ⟨hname, hs⟩ := World.step_shape w inv
    have hfound_keep : (w.step inv).1.fList = w.fList → w.found = true →
        (w.step inv).1.found = true := by
      intro hl hf
      unfold World.found at hf ⊢
      rw [hl, hname]
      exact hf
    rcases hs with ⟨_, h1, _, _, h4⟩ | ⟨h0, _, h2, _, h4⟩ | ⟨h0, _, _, hf, h2, _, msg, h4⟩ |
      ⟨h0, _, _, hf, _⟩ | ⟨h0, _, _, hf, _⟩
    · rcases List.mem_cons.mp hl with hl | hl
      · subst hl
        have hk := Effect.pass_kinds w.task.fIsESD
        rcases h4 with h4 | h4 <;> rw [h4] at he <;>
          simp only [List.mem_cons, List.mem_singleton, List.not_mem_nil, or_false] at he
        · subst he
          exact ⟨hk.2.2.1, hk.2.2.2.1⟩
        · rcases he with he | he
          · subst he
            exact ⟨hk.2.2.1, hk.2.2.2.1⟩
          · subst he
            exact ⟨rfl, rfl⟩
      · exact ih (w.step inv).1 (Or.inr h1) log hl e he
    · rcases hw with hw | hw
      · rcases List.mem_cons.mp hl with hl | hl
        · subst hl
          rw [h4] at he
          simp only [List.mem_cons, List.mem_singleton, List.not_mem_nil, or_false] at he
          subst he
          exact ⟨rfl, rfl⟩
        · exact ih (w.step inv).1 (Or.inl (hfound_keep h2 hw)) log hl e he
      · rw [hw] at h0
        exact Bool.noConfusion h0
    · rcases List.mem_cons.mp hl with hl | hl
      · subst hl
        rw [h4] at he
        simp only [List.mem_cons, List.mem_singleton, List.not_mem_nil, or_false] at he
        rcases he with he | he <;> subst he <;> exact ⟨rfl, rfl⟩
      · exact ih (w.step inv).1 (Or.inl (hfound_keep h2 hf)) log hl e he
    · rcases hw with hw | hw
      · rw [hw] at hf
        exact Bool.noConfusion hf
      · rw [hw] at h0
        exact Bool.noConfusion h0
    · rcases hw with hw | hw
      · rw [hw] at hf
        exact Bool.noConfusion hf
      · rw [hw] at h0
        exact Bool.noConfusion h0

theorem List.filter_flatten_eq_nil {α : Type} (p : α → Bool) (ls : List (List α))
    (h : ∀ l, l ∈ ls → ∀ e, e ∈ l → p e = false) : (ls.flatten.filter p) = [] := by
  rw [List.filter_eq_nil_iff]
  intro e he
  obtain ⟨l, hl, hel⟩ := List.mem_flatten.mp he
  rw [h l hl e hel]
  exact Bool.noConfusion

theorem List.length_filter_flatten_cons {α : Type} (p : α → Bool) (l : List α)
    (ls : List (List α)) :
    ((l :: ls).flatten.filter p).length = (l.filter p).length + (ls.flatten.filter p).length := by
  rw [List.flatten_cons, List.filter_append, List.length_append]

theorem World.run_publish_count (invs : List Invocation) :
    ∀ w : World, ((w.run invs).2.flatten.filter Effect.isPublish).length ≤ 1 ∧
      ((w.run invs).2.flatten.filter Effect.isAllocateOutput).length ≤ 1 := by
  induction invs with
  | nil => intro w; exact ⟨Nat.zero_le _, Nat.zero_le _⟩
  | cons inv rest ih =>
    intro w
    rw [World.run_cons]
    simp only [List.length_filter_flatten_cons]
    obtain ⟨hname, hs⟩ := World.step_shape w inv
    have hrest := ih (w.step inv).1
    have hafter : (w.step inv).1.fList = w.fList ++ [(w.task.fParticlesOutName,
        { inheritsAODMCParticle := true, items := [] })] →
        ((w.step inv).1.run rest).2.flatten.filter Effect.isPublish = [] ∧
        ((w.step inv).1.run rest).2.flatten.filter Effect.isAllocateOutput = [] := by
      intro hl
      have hf : (w.step inv).1.found = true := by
        unfold World.found
        rw [hl, hname]
        exact List.find?_isSome_append_self _ _ _
      have := World.run_no_publish rest (w.step inv).1 (Or.inl hf)
      exact ⟨List.filter_flatten_eq_nil _ _ (fun l hl e he => (this l hl e he).1),
        List.filter_flatten_eq_nil _ _ (fun l hl e he => (this l hl e he).2)⟩
    rcases hs with ⟨_, _, _, _, h4⟩ | ⟨_, _, _, _, h4⟩ | ⟨_, _, _, _, _, _, msg, h4⟩ |
      ⟨_, _, _, _, hl, _, msg, h4⟩ | ⟨_, b, _, _, hl, _, _, h4⟩
    · have h1 : (w.step inv).2.filter Effect.isPublish = [] := by
        rcases h4 with h4 | h4 <;> rw [h4] <;> cases w.task.fIsESD <;> rfl
      have h2 : (w.step inv).2.filter Effect.isAllocateOutput = [] := by
        rcases h4 with h4 | h4 <;> rw [h4] <;> cases w.task.fIsESD <;> rfl
      rw [h1, h2]
      simpa using hrest
    · have h1 : (w.step inv).2.filter Effect.isPublish = [] := by rw [h4]; rfl
      have h2 : (w.step inv).2.filter Effect.isAllocateOutput = [] := by rw [h4]; rfl
      rw [h1, h2]
      simpa using hrest
    · have h1 : (w.step inv).2.filter Effect.isPublish = [] := by rw [h4]; rfl
      have h2 : (w.step inv).2.filter Effect.isAllocateOutput = [] := by rw [h4]; rfl
      rw [h1, h2]
      simpa using hrest
    · have h1 : ((w.step inv).2.filter Effect.isPublish).length = 1 := by rw [h4]; rfl
      have h2 : ((w.step inv).2.filter Effect.isAllocateOutput).length = 1 := by rw [h4]; rfl
      rw [h1, h2, (hafter hl).1, (hafter hl).2]
      exact ⟨le_refl _, le_refl _⟩
    · have h1 : ((w.step inv).2.filter Effect.isPublish).length = 1 := by
        rw [h4]; cases b <;> rfl
      have h2 : ((w.step inv).2.filter Effect.isAllocateOutput).length = 1 := by
        rw [h4]; cases b <;> rfl
      rw [h1, h2, (hafter hl).1, (hafter hl).2]
      exact ⟨le_refl _, le_refl _⟩

theorem World.run_passes_agree (invs : List Invocation) :
    ∀ w : World, ∃ b : Bool, ∀ log, log ∈ (w.run invs).2 → ∀ e, e ∈ log →
      e.isPass = true → e = Effect.pass b := by
  induction invs with
  | nil =>
    intro w
    exact ⟨true, fun log hl => absurd hl (List.not_mem_nil log)⟩
  | cons inv rest ih =>
    intro w
    cases hinit : w.task.fInit with
    | true =>
      exact ⟨w.task.fIsESD, fun log hl e he hp =>
        ((World.run_of_init (inv :: rest) w hinit).2.2 log hl e he).2 hp⟩
    | false =>
      cases hnext : (w.step inv).1.task.fInit with
      | true =>
        obtain ⟨_, hs⟩ := World.step_shape w inv
        rcases hs with ⟨h0, _⟩ | ⟨_, _, _, h3, _⟩ | ⟨_, _, _, _, _, h3, _⟩ |
          ⟨_, _, _, _, _, h3, _⟩ | ⟨_, b, _, _, _, _, h5, h6⟩
        · rw [hinit] at h0
          exact Bool.noConfusion h0
        · rw [hnext] at h3
          exact Bool.noConfusion h3
        · rw [hnext] at h3
          exact Bool.noConfusion h3
        · rw [hnext] at h3
          exact Bool.noConfusion h3
        · refine ⟨b, ?_⟩
          intro log hl e he hp
          rw [World.run_cons] at hl
          rcases List.mem_cons.mp hl with hl | hl
          · subst hl
            rw [h6] at he
            simp only [List.mem_cons, List.mem_singleton, List.not_mem_nil, or_false] at he
            rcases he with he | he | he | he | he
            · subst he; exact Bool.noConfusion hp
            · subst he; exact Bool.noConfusion hp
            · subst he; exact Bool.noConfusion hp
            · subst he; exact Bool.noConfusion hp
            · exact he
          · have := ((World.run_of_init rest (w.step inv).1 hnext).2.2 log hl e he).2 hp
            rw [h5] at this
            exact this
      | false =>
        obtain ⟨b, hb⟩ := ih (w.step inv).1
        refine ⟨b, ?_⟩
        intro log hl e he hp
        rw [World.run_cons] at hl
        rcases List.mem_cons.mp hl with hl | hl
        · subst hl
          have hno := World.run_no_pass_before_init [inv] w (by
            rw [World.run_cons]
            exact hnext) (w.step inv).2 (by
            rw [World.run_cons]
            exact List.mem_cons_self _ _) e he
          rw [hno] at hp
          exact Bool.noConfusion hp
        · exact hb log hl e he hp

/-! ## Lemmas: lookups in the event list after a publication -/

theorem AliVEvent.FindListObject_AddObject_of_some (ev : AliVEvent) (name other : String)
    (obj x : TObject) (h : ev.FindListObject other = some x) :
    (ev.AddObject name obj).FindListObject other = some x := by
  unfold AliVEvent.FindListObject AliVEvent.AddObject at *
  simp only [List.find?_append]
  cases hf : ev.fList.find? (fun e => e.1 == other) with
  | none =>
    rw [hf] at h
    exact Option.noConfusion h
  | some e =>
    rw [hf] at h
    simpa using h

theorem AliVEvent.FindListObject_AddObject_of_ne (ev : AliVEvent) (name other : String)
    (obj : TObject) (hne : name ≠ other) (h : ev.FindListObject other = none) :
    (ev.AddObject name obj).FindListObject other = none := by
  unfold AliVEvent.FindListObject AliVEvent.AddObject at *
  simp only [List.find?_append]
  cases hf : ev.fList.find? (fun e => e.1 == other) with
  | none => simp [hne]
  | some e =>
    rw [hf] at h
    exact Option.noConfusion h

/-! ## The claims -/

/-- C1, as stated, fails for the map entry where `Nparticles*2` leaves the range of `Int_t`:
in an event of `2^30` tracks with every cut off, track `99999` is fetched and meets the five
conditions, and it gets the output entry of slot `99999`, but the map keeps its `99999`
cells and holds no entry for it. The five conditions also need a threshold that is a number:
under the threshold NaN neither `fEtaMax <= 0` nor `|eta| <= fEtaMax` holds, and the pion at
eta `0` is admitted. -/
theorem C1_admitted_without_map_entry :
    ((pionEvent 1073741824).GetTrack 99999 = some pionTrack ∧
      noCutsConfig.fEtaMax = Double_t.finite 0 ∧ pionTrack.Eta = Double_t.finite 0 ∧
      ((0 : ℚ) ≤ 0 ∨ |(0 : ℚ)| ≤ 0) ∧
      (noCutsConfig.fRejectNK = false ∨
        (pionTrack.PdgCode ≠ 130 ∧ pionTrack.PdgCode ≠ 2112)) ∧
      (noCutsConfig.fChargedMC = false ∨ pionTrack.Charge ≠ 0) ∧
      (noCutsConfig.fOnlyHIJING = false ∨ pionTrack.GeneratorIndex = 0) ∧
      (noCutsConfig.fOnlyPhysPrim = false ∨
        (pionEvent 1073741824).IsPhysicalPrimary 99999 = true) ∧
      TClonesArray.At (ConvertMCParticles noCutsConfig (pionEvent 1073741824)
        setupBuffers).fParticlesOut 99999 =
        some (ConvertMCParticles.aodPart (pionEvent 1073741824)
          (pionEvent 1073741824).GetNumberOfPrimaries pionTrack 99999) ∧
      (ConvertMCParticles noCutsConfig (pionEvent 1073741824)
        setupBuffers).fParticlesMap.At 99999 = none) ∧
    (Double_t.le Double_t.nan (Double_t.finite 0) = false ∧
      Double_t.le (TMath.Abs pionTrack.Eta) Double_t.nan = false ∧
      ConvertMCParticles.accept { noCutsConfig with fEtaMax := Double_t.nan } (pionEvent 5)
        pionTrack 0 = true ∧
      CopyMCParticles.accept { noCutsConfig with fEtaMax := Double_t.nan } pionFlat = true) := by
  have hall : ∀ i, i < 1073741824 →
      (ConvertMCParticles.derive noCutsConfig (pionEvent 1073741824) i).isSome = true := by
    intro i _
    rw [ConvertMCParticles.convert_derive_isSome]
    exact ConvertMCParticles.convert_accept_noCuts _ _ _
  have hd : ConvertMCParticles.derive noCutsConfig (pionEvent 1073741824) 99999 =
      some (ConvertMCParticles.aodPart (pionEvent 1073741824)
        (pionEvent 1073741824).GetNumberOfPrimaries pionTrack 99999) := by
    simp [ConvertMCParticles.derive, pionEvent, ConvertMCParticles.convert_accept_noCuts]
  refine ⟨⟨rfl, rfl, rfl, Or.inl (le_refl 0), Or.inl rfl, Or.inl rfl, Or.inl rfl, Or.inl rfl,
    ?_, ?_⟩, by decide, by decide, by decide, by decide⟩
  · rw [ConvertMCParticles.convert_out_eq, TClonesArray.At_map_some, ← hd]
    have hlen := survivors_length_of_all
      (ConvertMCParticles.derive noCutsConfig (pionEvent 1073741824)) 99999
      (fun i hi => hall i (by omega))
    have hget := survivors_getElem
      (ConvertMCParticles.derive noCutsConfig (pionEvent 1073741824)) 99999 1073741824
      (by decide) (hall 99999 (by decide))
    rw [hlen] at hget
    exact hget
  · apply AliNamedArrayI.At_of_size_le
    rw [ConvertMCParticles.convert_map_GetSize,
      ConvertMCParticles.convert_sized_of_overflow _ _ (by decide), setupBuffers_GetSize]

/-- C1, amended: in both passes, for every cut configuration and every fetched element, eta
and the threshold `fEtaMax` being real numbers, the iteration either runs the write block or
leaves the loop state untouched, and it runs the write block exactly when the five
conditions hold: eta cut off or `|eta| ≤ fEtaMax`, K0L/neutron rejection off or a PDG code
other than `130` and `2112`, charged-only cut off or non-zero charge, generator cut off or
generator index `0`, physical-primary cut off or physical primary. The write block gives the
element its output entry, in slot `nacc` of the output collection, and, when its source
index lies inside the storage of the map, its map entry `nacc`. -/
theorem C1_admitted_iff_five_conditions (cfg : Config) (etaMax : ℚ)
    (hmax : cfg.fEtaMax = Double_t.finite etaMax) :
    (∀ (fMC : AliMCEvent) (nprim : Int) (s : LoopState) (iPart : Nat) (part : AliMCParticle)
        (eta : ℚ), fMC.GetTrack iPart = some part → part.Eta = Double_t.finite eta →
      (ConvertMCParticles.body cfg fMC nprim s iPart =
          s.write iPart (ConvertMCParticles.aodPart fMC nprim part iPart) ↔
        (etaMax ≤ 0 ∨ |eta| ≤ etaMax) ∧
        (cfg.fRejectNK = false ∨ (part.PdgCode ≠ 130 ∧ part.PdgCode ≠ 2112)) ∧
        (cfg.fChargedMC = false ∨ part.Charge ≠ 0) ∧
        (cfg.fOnlyHIJING = false ∨ part.GeneratorIndex = 0) ∧
        (cfg.fOnlyPhysPrim = false ∨ fMC.IsPhysicalPrimary iPart = true)) ∧
      (ConvertMCParticles.body cfg fMC nprim s iPart =
          s.write iPart (ConvertMCParticles.aodPart fMC nprim part iPart) ∨
        ConvertMCParticles.body cfg fMC nprim s iPart = s) ∧
      TClonesArray.At
          (s.write iPart (ConvertMCParticles.aodPart fMC nprim part iPart)).fParticlesOut
          s.nacc = some (ConvertMCParticles.aodPart fMC nprim part iPart) ∧
      (iPart < s.fParticlesMap.GetSize →
        (s.write iPart (ConvertMCParticles.aodPart fMC nprim part iPart)).fParticlesMap.At
          iPart = some s.nacc)) ∧
    (∀ (fParticlesIn : TClonesArray AliAODMCParticle) (s : LoopState) (iPart : Nat)
        (part : AliAODMCParticle) (eta : ℚ),
        TClonesArray.At fParticlesIn iPart = some part → part.Eta = Double_t.finite eta →
      (CopyMCParticles.body cfg fParticlesIn s iPart = s.write iPart part ↔
        (etaMax ≤ 0 ∨ |eta| ≤ etaMax) ∧
        (cfg.fRejectNK = false ∨ (part.PdgCode ≠ 130 ∧ part.PdgCode ≠ 2112)) ∧
        (cfg.fChargedMC = false ∨ part.Charge ≠ 0) ∧
        (cfg.fOnlyHIJING = false ∨ part.GeneratorIndex = 0) ∧
        (cfg.fOnlyPhysPrim = false ∨ part.IsPhysicalPrimary = true)) ∧
      (CopyMCParticles.body cfg fParticlesIn s iPart = s.write iPart part ∨
        CopyMCParticles.body cfg fParticlesIn s iPart = s) ∧
      TClonesArray.At (s.write iPart part).fParticlesOut s.nacc = some part ∧
      (iPart < s.fParticlesMap.GetSize →
        (s.write iPart part).fParticlesMap.At iPart = some s.nacc)) := by
  constructor
  · intro fMC nprim s iPart part eta hA heta
    rw [← ConvertMCParticles.convert_accept_iff cfg fMC part iPart etaMax eta hmax heta]
    refine ⟨?_, ?_, LoopState.write_out_At _ _ _, LoopState.write_map_At _ _ _⟩
    · unfold ConvertMCParticles.body
      rw [hA]
      by_cases h1 : ConvertMCParticles.accept cfg fMC part iPart = true <;>
        simp [h1, Ne.symm (LoopState.write_ne _ _ _)]
    · unfold ConvertMCParticles.body
      rw [hA]
      by_cases h1 : ConvertMCParticles.accept cfg fMC part iPart = true <;> simp [h1]
  · intro fParticlesIn s iPart part eta hB heta
    rw [← CopyMCParticles.copy_accept_iff cfg part etaMax eta hmax heta]
    refine ⟨?_, ?_, LoopState.write_out_At _ _ _, LoopState.write_map_At _ _ _⟩
    · unfold CopyMCParticles.body
      rw [hB]
      by_cases h2 : CopyMCParticles.accept cfg part = true <;>
        simp [h2, Ne.symm (LoopState.write_ne _ _ _)]
    · unfold CopyMCParticles.body
      rw [hB]
      by_cases h2 : CopyMCParticles.accept cfg part = true <;> simp [h2]

/-- C1, witness: track `0` of the five-pion event and slot `0` of a one-pion collection,
under the default configuration, on a map of one cell: both are admitted and both get the
map entry `0`. -/
theorem C1_admitted_iff_five_conditions_witness :
    defaultConfig.fEtaMax = Double_t.finite 1 ∧
    (pionEvent 5).GetTrack 0 = some pionTrack ∧ pionTrack.Eta = Double_t.finite 0 ∧
    TClonesArray.At (pionCollection 1) 0 = some pionFlat ∧
    pionFlat.Eta = Double_t.finite 0 ∧
    ConvertMCParticles.body defaultConfig (pionEvent 5) 2 ⟨[], ⟨[none]⟩, 0⟩ 0 =
      LoopState.write ⟨[], ⟨[none]⟩, 0⟩ 0
        (ConvertMCParticles.aodPart (pionEvent 5) 2 pionTrack 0) ∧
    CopyMCParticles.body defaultConfig (pionCollection 1) ⟨[], ⟨[none]⟩, 0⟩ 0 =
      LoopState.write ⟨[], ⟨[none]⟩, 0⟩ 0 pionFlat ∧
    (LoopState.write ⟨[], ⟨[none]⟩, 0⟩ 0
      (ConvertMCParticles.aodPart (pionEvent 5) 2 pionTrack 0)).fParticlesMap.At 0 = some 0 ∧
    (LoopState.write ⟨[], ⟨[none]⟩, 0⟩ 0 pionFlat).fParticlesMap.At 0 = some 0 :=
  ⟨rfl, rfl, rfl, by decide, rfl,
    ((C1_admitted_iff_five_conditions defaultConfig 1 rfl).1 (pionEvent 5) 2
      ⟨[], ⟨[none]⟩, 0⟩ 0 pionTrack 0 rfl rfl).1.mpr (by decide),
    ((C1_admitted_iff_five_conditions defaultConfig 1 rfl).2 (pionCollection 1)
      ⟨[], ⟨[none]⟩, 0⟩ 0 pionFlat 0 (by decide) rfl).1.mpr (by decide),
    ((C1_admitted_iff_five_conditions defaultConfig 1 rfl).1 (pionEvent 5) 2
      ⟨[], ⟨[none]⟩, 0⟩ 0 pionTrack 0 rfl rfl).2.2.2 (by decide),
    ((C1_admitted_iff_five_conditions defaultConfig 1 rfl).2 (pionCollection 1)
      ⟨[], ⟨[none]⟩, 0⟩ 0 pionFlat 0 (by decide) rfl).2.2.2 (by decide)⟩

/-- C2, as stated, fails where `Nparticles*2` leaves the range of `Int_t`: in an event of
`2^30` admitted tracks the resize guard calls `Set` with a negative size, the map keeps its
`99999` cells, and track `99999` is fetched and admitted but gets no map entry. -/
theorem C2_rank_fails_on_overflow :
    ((99999 : Nat) : Int) < (pionEvent 1073741824).GetNumberOfTracks ∧
    (pionEvent 1073741824).GetTrack 99999 = some pionTrack ∧
    ConvertMCParticles.accept noCutsConfig (pionEvent 1073741824) pionTrack 99999 = true ∧
    (ConvertMCParticles noCutsConfig (pionEvent 1073741824) setupBuffers).fParticlesMap.At
      99999 = none := by
  refine ⟨by decide, rfl, by decide, ?_⟩
  apply AliNamedArrayI.At_of_size_le
  rw [ConvertMCParticles.convert_map_GetSize,
    ConvertMCParticles.convert_sized_of_overflow _ _ (by decide), setupBuffers_GetSize]

/-- C2, amended: in every event of `N` tracks with `2*N` representable as a 32-bit signed
integer, under every cut configuration and from every prior state of the buffers, each
track id `i < N` that is fetched and passes the cut pipeline has, after
`ConvertMCParticles`, the map entry `IndexMap[i]` equal to the number of surviving track ids
strictly smaller than `i`. -/
theorem C2_convert_map_is_rank (cfg : Config) (fMC : AliMCEvent) (b : Buffers) (i : Nat)
    (part : AliMCParticle)
    (hN : fMC.GetNumberOfTracks * 2 ≤ 2147483647)
    (hi : (i : Int) < fMC.GetNumberOfTracks)
    (hfetch : fMC.GetTrack i = some part)
    (hpass : ConvertMCParticles.accept cfg fMC part i = true) :
    (ConvertMCParticles cfg fMC b).fParticlesMap.At i =
      some ((List.range i).filter (ConvertMCParticles.survives cfg fMC)).length := by
  have hs : ConvertMCParticles.survives cfg fMC i = true := by
    simp [ConvertMCParticles.survives, hfetch, hpass]
  have h1 : i < fMC.GetNumberOfTracks.toNat := by omega
  have h2 := ConvertMCParticles.convert_lt_sized fMC b.fParticlesMap i hN hi
  rw [ConvertMCParticles.convert_map_At, if_pos ⟨h1, h2, hs⟩]

/-- C2, witness: five tracks with ids `0..4` of which ids `1` and `3` fail the
physical-primary cut give `IndexMap = {0:0, 2:1, 4:2}`. -/
theorem C2_convert_map_is_rank_witness :
    (pionEvent 5).GetNumberOfTracks * 2 ≤ 2147483647 ∧
    ((4 : Nat) : Int) < (pionEvent 5).GetNumberOfTracks ∧
    (pionEvent 5).GetTrack 4 = some pionTrack ∧
    ConvertMCParticles.accept defaultConfig (pionEvent 5) pionTrack 4 = true ∧
    (ConvertMCParticles defaultConfig (pionEvent 5) setupBuffers).fParticlesMap.At 0 = some 0 ∧
    (ConvertMCParticles defaultConfig (pionEvent 5) setupBuffers).fParticlesMap.At 2 = some 1 ∧
    (ConvertMCParticles defaultConfig (pionEvent 5) setupBuffers).fParticlesMap.At 4 = some 2 :=
  ⟨by decide, by decide, rfl, by decide,
    (C2_convert_map_is_rank defaultConfig (pionEvent 5) setupBuffers 0 pionTrack
      (by decide) (by decide) rfl (by decide)).trans (by decide),
    (C2_convert_map_is_rank defaultConfig (pionEvent 5) setupBuffers 2 pionTrack
      (by decide) (by decide) rfl (by decide)).trans (by decide),
    (C2_convert_map_is_rank defaultConfig (pionEvent 5) setupBuffers 4 pionTrack
      (by decide) (by decide) rfl (by decide)).trans (by decide)⟩

/-- C3, at the failing input: `CopyMCParticles` has no resize guard. On a flat collection of
`100000` admitted pions and the map of `99999` cells allocated at setup, position `99999`
holds an element that passes the cut pipeline, its rank among the survivors is `99999`, and
after the pass it has no map entry: the write `AddAt(99999, 99999)` is out of bounds. -/
theorem C3_copy_drops_entry_past_capacity :
    TClonesArray.At (pionCollection 100000) 99999 = some pionFlat ∧
    CopyMCParticles.accept defaultConfig pionFlat = true ∧
    (CopyMCParticles defaultConfig (some (pionCollection 100000))
      setupBuffers).fParticlesMap.GetSize = 99999 ∧
    (CopyMCParticles defaultConfig (some (pionCollection 100000))
      setupBuffers).fParticlesMap.At 99999 = none := by
  have hsize : (CopyMCParticles defaultConfig (some (pionCollection 100000))
      setupBuffers).fParticlesMap.GetSize = 99999 := by
    rw [CopyMCParticles.copy_map_GetSize, setupBuffers_GetSize]
  refine ⟨?_, by decide, hsize, ?_⟩
  · exact pionCollection_At 100000 99999 (by decide)
  · exact AliNamedArrayI.At_of_size_le _ _ (by rw [hsize])

/-- C4, as stated, fails where `Nparticles*2` leaves the range of `Int_t`: in an event of
`2^30` tracks, all admitted, the output collection gets `k = 2^30` entries, but the map
keeps its `99999` cells and no cell holds the output index `99999`, which lies in
`{0, ..., k-1}`. -/
theorem C4_values_not_compact_on_overflow :
    (ConvertMCParticles noCutsConfig (pionEvent 1073741824)
      setupBuffers).fParticlesOut.length = 1073741824 ∧
    ∀ i, (ConvertMCParticles noCutsConfig (pionEvent 1073741824)
      setupBuffers).fParticlesMap.At i ≠ some 99999 := by
  constructor
  · rw [ConvertMCParticles.convert_out_eq, List.length_map]
    have h := survivors_length_of_all
      (ConvertMCParticles.derive noCutsConfig (pionEvent 1073741824)) 1073741824
      (fun i _ => by
        rw [ConvertMCParticles.convert_derive_isSome]
        exact ConvertMCParticles.convert_accept_noCuts _ _ _)
    exact h
  · intro i
    rw [ConvertMCParticles.convert_map_At,
      ConvertMCParticles.convert_sized_eq_of_overflow _ _ (by decide),
      AliNamedArrayI.GetSize_Clear, setupBuffers_GetSize, AliNamedArrayI.At_Clear]
    split
    · rename_i h
      have h1 : ((List.range i).filter
          (ConvertMCParticles.survives noCutsConfig (pionEvent 1073741824))).length ≤ i :=
        (List.length_filter_le _ _).trans (List.length_range i).le
      intro heq
      have := Option.some.inj heq
      omega
    · simp

/-- C4, amended: after either pass, for every event, the output collection has exactly `k`
entries, in the slots `0..k-1` with no gap, where `k` is the number of source elements
fetched and admitted; and, under `ConvertMCParticles` when `2*N` is representable as a
32-bit signed integer and under `CopyMCParticles` when the input has no more elements than
the map has cells, the values the map holds for the surviving source indices are exactly
`0, ..., k-1`. -/
theorem C4_compaction (cfg : Config) (fMC : AliMCEvent) (bA bB : Buffers)
    (fParticlesIn : TClonesArray AliAODMCParticle) :
    ((ConvertMCParticles cfg fMC bA).fParticlesOut.length =
        ((List.range fMC.GetNumberOfTracks.toNat).filter
          (ConvertMCParticles.survives cfg fMC)).length ∧
      (∀ j, j < (ConvertMCParticles cfg fMC bA).fParticlesOut.length →
        (TClonesArray.At (ConvertMCParticles cfg fMC bA).fParticlesOut j).isSome = true)) ∧
    ((CopyMCParticles cfg (some fParticlesIn) bB).fParticlesOut.length =
        ((List.range fParticlesIn.length).filter
          (CopyMCParticles.survives cfg fParticlesIn)).length ∧
      (∀ j, j < (CopyMCParticles cfg (some fParticlesIn) bB).fParticlesOut.length →
        (TClonesArray.At (CopyMCParticles cfg (some fParticlesIn) bB).fParticlesOut
          j).isSome = true)) ∧
    (fMC.GetNumberOfTracks * 2 ≤ 2147483647 →
      ∀ v, (∃ i, i < fMC.GetNumberOfTracks.toNat ∧
            ConvertMCParticles.survives cfg fMC i = true ∧
            (ConvertMCParticles cfg fMC bA).fParticlesMap.At i = some v) ↔
          v < ((List.range fMC.GetNumberOfTracks.toNat).filter
            (ConvertMCParticles.survives cfg fMC)).length) ∧
    (fParticlesIn.length ≤ bB.fParticlesMap.GetSize →
      ∀ v, (∃ i, i < fParticlesIn.length ∧
            CopyMCParticles.survives cfg fParticlesIn i = true ∧
            (CopyMCParticles cfg (some fParticlesIn) bB).fParticlesMap.At i = some v) ↔
          v < ((List.range fParticlesIn.length).filter
            (CopyMCParticles.survives cfg fParticlesIn)).length) := by
  have hfA := survivors_length_eq_filter _ _ (ConvertMCParticles.convert_derive_isSome cfg fMC)
  have hfB := survivors_length_eq_filter _ _
    (CopyMCParticles.copy_derive_isSome cfg fParticlesIn)
  refine ⟨⟨?_, ?_⟩, ⟨?_, ?_⟩, ?_, ?_⟩
  · rw [ConvertMCParticles.convert_out_eq, List.length_map]
    exact hfA _
  · intro j hj
    rw [ConvertMCParticles.convert_out_eq] at hj ⊢
    rw [List.length_map] at hj
    rw [TClonesArray.At_map_some, List.getElem?_eq_getElem hj]
    rfl
  · rw [CopyMCParticles.copy_out_eq, List.length_map]
    exact hfB _
  · intro j hj
    rw [CopyMCParticles.copy_out_eq] at hj ⊢
    rw [List.length_map] at hj
    rw [TClonesArray.At_map_some, List.getElem?_eq_getElem hj]
    rfl
  · intro hN v
    constructor
    · rintro ⟨i, hi, hs, hv⟩
      have h2 := ConvertMCParticles.convert_lt_sized fMC bA.fParticlesMap i hN (by omega)
      rw [ConvertMCParticles.convert_map_At, if_pos ⟨hi, h2, hs⟩] at hv
      have hv2 := Option.some.inj hv
      rw [← hv2, ← hfA, ← hfA]
      exact survivors_length_lt _ hi
        (by rw [ConvertMCParticles.convert_derive_isSome]; exact hs)
    · intro hv
      rw [← hfA] at hv
      obtain ⟨i, hi, h1, h2⟩ := survivors_exists_rank _ _ _ hv
      rw [ConvertMCParticles.convert_derive_isSome] at h1
      refine ⟨i, hi, h1, ?_⟩
      have h3 := ConvertMCParticles.convert_lt_sized fMC bA.fParticlesMap i hN (by omega)
      rw [ConvertMCParticles.convert_map_At, if_pos ⟨hi, h3, h1⟩, ← hfA, h2]
  · intro hM v
    constructor
    · rintro ⟨i, hi, hs, hv⟩
      rw [CopyMCParticles.copy_map_At, if_pos ⟨hi, by omega, hs⟩] at hv
      have hv2 := Option.some.inj hv
      rw [← hv2, ← hfB, ← hfB]
      exact survivors_length_lt _ hi
        (by rw [CopyMCParticles.copy_derive_isSome]; exact hs)
    · intro hv
      rw [← hfB] at hv
      obtain ⟨i, hi, h1, h2⟩ := survivors_exists_rank _ _ _ hv
      rw [CopyMCParticles.copy_derive_isSome] at h1
      refine ⟨i, hi, h1, ?_⟩
      rw [CopyMCParticles.copy_map_At, if_pos ⟨hi, by omega, h1⟩, ← hfB, h2]

/-- C4, witness: the five-pion event (ids `1` and `3` cut) and the five-slot collection
(slot `1` empty, slot `3` cut) under the default configuration: `k = 3` in both, and in both
the value `2` is held for a surviving source index. -/
theorem C4_compaction_witness :
    (pionEvent 5).GetNumberOfTracks * 2 ≤ 2147483647 ∧
    mixedCollection.length ≤ setupBuffers.fParticlesMap.GetSize ∧
    (ConvertMCParticles defaultConfig (pionEvent 5) setupBuffers).fParticlesOut.length = 3 ∧
    (CopyMCParticles defaultConfig (some mixedCollection)
      setupBuffers).fParticlesOut.length = 3 ∧
    (∃ i, i < (pionEvent 5).GetNumberOfTracks.toNat ∧
      ConvertMCParticles.survives defaultConfig (pionEvent 5) i = true ∧
      (ConvertMCParticles defaultConfig (pionEvent 5) setupBuffers).fParticlesMap.At i =
        some 2) ∧
    (∃ i, i < mixedCollection.length ∧
      CopyMCParticles.survives defaultConfig mixedCollection i = true ∧
      (CopyMCParticles defaultConfig (some mixedCollection) setupBuffers).fParticlesMap.At i =
        some 2) :=
  ⟨by decide, by rw [setupBuffers_GetSize]; decide,
    (C4_compaction defaultConfig (pionEvent 5) setupBuffers setupBuffers
      mixedCollection).1.1.trans (by decide),
    (C4_compaction defaultConfig (pionEvent 5) setupBuffers setupBuffers
      mixedCollection).2.1.1.trans (by decide),
    ((C4_compaction defaultConfig (pionEvent 5) setupBuffers setupBuffers
      mixedCollection).2.2.1 (by decide) 2).mpr (by decide),
    ((C4_compaction defaultConfig (pionEvent 5) setupBuffers setupBuffers
      mixedCollection).2.2.2 (by rw [setupBuffers_GetSize]; decide) 2).mpr (by decide)⟩

/-- C5, as stated, fails where `Nparticles*2` leaves the range of `Int_t`: in an event of
`2^30` tracks, all admitted, tracks `0` and `100000` both survive, `IndexMap[0] = 0`, and
track `100000` has no map entry to compare with it. -/
theorem C5_order_fails_on_overflow :
    ConvertMCParticles.survives noCutsConfig (pionEvent 1073741824) 0 = true ∧
    ConvertMCParticles.survives noCutsConfig (pionEvent 1073741824) 100000 = true ∧
    (ConvertMCParticles noCutsConfig (pionEvent 1073741824)
      setupBuffers).fParticlesMap.At 0 = some 0 ∧
    ¬ ∃ a b,
      (ConvertMCParticles noCutsConfig (pionEvent 1073741824)
        setupBuffers).fParticlesMap.At 0 = some a ∧
      (ConvertMCParticles noCutsConfig (pionEvent 1073741824)
        setupBuffers).fParticlesMap.At 100000 = some b ∧ a < b := by
  have h100000 : (ConvertMCParticles noCutsConfig (pionEvent 1073741824)
      setupBuffers).fParticlesMap.At 100000 = none := by
    apply AliNamedArrayI.At_of_size_le
    rw [ConvertMCParticles.convert_map_GetSize,
      ConvertMCParticles.convert_sized_of_overflow _ _ (by decide), setupBuffers_GetSize]
    decide
  refine ⟨by decide, by decide, ?_, ?_⟩
  · rw [ConvertMCParticles.convert_map_At,
      ConvertMCParticles.convert_sized_of_overflow _ _ (by decide), setupBuffers_GetSize,
      if_pos ⟨by decide, by decide, by decide⟩]
    rfl
  · rintro ⟨a, b, _, hb, _⟩
    rw [h100000] at hb
    exact Option.noConfusion hb

/-- C5, amended: the map is strictly increasing on the survivors that it can hold. Under
`ConvertMCParticles`, when `2*N` is representable as a 32-bit signed integer, any two track
ids `i < j < N` that are fetched and admitted have entries with
`IndexMap[i] < IndexMap[j]`; under `CopyMCParticles` the same holds for any two admitted
positions `i < j` below both the input length and the size of the map. -/
theorem C5_map_strictly_increasing (cfg : Config) (fMC : AliMCEvent) (bA bB : Buffers)
    (fParticlesIn : TClonesArray AliAODMCParticle) (iA jA iB jB : Nat)
    (hN : fMC.GetNumberOfTracks * 2 ≤ 2147483647)
    (hijA : iA < jA) (hjA : (jA : Int) < fMC.GetNumberOfTracks)
    (hsiA : ConvertMCParticles.survives cfg fMC iA = true)
    (hsjA : ConvertMCParticles.survives cfg fMC jA = true)
    (hijB : iB < jB) (hjB : jB < fParticlesIn.length)
    (hsize : jB < bB.fParticlesMap.GetSize)
    (hsiB : CopyMCParticles.survives cfg fParticlesIn iB = true)
    (hsjB : CopyMCParticles.survives cfg fParticlesIn jB = true) :
    (∃ a b, (ConvertMCParticles cfg fMC bA).fParticlesMap.At iA = some a ∧
      (ConvertMCParticles cfg fMC bA).fParticlesMap.At jA = some b ∧ a < b) ∧
    (∃ a b, (CopyMCParticles cfg (some fParticlesIn) bB).fParticlesMap.At iB = some a ∧
      (CopyMCParticles cfg (some fParticlesIn) bB).fParticlesMap.At jB = some b ∧ a < b) := by
  have hfA := survivors_length_eq_filter _ _ (ConvertMCParticles.convert_derive_isSome cfg fMC)
  have hfB := survivors_length_eq_filter _ _
    (CopyMCParticles.copy_derive_isSome cfg fParticlesIn)
  constructor
  · have hi : (ConvertMCParticles cfg fMC bA).fParticlesMap.At iA =
        some ((List.range iA).filter (ConvertMCParticles.survives cfg fMC)).length := by
      rw [ConvertMCParticles.convert_map_At, if_pos ⟨by omega,
        ConvertMCParticles.convert_lt_sized fMC bA.fParticlesMap iA hN (by omega), hsiA⟩]
    have hj : (ConvertMCParticles cfg fMC bA).fParticlesMap.At jA =
        some ((List.range jA).filter (ConvertMCParticles.survives cfg fMC)).length := by
      rw [ConvertMCParticles.convert_map_At, if_pos ⟨by omega,
        ConvertMCParticles.convert_lt_sized fMC bA.fParticlesMap jA hN hjA, hsjA⟩]
    refine ⟨_, _, hi, hj, ?_⟩
    rw [← hfA, ← hfA]
    exact survivors_length_lt _ hijA
      (by rw [ConvertMCParticles.convert_derive_isSome]; exact hsiA)
  · have hi : (CopyMCParticles cfg (some fParticlesIn) bB).fParticlesMap.At iB =
        some ((List.range iB).filter (CopyMCParticles.survives cfg fParticlesIn)).length := by
      rw [CopyMCParticles.copy_map_At, if_pos ⟨by omega, by omega, hsiB⟩]
    have hj : (CopyMCParticles cfg (some fParticlesIn) bB).fParticlesMap.At jB =
        some ((List.range jB).filter (CopyMCParticles.survives cfg fParticlesIn)).length := by
      rw [CopyMCParticles.copy_map_At, if_pos ⟨hjB, hsize, hsjB⟩]
    refine ⟨_, _, hi, hj, ?_⟩
    rw [← hfB, ← hfB]
    exact survivors_length_lt _ hijB
      (by rw [CopyMCParticles.copy_derive_isSome]; exact hsiB)

/-- C5, witness: tracks `2` and `4` of the five-pion event and slots `0` and `2` of the
five-slot collection, under the default configuration. -/
theorem C5_map_strictly_increasing_witness :
    (pionEvent 5).GetNumberOfTracks * 2 ≤ 2147483647 ∧
    ConvertMCParticles.survives defaultConfig (pionEvent 5) 2 = true ∧
    ConvertMCParticles.survives defaultConfig (pionEvent 5) 4 = true ∧
    CopyMCParticles.survives defaultConfig mixedCollection 0 = true ∧
    CopyMCParticles.survives defaultConfig mixedCollection 2 = true ∧
    ((∃ a b, (ConvertMCParticles defaultConfig (pionEvent 5) setupBuffers).fParticlesMap.At 2
        = some a ∧
      (ConvertMCParticles defaultConfig (pionEvent 5) setupBuffers).fParticlesMap.At 4
        = some b ∧ a < b) ∧
    (∃ a b, (CopyMCParticles defaultConfig (some mixedCollection)
        setupBuffers).fParticlesMap.At 0 = some a ∧
      (CopyMCParticles defaultConfig (some mixedCollection)
        setupBuffers).fParticlesMap.At 2 = some b ∧ a < b)) :=
  ⟨by decide, by decide, by decide, by decide, by decide,
    C5_map_strictly_increasing defaultConfig (pionEvent 5) setupBuffers setupBuffers
      mixedCollection 2 4 0 2 (by decide) (by decide) (by decide) (by decide) (by decide)
      (by decide) (by decide) (by rw [setupBuffers_GetSize]; decide) (by decide) (by decide)⟩

/-- C6, as stated, fails where `Nparticles*2` leaves the range of `Int_t`: in an event of
`2^30` tracks, all admitted, track `123456` is fetched and admitted, but the map keeps its
`99999` cells and holds no `IndexMap[123456]` at which to find its output particle. -/
theorem C6_no_position_on_overflow :
    (pionEvent 1073741824).GetTrack 123456 = some pionTrack ∧
    ConvertMCParticles.accept noCutsConfig (pionEvent 1073741824) pionTrack 123456 = true ∧
    ¬ ∃ j,
      (ConvertMCParticles noCutsConfig (pionEvent 1073741824)
        setupBuffers).fParticlesMap.At 123456 = some j ∧
      TClonesArray.At (ConvertMCParticles noCutsConfig (pionEvent 1073741824)
        setupBuffers).fParticlesOut j =
        some (ConvertMCParticles.aodPart (pionEvent 1073741824)
          (pionEvent 1073741824).GetNumberOfPrimaries pionTrack 123456) := by
  refine ⟨rfl, by decide, ?_⟩
  rintro ⟨j, hj, _⟩
  have hnone : (ConvertMCParticles noCutsConfig (pionEvent 1073741824)
      setupBuffers).fParticlesMap.At 123456 = none := by
    apply AliNamedArrayI.At_of_size_le
    rw [ConvertMCParticles.convert_map_GetSize,
      ConvertMCParticles.convert_sized_of_overflow _ _ (by decide), setupBuffers_GetSize]
    decide
  rw [hnone] at hj
  exact Option.noConfusion hj

/-- C6, amended: after either pass, for every event, the output collection lists the
particles derived from the survivors in increasing source order. For every surviving source
index `i` that the map can hold (`ConvertMCParticles`: `2*N` representable as a 32-bit
signed integer; `CopyMCParticles`: `i` below the size of the map), the entry of the output
collection at `IndexMap[i]` is the particle derived from source element `i`: under
`ConvertMCParticles` it is built from track `i` with label `i` and carries the track's
generator index, status code and unique id unchanged; under `CopyMCParticles` it is an
exact copy of input element `i`. -/
theorem C6_output_entry_is_source (cfg : Config) (fMC : AliMCEvent) (bA bB : Buffers)
    (fParticlesIn : TClonesArray AliAODMCParticle) :
    (ConvertMCParticles cfg fMC bA).fParticlesOut =
      ((List.range fMC.GetNumberOfTracks.toNat).filterMap
        (ConvertMCParticles.derive cfg fMC)).map some ∧
    (CopyMCParticles cfg (some fParticlesIn) bB).fParticlesOut =
      ((List.range fParticlesIn.length).filterMap
        (CopyMCParticles.derive cfg fParticlesIn)).map some ∧
    (fMC.GetNumberOfTracks * 2 ≤ 2147483647 →
      ∀ (i : Nat) (part : AliMCParticle), (i : Int) < fMC.GetNumberOfTracks →
        fMC.GetTrack i = some part → ConvertMCParticles.accept cfg fMC part i = true →
        ∃ j q, (ConvertMCParticles cfg fMC bA).fParticlesMap.At i = some j ∧
          TClonesArray.At (ConvertMCParticles cfg fMC bA).fParticlesOut j = some q ∧
          q = ConvertMCParticles.aodPart fMC fMC.GetNumberOfPrimaries part i ∧
          q.Label = (i : Int) ∧ q.GeneratorIndex = part.GeneratorIndex ∧
          q.Status = part.StatusCode ∧ q.MCProcessCode = part.UniqueID) ∧
    (∀ (i : Nat) (flat : AliAODMCParticle), i < fParticlesIn.length →
      i < bB.fParticlesMap.GetSize → TClonesArray.At fParticlesIn i = some flat →
      CopyMCParticles.accept cfg flat = true →
      ∃ j, (CopyMCParticles cfg (some fParticlesIn) bB).fParticlesMap.At i = some j ∧
        TClonesArray.At (CopyMCParticles cfg (some fParticlesIn) bB).fParticlesOut j =
          some flat) := by
  have hfA := survivors_length_eq_filter _ _ (ConvertMCParticles.convert_derive_isSome cfg fMC)
  have hfB := survivors_length_eq_filter _ _
    (CopyMCParticles.copy_derive_isSome cfg fParticlesIn)
  refine ⟨ConvertMCParticles.convert_out_eq cfg fMC bA,
    CopyMCParticles.copy_out_eq cfg fParticlesIn bB, ?_, ?_⟩
  · intro hN iA part hiA hfetchA hpassA
    have hsA : ConvertMCParticles.survives cfg fMC iA = true := by
      simp [ConvertMCParticles.survives, hfetchA, hpassA]
    have hdA : ConvertMCParticles.derive cfg fMC iA =
        some (ConvertMCParticles.aodPart fMC fMC.GetNumberOfPrimaries part iA) := by
      simp [ConvertMCParticles.derive, hfetchA, hpassA]
    have hnA : iA < fMC.GetNumberOfTracks.toNat := by omega
    refine ⟨((List.range iA).filter (ConvertMCParticles.survives cfg fMC)).length,
      ConvertMCParticles.aodPart fMC fMC.GetNumberOfPrimaries part iA, ?_, ?_, rfl, rfl, rfl,
      rfl, rfl⟩
    · rw [ConvertMCParticles.convert_map_At, if_pos ⟨hnA,
        ConvertMCParticles.convert_lt_sized fMC bA.fParticlesMap iA hN hiA, hsA⟩]
    · rw [ConvertMCParticles.convert_out_eq, TClonesArray.At_map_some, ← hfA, ← hdA]
      exact survivors_getElem _ iA _ hnA (by rw [hdA]; rfl)
  · intro iB flat hiB hsize hfetchB hpassB
    have hsB : CopyMCParticles.survives cfg fParticlesIn iB = true := by
      simp [CopyMCParticles.survives, hfetchB, hpassB]
    have hdB : CopyMCParticles.derive cfg fParticlesIn iB = some flat := by
      simp [CopyMCParticles.derive, hfetchB, hpassB]
    refine ⟨((List.range iB).filter (CopyMCParticles.survives cfg fParticlesIn)).length,
      ?_, ?_⟩
    · rw [CopyMCParticles.copy_map_At, if_pos ⟨hiB, hsize, hsB⟩]
    · rw [CopyMCParticles.copy_out_eq, TClonesArray.At_map_some, ← hfB, ← hdB]
      exact survivors_getElem _ iB _ hiB (by rw [hdB]; rfl)

/-- C6, witness: track `4` of the five-pion event and slot `2` (the neutron) of the
five-slot collection, under the default configuration. -/
theorem C6_output_entry_is_source_witness :
    (pionEvent 5).GetNumberOfTracks * 2 ≤ 2147483647 ∧
    ((4 : Nat) : Int) < (pionEvent 5).GetNumberOfTracks ∧
    (pionEvent 5).GetTrack 4 = some pionTrack ∧
    ConvertMCParticles.accept defaultConfig (pionEvent 5) pionTrack 4 = true ∧
    2 < mixedCollection.length ∧ 2 < setupBuffers.fParticlesMap.GetSize ∧
    TClonesArray.At mixedCollection 2 = some neutronFlat ∧
    CopyMCParticles.accept defaultConfig neutronFlat = true ∧
    (∃ j q, (ConvertMCParticles defaultConfig (pionEvent 5) setupBuffers).fParticlesMap.At 4 =
        some j ∧
      TClonesArray.At (ConvertMCParticles defaultConfig (pionEvent 5)
        setupBuffers).fParticlesOut j = some q ∧
      q = ConvertMCParticles.aodPart (pionEvent 5) (pionEvent 5).GetNumberOfPrimaries
        pionTrack 4 ∧
      q.Label = ((4 : Nat) : Int) ∧ q.GeneratorIndex = pionTrack.GeneratorIndex ∧
      q.Status = pionTrack.StatusCode ∧ q.MCProcessCode = pionTrack.UniqueID) ∧
    (∃ j, (CopyMCParticles defaultConfig (some mixedCollection)
        setupBuffers).fParticlesMap.At 2 = some j ∧
      TClonesArray.At (CopyMCParticles defaultConfig (some mixedCollection)
        setupBuffers).fParticlesOut j = some neutronFlat) :=
  ⟨by decide, by decide, rfl, by decide, by decide, by rw [setupBuffers_GetSize]; decide,
    by decide, by decide,
    (C6_output_entry_is_source defaultConfig (pionEvent 5) setupBuffers setupBuffers
      mixedCollection).2.2.1 (by decide) 4 pionTrack (by decide) rfl (by decide),
    (C6_output_entry_is_source defaultConfig (pionEvent 5) setupBuffers setupBuffers
      mixedCollection).2.2.2 2 neutronFlat (by decide) (by rw [setupBuffers_GetSize]; decide)
      (by decide) (by decide)⟩

/-- C7, at the failing input: `ConvertMCParticles` clears the map before the resize guard
enlarges it. On the map of `99999` cells allocated at setup and an event of `100001` pion
tracks none of which is a physical primary, track `100000` is fetched and cut, its cell
lies in the storage added by `Set(200002)`, and after the pass the cell holds output index
`0` instead of reading as unmapped. -/
theorem C7_fresh_cell_reads_as_mapped :
    (secondaryEvent 100001).GetTrack 100000 = some pionTrack ∧
    ConvertMCParticles.accept defaultConfig (secondaryEvent 100001) pionTrack 100000 = false ∧
    100000 < (ConvertMCParticles defaultConfig (secondaryEvent 100001)
      setupBuffers).fParticlesMap.GetSize ∧
    (ConvertMCParticles defaultConfig (secondaryEvent 100001)
      setupBuffers).fParticlesMap.At 100000 = some 0 := by
  have hguard : ((setupBuffers.fParticlesMap.Clear.GetSize : Nat) : Int) ≤
      (secondaryEvent 100001).GetNumberOfTracks := by
    rw [AliNamedArrayI.GetSize_Clear, setupBuffers_GetSize]
    decide
  have hsized : ConvertMCParticles.sized (secondaryEvent 100001) setupBuffers.fParticlesMap =
      setupBuffers.fParticlesMap.Clear.Set 200002 := by
    unfold ConvertMCParticles.sized
    rw [if_pos hguard]
    rfl
  refine ⟨rfl, by decide, ?_, ?_⟩
  · rw [ConvertMCParticles.convert_map_GetSize, hsized,
      AliNamedArrayI.GetSize_Set _ _ (by decide)]
    decide
  · rw [ConvertMCParticles.convert_map_At, if_neg (by
      rintro ⟨_, _, h⟩
      exact absurd h (by decide)), hsized]
    apply AliNamedArrayI.At_Set_fresh
    · rw [AliNamedArrayI.GetSize_Clear, setupBuffers_GetSize]
      decide
    · decide

/-- C8, at the failing input: on the map of `99999` cells allocated at setup and an event
announcing `100001` tracks none of which can be fetched, the first `ConvertMCParticles`
pass enlarges the cleared map and leaves output index `0` in cell `100000`; the second pass
on the same event clears that cell. The index map after the second pass differs from the
index map after the first. -/
theorem C8_second_pass_differs :
    (ConvertMCParticles defaultConfig (absentEvent 100001)
      setupBuffers).fParticlesMap.At 100000 = some 0 ∧
    (ConvertMCParticles defaultConfig (absentEvent 100001)
      (ConvertMCParticles defaultConfig (absentEvent 100001)
        setupBuffers)).fParticlesMap.At 100000 = none ∧
    ConvertMCParticles defaultConfig (absentEvent 100001)
      (ConvertMCParticles defaultConfig (absentEvent 100001) setupBuffers) ≠
      ConvertMCParticles defaultConfig (absentEvent 100001) setupBuffers := by
  have hguard : ((setupBuffers.fParticlesMap.Clear.GetSize : Nat) : Int) ≤
      (absentEvent 100001).GetNumberOfTracks := by
    rw [AliNamedArrayI.GetSize_Clear, setupBuffers_GetSize]
    decide
  have hsized : ConvertMCParticles.sized (absentEvent 100001) setupBuffers.fParticlesMap =
      setupBuffers.fParticlesMap.Clear.Set 200002 := by
    unfold ConvertMCParticles.sized
    rw [if_pos hguard]
    rfl
  have hsize1 : (ConvertMCParticles defaultConfig (absentEvent 100001)
      setupBuffers).fParticlesMap.GetSize = 200002 := by
    rw [ConvertMCParticles.convert_map_GetSize, hsized,
      AliNamedArrayI.GetSize_Set _ _ (by decide)]
    rfl
  have hfirst : (ConvertMCParticles defaultConfig (absentEvent 100001)
      setupBuffers).fParticlesMap.At 100000 = some 0 := by
    rw [ConvertMCParticles.convert_map_At, if_neg (by
      rintro ⟨_, _, h⟩
      exact absurd h (by decide)), hsized]
    apply AliNamedArrayI.At_Set_fresh
    · rw [AliNamedArrayI.GetSize_Clear, setupBuffers_GetSize]
      decide
    · decide
  have hsecond : (ConvertMCParticles defaultConfig (absentEvent 100001)
      (ConvertMCParticles defaultConfig (absentEvent 100001)
        setupBuffers)).fParticlesMap.At 100000 = none := by
    rw [ConvertMCParticles.convert_map_At, if_neg (by
      rintro ⟨_, _, h⟩
      exact absurd h (by decide))]
    unfold ConvertMCParticles.sized
    rw [if_neg (by
      rw [AliNamedArrayI.GetSize_Clear, hsize1]
      decide)]
    exact AliNamedArrayI.At_Clear _ _
  refine ⟨hfirst, hsecond, ?_⟩
  intro heq
  rw [heq, hfirst] at hsecond
  exact Option.noConfusion hsecond

/-- C9: in both passes, when a fetched particle is stopped by exactly one cut `k` (the guard
of `k` rejects it, the other four guards let it through), every configuration with `k`
switched off (for the eta cut: any threshold `t ≤ 0`) admits it, and any change to the
setting of one of the other four cuts leaves its admission as it was. -/
theorem C9_cut_independence (cfg : Config) (fMC : AliMCEvent) (part : AliMCParticle)
    (iPart : Nat) (flat : AliAODMCParticle) (kA kB : Cut)
    (hA : ConvertMCParticles.passes kA cfg fMC part iPart = false)
    (hA4 : ∀ c, c ≠ kA → ConvertMCParticles.passes c cfg fMC part iPart = true)
    (hB : CopyMCParticles.passes kB cfg flat = false)
    (hB4 : ∀ c, c ≠ kB → CopyMCParticles.passes c cfg flat = true) :
    (∀ t : ℚ, t ≤ 0 →
      ConvertMCParticles.accept (cfg.disable kA t) fMC part iPart = true) ∧
    (∀ (c : Cut) (other : Config), c ≠ kA → Config.agreeExcept c cfg other →
      ConvertMCParticles.accept other fMC part iPart =
        ConvertMCParticles.accept cfg fMC part iPart) ∧
    (∀ t : ℚ, t ≤ 0 → CopyMCParticles.accept (cfg.disable kB t) flat = true) ∧
    (∀ (c : Cut) (other : Config), c ≠ kB → Config.agreeExcept c cfg other →
      CopyMCParticles.accept other flat = CopyMCParticles.accept cfg flat) := by
  refine ⟨?_, ?_, ?_, ?_⟩
  · intro t ht
    rw [ConvertMCParticles.convert_accept_eq_passes]
    simp only [ConvertMCParticles.convert_passes_disable kA _ t ht cfg fMC part iPart (hA4 _),
      Bool.and_self]
  · intro c other hc hagree
    rw [ConvertMCParticles.convert_accept_false_of_passes kA cfg fMC part iPart hA]
    apply ConvertMCParticles.convert_accept_false_of_passes kA
    rw [ConvertMCParticles.convert_passes_congr kA c cfg other fMC part iPart hc hagree, hA]
  · intro t ht
    rw [CopyMCParticles.copy_accept_eq_passes]
    simp only [CopyMCParticles.copy_passes_disable kB _ t ht cfg flat (hB4 _), Bool.and_self]
  · intro c other hc hagree
    rw [CopyMCParticles.copy_accept_false_of_passes kB cfg flat hB]
    apply CopyMCParticles.copy_accept_false_of_passes kB
    rw [CopyMCParticles.copy_passes_congr kB c cfg other flat hc hagree, hB]

/-- C9, witness: with every cut on, track `1` of the five-pion event (a pion that is not a
physical primary) is stopped by the physical-primary cut alone, and the flat pion of an
embedded generator is stopped by the generator cut alone. -/
theorem C9_cut_independence_witness :
    ConvertMCParticles.passes .onlyPhysPrim allCutsConfig (pionEvent 5) pionTrack 1 = false ∧
    (∀ c, c ≠ Cut.onlyPhysPrim →
      ConvertMCParticles.passes c allCutsConfig (pionEvent 5) pionTrack 1 = true) ∧
    CopyMCParticles.passes .onlyHIJING allCutsConfig embeddedPionFlat = false ∧
    (∀ c, c ≠ Cut.onlyHIJING →
      CopyMCParticles.passes c allCutsConfig embeddedPionFlat = true) ∧
    ((∀ t : ℚ, t ≤ 0 → ConvertMCParticles.accept (allCutsConfig.disable .onlyPhysPrim t)
        (pionEvent 5) pionTrack 1 = true) ∧
    (∀ (c : Cut) (other : Config), c ≠ Cut.onlyPhysPrim →
      Config.agreeExcept c allCutsConfig other →
      ConvertMCParticles.accept other (pionEvent 5) pionTrack 1 =
        ConvertMCParticles.accept allCutsConfig (pionEvent 5) pionTrack 1) ∧
    (∀ t : ℚ, t ≤ 0 → CopyMCParticles.accept (allCutsConfig.disable .onlyHIJING t)
        embeddedPionFlat = true) ∧
    (∀ (c : Cut) (other : Config), c ≠ Cut.onlyHIJING →
      Config.agreeExcept c allCutsConfig other →
      CopyMCParticles.accept other embeddedPionFlat =
        CopyMCParticles.accept allCutsConfig embeddedPionFlat)) :=
  ⟨by decide,
    fun c hc => by cases c <;> first | exact absurd rfl hc | decide,
    by decide,
    fun c hc => by cases c <;> first | exact absurd rfl hc | decide,
    C9_cut_independence allCutsConfig (pionEvent 5) pionTrack 1
      embeddedPionFlat .onlyPhysPrim .onlyHIJING
      (by decide) (fun c hc => by cases c <;> first | exact absurd rfl hc | decide)
      (by decide) (fun c hc => by cases c <;> first | exact absurd rfl hc | decide)⟩

/-- C10: under one cut configuration, a truth track (with the truth source's
physical-primary answer for its id) and a flat particle that agree on eta, PDG code, charge,
generator index and physical-primary flag get the same decision from the cut pipelines of
`ConvertMCParticles` and of `CopyMCParticles`. -/
theorem C10_strategy_equivalence (cfg : Config) (fMC : AliMCEvent) (part : AliMCParticle)
    (iPart : Nat) (flat : AliAODMCParticle)
    (hEta : part.Eta = flat.Eta) (hPdg : part.PdgCode = flat.PdgCode)
    (hCharge : part.Charge = flat.Charge)
    (hGen : part.GeneratorIndex = flat.GeneratorIndex)
    (hPrim : fMC.IsPhysicalPrimary iPart = flat.IsPhysicalPrimary) :
    ConvertMCParticles.accept cfg fMC part iPart = CopyMCParticles.accept cfg flat := by
  unfold ConvertMCParticles.accept CopyMCParticles.accept
  simp only [hEta, hPdg, hCharge, hGen, hPrim]

/-- C10, witness: track `0` of the five-pion event and the flat pion. -/
theorem C10_strategy_equivalence_witness :
    pionTrack.Eta = pionFlat.Eta ∧ pionTrack.PdgCode = pionFlat.PdgCode ∧
    pionTrack.Charge = pionFlat.Charge ∧
    pionTrack.GeneratorIndex = pionFlat.GeneratorIndex ∧
    (pionEvent 5).IsPhysicalPrimary 0 = pionFlat.IsPhysicalPrimary ∧
    ConvertMCParticles.accept allCutsConfig (pionEvent 5) pionTrack 0 =
      CopyMCParticles.accept allCutsConfig pionFlat :=
  ⟨rfl, rfl, rfl, rfl, by decide,
    C10_strategy_equivalence allCutsConfig (pionEvent 5) pionTrack 0 pionFlat rfl rfl rfl rfl
      (by decide)⟩

/-- C11, as stated, fails for a particle whose eta is not a number: `|eta| <= 1.0` is false
for NaN, and so is the comparison `|eta| > fEtaMax` of the eta cut, so that under the
configuration of either constructor a physical primary with eta NaN is admitted by both
passes. -/
theorem C11_nan_eta_is_admitted :
    Double_t.le (TMath.Abs Double_t.nan) (Double_t.finite 1) = false ∧
    (pionEvent 5).IsPhysicalPrimary 0 = true ∧
    ConvertMCParticles.accept Selector.new.config (pionEvent 5)
      { pionTrack with Eta := Double_t.nan } 0 = true ∧
    AliAODMCParticle.IsPhysicalPrimary { pionFlat with Eta := Double_t.nan } = true ∧
    CopyMCParticles.accept (Selector.newNamed "selector").config
      { pionFlat with Eta := Double_t.nan } = true := by
  refine ⟨by decide, by decide, by decide, by decide, by decide⟩

/-- C11, amended: both constructors produce the same cut configuration, and under it a
fetched particle is admitted by either pass exactly when its `|eta|` does not exceed `1`,
that is, `|eta| <= 1` or eta is NaN, and it is a physical primary, whatever its PDG code,
charge and generator index: a physical primary with eta `1/2` is admitted, any particle with
eta `3/2` is rejected. Both constructors set the output name `"MCParticlesSelected"`. -/
theorem C11_default_configuration (name : String) (fMC : AliMCEvent) (part : AliMCParticle)
    (iPart : Nat) (flat : AliAODMCParticle) :
    (Selector.newNamed name).config = Selector.new.config ∧
    (ConvertMCParticles.accept Selector.new.config fMC part iPart = true ↔
      (part.Eta = Double_t.nan ∨
        Double_t.le (TMath.Abs part.Eta) (Double_t.finite 1) = true) ∧
      fMC.IsPhysicalPrimary iPart = true) ∧
    (CopyMCParticles.accept Selector.new.config flat = true ↔
      (flat.Eta = Double_t.nan ∨
        Double_t.le (TMath.Abs flat.Eta) (Double_t.finite 1) = true) ∧
      flat.IsPhysicalPrimary = true) ∧
    ConvertMCParticles.accept Selector.new.config fMC
      { part with Eta := Double_t.finite (1 / 2) } iPart = fMC.IsPhysicalPrimary iPart ∧
    ConvertMCParticles.accept Selector.new.config fMC
      { part with Eta := Double_t.finite (3 / 2) } iPart = false ∧
    CopyMCParticles.accept Selector.new.config { flat with Eta := Double_t.finite (1 / 2) } =
      AliAODMCParticle.IsPhysicalPrimary { flat with Eta := Double_t.finite (1 / 2) } ∧
    CopyMCParticles.accept Selector.new.config { flat with Eta := Double_t.finite (3 / 2) } =
      false ∧
    Selector.new.fParticlesOutName = "MCParticlesSelected" ∧
    (Selector.newNamed name).fParticlesOutName = "MCParticlesSelected" := by
  have hcfg : Selector.new.config = defaultConfig := rfl
  have hguard : ∀ eta : Double_t,
      ¬ (Double_t.gt (Double_t.finite 1) (Double_t.finite 0) = true ∧
        Double_t.gt (TMath.Abs eta) (Double_t.finite 1) = true) ↔
      (eta = Double_t.nan ∨ Double_t.le (TMath.Abs eta) (Double_t.finite 1) = true) := by
    intro eta
    have h10 : Double_t.gt (Double_t.finite 1) (Double_t.finite 0) = true := by
      rw [Double_t.gt_finite]
      norm_num
    rw [h10, not_and_or, Bool.not_eq_true (Double_t.gt (TMath.Abs eta) (Double_t.finite 1)),
      Double_t.gt_eq_false_iff, TMath.Abs_eq_nan_iff]
    constructor
    · rintro (h | h | h | h)
      · exact absurd rfl h
      · exact Or.inl h
      · exact Double_t.noConfusion h
      · exact Or.inr h
    · rintro (h | h)
      · exact Or.inr (Or.inl h)
      · exact Or.inr (Or.inr (Or.inr h))
  have hA : ∀ p : AliMCParticle,
      ConvertMCParticles.accept Selector.new.config fMC p iPart = true ↔
      (p.Eta = Double_t.nan ∨ Double_t.le (TMath.Abs p.Eta) (Double_t.finite 1) = true) ∧
        fMC.IsPhysicalPrimary iPart = true := by
    intro p
    rw [hcfg, ConvertMCParticles.convert_accept_iff_guards, ← hguard]
    simp [defaultConfig]
  have hB : ∀ p : AliAODMCParticle, CopyMCParticles.accept Selector.new.config p = true ↔
      (p.Eta = Double_t.nan ∨ Double_t.le (TMath.Abs p.Eta) (Double_t.finite 1) = true) ∧
        p.IsPhysicalPrimary = true := by
    intro p
    rw [hcfg, CopyMCParticles.copy_accept_iff_guards, ← hguard]
    simp [defaultConfig]
  have hhalf : Double_t.le (TMath.Abs (Double_t.finite (1 / 2))) (Double_t.finite 1) = true := by
    simp only [TMath.Abs, Double_t.le_finite]
    rw [abs_le]
    constructor <;> norm_num
  have hbig : ¬ (Double_t.finite (3 / 2) = Double_t.nan ∨
      Double_t.le (TMath.Abs (Double_t.finite (3 / 2))) (Double_t.finite 1) = true) := by
    rintro (h | h)
    · exact Double_t.noConfusion h
    · simp only [TMath.Abs, Double_t.le_finite] at h
      rw [abs_le] at h
      obtain ⟨_, h⟩ := h
      norm_num at h
  refine ⟨rfl, hA part, hB flat, ?_, ?_, ?_, ?_, rfl, rfl⟩
  · have h := hA { part with Eta := Double_t.finite (1 / 2) }
    cases hq : fMC.IsPhysicalPrimary iPart
    · cases hacc : ConvertMCParticles.accept Selector.new.config fMC
          { part with Eta := Double_t.finite (1 / 2) } iPart
      · rfl
      · have := (h.mp hacc).2
        rw [hq] at this
        exact Bool.noConfusion this
    · exact h.mpr ⟨Or.inr hhalf, hq⟩
  · cases hacc : ConvertMCParticles.accept Selector.new.config fMC
        { part with Eta := Double_t.finite (3 / 2) } iPart
    · rfl
    · exact absurd ((hA { part with Eta := Double_t.finite (3 / 2) }).mp hacc).1 hbig
  · have h := hB { flat with Eta := Double_t.finite (1 / 2) }
    cases hq : AliAODMCParticle.IsPhysicalPrimary { flat with Eta := Double_t.finite (1 / 2) }
    · cases hacc : CopyMCParticles.accept Selector.new.config
          { flat with Eta := Double_t.finite (1 / 2) }
      · rfl
      · have := (h.mp hacc).2
        rw [hq] at this
        exact Bool.noConfusion this
    · exact h.mpr ⟨Or.inr hhalf, hq⟩
  · cases hacc : CopyMCParticles.accept Selector.new.config
        { flat with Eta := Double_t.finite (3 / 2) }
    · rfl
    · exact absurd ((hB { flat with Eta := Double_t.finite (3 / 2) }).mp hacc).1 hbig

/-- C12: when, at an invocation of a task that is not yet initialised, the event's list
already holds an object under the configured output name, `UserExec` reads the format,
reports through `AliFatal` and returns: nothing is published (the event is as it was), no
filter pass runs, `fInit` stays false, and the output collection and index map pointers of
the task are as they were. -/
theorem C12_name_collision_is_fatal (t : Selector) (h : Host) (ev : AliVEvent) (obj : TObject)
    (h0 : t.fInit = false) (h1 : h.InputEvent = some ev)
    (h2 : ev.FindListObject t.fParticlesOutName = some obj) :
    (UserExec t h).log = [Effect.detectFormat ev.inheritsESD,
      Effect.fatal ("The output array " ++ t.fParticlesOutName ++
        " is already present in the array!")] ∧
    (UserExec t h).event = some ev ∧
    (UserExec t h).task.fInit = false ∧
    (∀ e, e ∈ (UserExec t h).log →
      e.isPass = false ∧ e.isPublish = false ∧ e.isAllocateOutput = false) ∧
    (UserExec t h).task.fParticlesOut = t.fParticlesOut ∧
    (UserExec t h).task.fParticlesMap = t.fParticlesMap := by
  rw [UserExec_of_collision t h ev obj h0 h1 h2]
  refine ⟨rfl, rfl, h0, ?_, rfl, rfl⟩
  intro e he
  simp only [List.mem_cons, List.mem_singleton, List.not_mem_nil, or_false] at he
  rcases he with he | he <;> subst he <;> exact ⟨rfl, rfl, rfl⟩

/-- C12, witness: two instances with the default output name on one ESD event. The first
publishes its output collection; the first invocation of the second finds the name taken
and ends in a fatal report. -/
theorem C12_name_collision_is_fatal_witness :
    (UserExec Selector.new esdHost).event = some sharedESD ∧
    (Selector.newNamed "second").fInit = false ∧
    sharedESD.FindListObject (Selector.newNamed "second").fParticlesOutName =
      some { inheritsAODMCParticle := true, items := [] } ∧
    (UserExec (Selector.newNamed "second")
      { InputEvent := some sharedESD, MCEvent := some (pionEvent 5) }).log =
      [Effect.detectFormat true,
        Effect.fatal "The output array MCParticlesSelected is already present in the array!"] ∧
    (UserExec (Selector.newNamed "second")
      { InputEvent := some sharedESD, MCEvent := some (pionEvent 5) }).event = some sharedESD ∧
    (UserExec (Selector.newNamed "second")
      { InputEvent := some sharedESD, MCEvent := some (pionEvent 5) }).task.fInit = false :=
  ⟨rfl, rfl, rfl,
    (C12_name_collision_is_fatal (Selector.newNamed "second")
      { InputEvent := some sharedESD, MCEvent := some (pionEvent 5) } sharedESD
      { inheritsAODMCParticle := true, items := [] } rfl rfl rfl).1.trans (by decide),
    (C12_name_collision_is_fatal (Selector.newNamed "second")
      { InputEvent := some sharedESD, MCEvent := some (pionEvent 5) } sharedESD
      { inheritsAODMCParticle := true, items := [] } rfl rfl rfl).2.1,
    (C12_name_collision_is_fatal (Selector.newNamed "second")
      { InputEvent := some sharedESD, MCEvent := some (pionEvent 5) } sharedESD
      { inheritsAODMCParticle := true, items := [] } rfl rfl rfl).2.2.1⟩

/-- C13, at the failing input: the first invocation of a task from the default constructor
on an empty ESD event with a truth event succeeds. The event's list then holds the output
collection under `"MCParticlesSelected"`; the index map has been allocated under the name
`"MCParticlesSelected_Map"`, but no object of that name is in the event's list: the only
publication of the invocation is that of the output collection. -/
theorem C13_index_map_is_not_published :
    (UserExec Selector.new esdHost).task.fInit = true ∧
    (UserExec Selector.new esdHost).task.fParticlesMapName = "MCParticlesSelected_Map" ∧
    (UserExec Selector.new esdHost).task.fParticlesMap.isSome = true ∧
    (UserExec Selector.new esdHost).log =
      [Effect.detectFormat true, Effect.allocateOutput, Effect.publish "MCParticlesSelected",
        Effect.allocateMap "MCParticlesSelected_Map", Effect.convert] ∧
    (UserExec Selector.new esdHost).event = some sharedESD ∧
    sharedESD.FindListObject "MCParticlesSelected" =
      some { inheritsAODMCParticle := true, items := [] } ∧
    sharedESD.FindListObject "MCParticlesSelected_Map" = none :=
  ⟨rfl, by decide, rfl, by decide, rfl, by decide, by decide⟩

/-- C14, as stated, fails for the first of the four failures: without a current event
`UserExec` reports through `AliError`, an ordinary error, and nothing in the log of the
invocation is a fatal report. It fails too for a flat input collection that is absent while
the output name is the standard name of that collection: on an event that is not an ESD and
holds no object, the lookup of line 106 finds the output collection published at line 99,
setup completes and `CopyMCParticles` runs, without any fatal report. -/
theorem C14_missing_event_is_not_fatal :
    ((UserExec Selector.new { InputEvent := none, MCEvent := some (pionEvent 5) }).log =
        [Effect.error "Could not retrieve event! Returning"] ∧
      ∀ e, e ∈ (UserExec Selector.new
        { InputEvent := none, MCEvent := some (pionEvent 5) }).log → e.isFatal = false) ∧
    (emptyAOD.inheritsESD = false ∧ emptyAOD.FindListObject StdBranchName = none ∧
      (UserExec aliasSelector
        { InputEvent := some emptyAOD, MCEvent := some (pionEvent 5) }).log =
        [Effect.detectFormat false, Effect.allocateOutput, Effect.publish "mcparticles",
          Effect.allocateMap "mcparticles_Map", Effect.copy] ∧
      (UserExec aliasSelector
        { InputEvent := some emptyAOD, MCEvent := some (pionEvent 5) }).task.fInit = true) := by
  refine ⟨⟨rfl, ?_⟩, rfl, rfl, by decide, by decide⟩
  intro e he
  have hlog : (UserExec Selector.new { InputEvent := none, MCEvent := some (pionEvent 5) }).log =
      [Effect.error "Could not retrieve event! Returning"] := rfl
  rw [hlog] at he
  simp only [List.mem_singleton] at he
  subst he
  rfl

/-- C14, amended: at an invocation of a task that is not yet initialised, a missing event is
reported as an ordinary error (`AliError`), and each of the other three setup failures ends
the log in a report through `AliFatal`: the output name already in the event's list; on an
event that is not an ESD, the flat input collection of the wrong class of elements, or
absent while the output name differs from the standard name of that collection; the truth
event unavailable. In each of the four cases no filter pass runs and `fInit` stays false. -/
theorem C14_setup_failures (t : Selector) (h : Host) (h0 : t.fInit = false) :
    (h.InputEvent = none →
      (UserExec t h).log = [Effect.error "Could not retrieve event! Returning"] ∧
      (UserExec t h).task.fInit = false ∧
      ∀ e, e ∈ (UserExec t h).log → e.isPass = false) ∧
    (∀ ev obj, h.InputEvent = some ev → ev.FindListObject t.fParticlesOutName = some obj →
      (∃ msg, (UserExec t h).log.getLast? = some (Effect.fatal msg)) ∧
      (UserExec t h).task.fInit = false ∧
      ∀ e, e ∈ (UserExec t h).log → e.isPass = false) ∧
    (∀ ev, h.InputEvent = some ev → ev.FindListObject t.fParticlesOutName = none →
      ev.inheritsESD = false →
      ((t.fParticlesOutName ≠ StdBranchName ∧ ev.FindListObject StdBranchName = none) ∨
        ∃ obj, ev.FindListObject StdBranchName = some obj ∧
          obj.inheritsAODMCParticle = false) →
      (∃ msg, (UserExec t h).log.getLast? = some (Effect.fatal msg)) ∧
      (UserExec t h).task.fInit = false ∧
      ∀ e, e ∈ (UserExec t h).log → e.isPass = false) ∧
    (∀ ev, h.InputEvent = some ev → ev.FindListObject t.fParticlesOutName = none →
      h.MCEvent = none →
      (∃ msg, (UserExec t h).log.getLast? = some (Effect.fatal msg)) ∧
      (UserExec t h).task.fInit = false ∧
      ∀ e, e ∈ (UserExec t h).log → e.isPass = false) := by
  have hfail : ∀ (r : ExecResult) (pre : List Effect) (msg : String),
      (∀ e, e ∈ pre → e.isPass = false) → r.log = pre ++ [Effect.fatal msg] →
      (∃ m, r.log.getLast? = some (Effect.fatal m)) ∧ ∀ e, e ∈ r.log → e.isPass = false := by
    intro r pre msg hpre hlog
    rw [hlog]
    refine ⟨⟨msg, by simp⟩, ?_⟩
    intro e he
    rcases List.mem_append.mp he with he | he
    · exact hpre e he
    · simp only [List.mem_singleton] at he
      subst he
      rfl
  have hsetup : ∀ (b : Bool) (e : Effect), e ∈ [Effect.detectFormat b, Effect.allocateOutput,
      Effect.publish t.fParticlesOutName,
      Effect.allocateMap (t.fParticlesOutName ++ "_Map")] → e.isPass = false := by
    intro b e he
    simp only [List.mem_cons, List.mem_singleton, List.not_mem_nil, or_false] at he
    rcases he with he | he | he | he <;> subst he <;> rfl
  refine ⟨?_, ?_, ?_, ?_⟩
  · intro h1
    rw [UserExec_of_no_event t h h0 h1]
    refine ⟨rfl, h0, ?_⟩
    intro e he
    simp only [List.mem_singleton] at he
    subst he
    rfl
  · intro ev obj h1 h2
    rw [UserExec_of_collision t h ev obj h0 h1 h2]
    refine ⟨⟨_, rfl⟩, h0, ?_⟩
    intro e he
    simp only [List.mem_cons, List.mem_singleton, List.not_mem_nil, or_false] at he
    rcases he with he | he <;> subst he <;> rfl
  · intro ev h1 h2 hesd hin0
    have hin : (ev.AddObject t.fParticlesOutName
          { inheritsAODMCParticle := true, items := [] }).FindListObject StdBranchName = none ∨
        ∃ obj, (ev.AddObject t.fParticlesOutName
          { inheritsAODMCParticle := true, items := [] }).FindListObject StdBranchName =
            some obj ∧ obj.inheritsAODMCParticle = false := by
      rcases hin0 with ⟨hne, hnone⟩ | ⟨obj, hobj, hcls⟩
      · exact Or.inl (AliVEvent.FindListObject_AddObject_of_ne ev _ _ _ hne hnone)
      · exact Or.inr ⟨obj, AliVEvent.FindListObject_AddObject_of_some ev _ _ _ obj hobj, hcls⟩
    rw [UserExec_of_fresh t h ev h0 h1 h2, if_pos hesd]
    obtain ⟨_, _, _, e4⟩ := UserExec.resolveInput_shape
      { t with
        fEvent := true, fIsESD := ev.inheritsESD, fParticlesOut := some [],
        fParticlesMapName := t.fParticlesOutName ++ "_Map",
        fParticlesMap := some ⟨List.replicate 99999 none⟩ }
      (ev.AddObject t.fParticlesOutName { inheritsAODMCParticle := true, items := [] }) h
      [Effect.detectFormat ev.inheritsESD, Effect.allocateOutput,
        Effect.publish t.fParticlesOutName,
        Effect.allocateMap (t.fParticlesOutName ++ "_Map")]
    rcases e4 with ⟨msg, hinit, hlog, _⟩ | ⟨_, ⟨obj, hobj, hcls⟩, _⟩
    · have := hfail _ _ msg (hsetup ev.inheritsESD) hlog
      exact ⟨this.1, hinit.trans h0, this.2⟩
    · exfalso
      rcases hin with hin | ⟨obj2, hobj2, hcls2⟩
      · rw [hin] at hobj
        exact Option.noConfusion hobj
      · rw [hobj2] at hobj
        have := Option.some.inj hobj
        subst this
        rw [hcls2] at hcls
        exact Bool.noConfusion hcls
  · intro ev h1 h2 hmc
    rw [UserExec_of_fresh t h ev h0 h1 h2]
    split
    · obtain ⟨_, _, _, e4⟩ := UserExec.resolveInput_shape
        { t with
          fEvent := true, fIsESD := ev.inheritsESD, fParticlesOut := some [],
          fParticlesMapName := t.fParticlesOutName ++ "_Map",
          fParticlesMap := some ⟨List.replicate 99999 none⟩ }
        (ev.AddObject t.fParticlesOutName { inheritsAODMCParticle := true, items := [] }) h
        [Effect.detectFormat ev.inheritsESD, Effect.allocateOutput,
          Effect.publish t.fParticlesOutName,
          Effect.allocateMap (t.fParticlesOutName ++ "_Map")]
      rcases e4 with ⟨msg, hinit, hlog, _⟩ | ⟨hsome, _⟩
      · have := hfail _ _ msg (hsetup ev.inheritsESD) hlog
        exact ⟨this.1, hinit.trans h0, this.2⟩
      · rw [hmc] at hsome
        exact Bool.noConfusion hsome
    · obtain ⟨_, _, _, e4⟩ := UserExec.fetchMC_shape
        { t with
          fEvent := true, fIsESD := ev.inheritsESD, fParticlesOut := some [],
          fParticlesMapName := t.fParticlesOutName ++ "_Map",
          fParticlesMap := some ⟨List.replicate 99999 none⟩ }
        (ev.AddObject t.fParticlesOutName { inheritsAODMCParticle := true, items := [] }) h
        [Effect.detectFormat ev.inheritsESD, Effect.allocateOutput,
          Effect.publish t.fParticlesOutName,
          Effect.allocateMap (t.fParticlesOutName ++ "_Map")]
      rcases e4 with ⟨_, hinit, hlog⟩ | ⟨hsome, _⟩
      · have := hfail _ _ _ (hsetup ev.inheritsESD) hlog
        exact ⟨this.1, hinit.trans h0, this.2⟩
      · rw [hmc] at hsome
        exact Bool.noConfusion hsome

/-- C14, witness: a task from the default constructor on an ESD event without a truth
event ends in the fatal report `"Could not retrieve MC event! Returning"`, and on an event
that is not an ESD and holds no flat input collection it ends in a fatal report too; in both
the output collection has been published and `fInit` stays false. -/
theorem C14_setup_failures_witness :
    Selector.new.fInit = false ∧
    emptyESD.FindListObject Selector.new.fParticlesOutName = none ∧
    (∃ msg, (UserExec Selector.new
      { InputEvent := some emptyESD, MCEvent := none }).log.getLast? =
        some (Effect.fatal msg)) ∧
    (UserExec Selector.new { InputEvent := some emptyESD, MCEvent := none }).task.fInit =
      false ∧
    emptyAOD.FindListObject Selector.new.fParticlesOutName = none ∧
    emptyAOD.inheritsESD = false ∧
    Selector.new.fParticlesOutName ≠ StdBranchName ∧
    emptyAOD.FindListObject StdBranchName = none ∧
    (∃ msg, (UserExec Selector.new
      { InputEvent := some emptyAOD, MCEvent := some (pionEvent 5) }).log.getLast? =
        some (Effect.fatal msg)) ∧
    (UserExec Selector.new
      { InputEvent := some emptyAOD, MCEvent := some (pionEvent 5) }).task.fInit = false :=
  ⟨rfl, rfl,
    ((C14_setup_failures Selector.new { InputEvent := some emptyESD, MCEvent := none }
      rfl).2.2.2 emptyESD rfl rfl rfl).1,
    ((C14_setup_failures Selector.new { InputEvent := some emptyESD, MCEvent := none }
      rfl).2.2.2 emptyESD rfl rfl rfl).2.1,
    rfl, rfl, by decide, rfl,
    ((C14_setup_failures Selector.new
      { InputEvent := some emptyAOD, MCEvent := some (pionEvent 5) } rfl).2.2.1 emptyAOD rfl
      rfl rfl (Or.inl ⟨by decide, rfl⟩)).1,
    ((C14_setup_failures Selector.new
      { InputEvent := some emptyAOD, MCEvent := some (pionEvent 5) } rfl).2.2.1 emptyAOD rfl
      rfl rfl (Or.inl ⟨by decide, rfl⟩)).2.1⟩

/-- C15: over every sequence of invocations of one task on one event list, from any state
of the task and of the list, the output collection is allocated at most once and an object
is published into the list at most once; and once `fInit` is true, no later invocation
reads the format, allocates or publishes. -/
theorem C15_setup_happens_once (w : World) (invs : List Invocation) :
    ((w.run invs).2.flatten.filter Effect.isPublish).length ≤ 1 ∧
    ((w.run invs).2.flatten.filter Effect.isAllocateOutput).length ≤ 1 ∧
    ∀ pre post, invs = pre ++ post → (w.run pre).1.task.fInit = true →
      (∀ log, log ∈ ((w.run pre).1.run post).2 → ∀ e, e ∈ log → e.isSetup = false) ∧
      ((w.run pre).1.run post).1.task.fInit = true := by
  refine ⟨(World.run_publish_count invs w).1, (World.run_publish_count invs w).2, ?_⟩
  intro pre post _ hinit
  have h := World.run_of_init post (w.run pre).1 hinit
  exact ⟨fun log hl e he => (h.2.2 log hl e he).1, h.1⟩

/-- C15, witness: a task from the default constructor on an empty list. The first
invocation, on an ESD event without a truth event, publishes the output collection and
fails; the second, with a truth event, finds the name taken and fails again: one
publication and one allocation over the sequence. After a successful first invocation the
next two run the filter pass only. -/
theorem C15_setup_happens_once_witness :
    ((freshWorld.run [esdCallWithoutTruth, esdCall]).2.flatten.filter
      Effect.isPublish).length = 1 ∧
    ((freshWorld.run [esdCallWithoutTruth, esdCall]).2.flatten.filter
      Effect.isAllocateOutput).length = 1 ∧
    (freshWorld.run [esdCall]).1.task.fInit = true ∧
    (∀ log, log ∈ ((freshWorld.run [esdCall]).1.run [esdCall, noEventCall]).2 →
      ∀ e, e ∈ log → e.isSetup = false) :=
  ⟨Nat.le_antisymm (C15_setup_happens_once freshWorld [esdCallWithoutTruth, esdCall]).1
      (by decide),
    Nat.le_antisymm (C15_setup_happens_once freshWorld [esdCallWithoutTruth, esdCall]).2.1
      (by decide),
    rfl,
    ((C15_setup_happens_once freshWorld [esdCall, esdCall, noEventCall]).2.2
      [esdCall] [esdCall, noEventCall] rfl rfl).1⟩

/-- C16: under `ConvertMCParticles`, the output particle of every surviving track id `i` (it
sits in the output slot given by the rank of `i` among the survivors) has as flag word the
bitwise OR of `kPrimary` if `i < nprim`, `kPhysicalPrim` if `IsPhysicalPrimary(i)`,
`kSecondaryFromWeakDecay` if `IsSecondaryFromWeakDecay(i)` and `kSecondaryFromMaterial` if
`IsSecondaryFromMaterial(i)`: each of the four bits is set exactly when its condition
holds, and no other bit is set. -/
theorem C16_flag_word (cfg : Config) (fMC : AliMCEvent) (b : Buffers) (i : Nat)
    (part : AliMCParticle)
    (hi : (i : Int) < fMC.GetNumberOfTracks)
    (hfetch : fMC.GetTrack i = some part)
    (hpass : ConvertMCParticles.accept cfg fMC part i = true) :
    ∃ q, TClonesArray.At (ConvertMCParticles cfg fMC b).fParticlesOut
        ((List.range i).filter (ConvertMCParticles.survives cfg fMC)).length = some q ∧
      q.Label = (i : Int) ∧
      q.Flag =
        (if (i : Int) < fMC.GetNumberOfPrimaries then kPrimary else 0) |||
        (if fMC.IsPhysicalPrimary i = true then kPhysicalPrim else 0) |||
        (if fMC.IsSecondaryFromWeakDecay i = true then kSecondaryFromWeakDecay else 0) |||
        (if fMC.IsSecondaryFromMaterial i = true then kSecondaryFromMaterial else 0) ∧
      (q.Flag &&& kPrimary = kPrimary ↔ (i : Int) < fMC.GetNumberOfPrimaries) ∧
      (q.Flag &&& kPhysicalPrim = kPhysicalPrim ↔ fMC.IsPhysicalPrimary i = true) ∧
      (q.Flag &&& kSecondaryFromWeakDecay = kSecondaryFromWeakDecay ↔
        fMC.IsSecondaryFromWeakDecay i = true) ∧
      (q.Flag &&& kSecondaryFromMaterial = kSecondaryFromMaterial ↔
        fMC.IsSecondaryFromMaterial i = true) ∧
      q.Flag &&&
        (kPrimary ||| kPhysicalPrim ||| kSecondaryFromWeakDecay ||| kSecondaryFromMaterial) =
        q.Flag := by
  have hfA := survivors_length_eq_filter _ _ (ConvertMCParticles.convert_derive_isSome cfg fMC)
  have hdA : ConvertMCParticles.derive cfg fMC i =
      some (ConvertMCParticles.aodPart fMC fMC.GetNumberOfPrimaries part i) := by
    simp [ConvertMCParticles.derive, hfetch, hpass]
  have hnA : i < fMC.GetNumberOfTracks.toNat := by omega
  have hbits := ConvertMCParticles.convert_flag_bits fMC fMC.GetNumberOfPrimaries i
  refine ⟨ConvertMCParticles.aodPart fMC fMC.GetNumberOfPrimaries part i, ?_, rfl,
    ConvertMCParticles.convert_flag_eq fMC fMC.GetNumberOfPrimaries i,
    hbits.1.1, hbits.1.2.1, hbits.1.2.2.1, hbits.1.2.2.2, hbits.2⟩
  rw [ConvertMCParticles.convert_out_eq, TClonesArray.At_map_some, ← hfA, ← hdA]
  exact survivors_getElem _ i _ hnA (by rw [hdA]; rfl)

/-- C16, witness: track `0` of the five-pion event (a primary and a physical primary, no
secondary) gets the flag word `kPrimary ||| kPhysicalPrim = 3`; track `2` (beyond the two
primaries) gets `kPhysicalPrim = 2`. -/
theorem C16_flag_word_witness :
    ((0 : Nat) : Int) < (pionEvent 5).GetNumberOfTracks ∧
    (pionEvent 5).GetTrack 0 = some pionTrack ∧
    ConvertMCParticles.accept defaultConfig (pionEvent 5) pionTrack 0 = true ∧
    (∃ q, TClonesArray.At (ConvertMCParticles defaultConfig (pionEvent 5)
        setupBuffers).fParticlesOut 0 = some q ∧ q.Flag = 3) ∧
    (∃ q, TClonesArray.At (ConvertMCParticles defaultConfig (pionEvent 5)
        setupBuffers).fParticlesOut 1 = some q ∧ q.Flag = 2) := by
  refine ⟨by decide, rfl, by decide, ?_, ?_⟩
  · obtain ⟨q, h1, _, h3, _⟩ := C16_flag_word defaultConfig (pionEvent 5) setupBuffers 0
      pionTrack (by decide) rfl (by decide)
    exact ⟨q, h1, h3.trans (by decide)⟩
  · obtain ⟨q, h1, _, h3, _⟩ := C16_flag_word defaultConfig (pionEvent 5) setupBuffers 2
      pionTrack (by decide) rfl (by decide)
    exact ⟨q, h1, h3.trans (by decide)⟩

/-- C17, as stated, fails on the first event: on the map of `99999` cells allocated at
setup, an event of `50000` tracks does not trigger the resize guard of
`ConvertMCParticles` (`99999 ≤ 50000` is false), and after the pass the capacity is still
`99999`, less than twice the number of tracks. -/
theorem C17_capacity_below_twice_input :
    (pionEvent 50000).GetNumberOfTracks = 50000 ∧
    (ConvertMCParticles defaultConfig (pionEvent 50000) setupBuffers).fParticlesMap.GetSize =
      99999 ∧
    (ConvertMCParticles defaultConfig (pionEvent 50000) setupBuffers).fParticlesMap.GetSize <
      2 * 50000 := by
  have h : (ConvertMCParticles defaultConfig (pionEvent 50000)
      setupBuffers).fParticlesMap.GetSize = 99999 := by
    rw [ConvertMCParticles.convert_map_GetSize]
    unfold ConvertMCParticles.sized
    rw [if_neg (by
      rw [AliNamedArrayI.GetSize_Clear, setupBuffers_GetSize]
      decide), AliNamedArrayI.GetSize_Clear, setupBuffers_GetSize]
  refine ⟨rfl, h, ?_⟩
  rw [h]
  decide

/-- C17, amended: for every sequence of events through `ConvertMCParticles` whose track
counts `N` have `2*N` representable as a 32-bit signed integer, starting from a map of at
least `99999` cells, the capacity after the sequence is at least `99999`, not below the
capacity before, and strictly greater than the track count of every event of the
sequence; and a pass that finds the capacity at or below its track count leaves it at
exactly twice that count. -/
theorem C17_capacity_exceeds_inputs (cfg : Config) (b : Buffers) (evs : List AliMCEvent)
    (hcap : 99999 ≤ b.fParticlesMap.GetSize)
    (hN : ∀ fMC, fMC ∈ evs → fMC.GetNumberOfTracks * 2 ≤ 2147483647) :
    99999 ≤ (ConvertMCParticles.events cfg b evs).fParticlesMap.GetSize ∧
    b.fParticlesMap.GetSize ≤ (ConvertMCParticles.events cfg b evs).fParticlesMap.GetSize ∧
    (∀ fMC, fMC ∈ evs → fMC.GetNumberOfTracks <
      (((ConvertMCParticles.events cfg b evs).fParticlesMap.GetSize : Nat) : Int)) ∧
    (∀ (fMC : AliMCEvent) (bb : Buffers), fMC.GetNumberOfTracks * 2 ≤ 2147483647 →
      ((bb.fParticlesMap.GetSize : Nat) : Int) ≤ fMC.GetNumberOfTracks →
      (((ConvertMCParticles cfg fMC bb).fParticlesMap.GetSize : Nat) : Int) =
        2 * fMC.GetNumberOfTracks) := by
  have h := ConvertMCParticles.convert_events_size cfg evs b (by omega) hN
  refine ⟨by omega, h.1, h.2, ?_⟩
  intro fMC bb hN2 hle
  rw [ConvertMCParticles.convert_map_GetSize]
  exact (ConvertMCParticles.convert_sized_cases fMC bb.fParticlesMap hN2).2.2 hle

/-- C17, witness: two events, of `5` and of `100001` tracks, on the buffers of setup: the
capacity ends above `100001`. -/
theorem C17_capacity_exceeds_inputs_witness :
    99999 ≤ setupBuffers.fParticlesMap.GetSize ∧
    (∀ fMC, fMC ∈ [pionEvent 5, absentEvent 100001] →
      fMC.GetNumberOfTracks * 2 ≤ 2147483647) ∧
    (absentEvent 100001).GetNumberOfTracks <
      (((ConvertMCParticles.events defaultConfig setupBuffers
        [pionEvent 5, absentEvent 100001]).fParticlesMap.GetSize : Nat) : Int) :=
  ⟨by rw [setupBuffers_GetSize],
    fun fMC h => by
      rcases List.mem_cons.mp h with h | h
      · subst h; decide
      · rcases List.mem_cons.mp h with h | h
        · subst h; decide
        · exact absurd h (List.not_mem_nil fMC),
    (C17_capacity_exceeds_inputs defaultConfig setupBuffers [pionEvent 5, absentEvent 100001]
      (by rw [setupBuffers_GetSize])
      (fun fMC h => by
        rcases List.mem_cons.mp h with h | h
        · subst h; decide
        · rcases List.mem_cons.mp h with h | h
          · subst h; decide
          · exact absurd h (List.not_mem_nil fMC))).2.2.1 _
      (List.mem_cons_of_mem _ (List.mem_cons_self _ _))⟩

/-- C18: with a null `fParticlesIn`, `CopyMCParticles` is a no-op: the output collection
and the index map are left exactly as they were, neither cleared nor written; and the
dispatch of `UserExec` to `CopyMCParticles` then leaves the whole task as it was. -/
theorem C18_copy_null_input_is_noop (cfg : Config) (b : Buffers) (t : Selector) :
    CopyMCParticles cfg none b = b ∧
    (CopyMCParticles cfg none b).fParticlesOut = b.fParticlesOut ∧
    (CopyMCParticles cfg none b).fParticlesMap = b.fParticlesMap ∧
    (UserExec.dispatch { t with fIsESD := false, fParticlesIn := none }).1 =
      { t with fIsESD := false, fParticlesIn := none } :=
  ⟨rfl, rfl, rfl, rfl⟩

/-- C19: over every sequence of invocations of one task on one event list, no filter pass
runs while setup has not succeeded; at the invocation that takes `fInit` from false to
true the event has a format, every filter pass from that invocation on is the pass of that
format, and `fIsESD` holds that format after every later invocation; and no two
invocations of the sequence run different passes. -/
theorem C19_one_strategy_per_task (w : World) (invs : List Invocation) :
    ((w.run invs).1.task.fInit = false →
      ∀ log, log ∈ (w.run invs).2 → ∀ e, e ∈ log → e.isPass = false) ∧
    (∀ pre inv post, invs = pre ++ inv :: post → (w.run pre).1.task.fInit = false →
      ((w.run pre).1.step inv).1.task.fInit = true →
      ∃ isESD, inv.InputEvent = some isESD ∧
        (∀ log, log ∈ (w.run pre).2 → ∀ e, e ∈ log → e.isPass = false) ∧
        (∀ log, log ∈ ((w.run pre).1.run (inv :: post)).2 → ∀ e, e ∈ log →
          e.isPass = true → e = Effect.pass isESD) ∧
        (∀ p q, post = p ++ q →
          ((w.run pre).1.run (inv :: p)).1.task.fIsESD = isESD)) ∧
    (∀ l1, l1 ∈ (w.run invs).2 → ∀ l2, l2 ∈ (w.run invs).2 →
      ¬ (Effect.convert ∈ l1 ∧ Effect.copy ∈ l2)) := by
  refine ⟨World.run_no_pass_before_init invs w, ?_, ?_⟩
  · intro pre inv post _ hpre hnext
    obtain ⟨_, hs⟩ := World.step_shape (w.run pre).1 inv
    rcases hs with ⟨h0, _⟩ | ⟨_, _, _, h3, _⟩ | ⟨_, _, _, _, _, h3, _⟩ |
      ⟨_, _, _, _, _, h3, _⟩ | ⟨_, b, hb, _, _, _, h5, h6⟩
    · rw [hpre] at h0
      exact Bool.noConfusion h0
    · rw [hnext] at h3
      exact Bool.noConfusion h3
    · rw [hnext] at h3
      exact Bool.noConfusion h3
    · rw [hnext] at h3
      exact Bool.noConfusion h3
    · refine ⟨b, hb, World.run_no_pass_before_init pre w hpre, ?_, ?_⟩
      · intro log hl e he hp
        rw [World.run_cons] at hl
        rcases List.mem_cons.mp hl with hl | hl
        · subst hl
          rw [h6] at he
          simp only [List.mem_cons, List.mem_singleton, List.not_mem_nil, or_false] at he
          rcases he with he | he | he | he | he
          · subst he; exact Bool.noConfusion hp
          · subst he; exact Bool.noConfusion hp
          · subst he; exact Bool.noConfusion hp
          · subst he; exact Bool.noConfusion hp
          · exact he
        · have := ((World.run_of_init post ((w.run pre).1.step inv).1 hnext).2.2
            log hl e he).2 hp
          rw [h5] at this
          exact this
      · intro p q _
        rw [World.run_cons]
        exact ((World.run_of_init p ((w.run pre).1.step inv).1 hnext).2.1).trans h5
  · intro l1 hl1 l2 hl2 ⟨hc, hd⟩
    obtain ⟨b, hb⟩ := World.run_passes_agree invs w
    have h1 := hb l1 hl1 Effect.convert hc rfl
    have h2 := hb l2 hl2 Effect.copy hd rfl
    cases b
    · exact Effect.noConfusion h1
    · exact Effect.noConfusion h2

/-- C19, witness: a task from the default constructor on an empty list; an invocation
without an event, then three on an ESD event with a truth event. Setup succeeds at the
second invocation, on an ESD, and every pass that runs is `ConvertMCParticles`. -/
theorem C19_one_strategy_per_task_witness :
    (freshWorld.run [noEventCall]).1.task.fInit = false ∧
    ((freshWorld.run [noEventCall]).1.step esdCall).1.task.fInit = true ∧
    (freshWorld.run [noEventCall, esdCall, esdCall, esdCall]).2 =
      [[Effect.error "Could not retrieve event! Returning"],
        [Effect.detectFormat true, Effect.allocateOutput,
          Effect.publish "MCParticlesSelected",
          Effect.allocateMap "MCParticlesSelected_Map", Effect.convert],
        [Effect.convert], [Effect.convert]] ∧
    (∃ isESD, esdCall.InputEvent = some isESD ∧
      (∀ log, log ∈ ((freshWorld.run [noEventCall]).1.run [esdCall, esdCall, esdCall]).2 →
        ∀ e, e ∈ log → e.isPass = true → e = Effect.pass isESD)) := by
  refine ⟨rfl, rfl, by decide, ?_⟩
  obtain ⟨isESD, h1, _, h3, _⟩ :=
    (C19_one_strategy_per_task freshWorld [noEventCall, esdCall, esdCall, esdCall]).2.1
      [noEventCall] esdCall [esdCall, esdCall] rfl rfl rfl
  exact ⟨isESD, h1, h3⟩

/-- C20: in `ConvertMCParticles`, for an event of `N ≥ 0` tracks with `2*N` representable
as a 32-bit signed integer and any prior map of at least one cell, the capacity after the
resize guard is strictly greater than `N`, and every iteration that writes to the map, the
one of a surviving track `iPart`, calls `AddAt(nacc, iPart)` with `0 ≤ iPart < N`, with
`iPart` inside the storage of the map as it is at that iteration, and with
`0 ≤ nacc ≤ iPart`. -/
theorem C20_convert_writes_in_bounds (cfg : Config) (fMC : AliMCEvent) (b : Buffers)
    (hN0 : 0 ≤ fMC.GetNumberOfTracks)
    (hN : fMC.GetNumberOfTracks * 2 ≤ 2147483647)
    (hcap : 1 ≤ b.fParticlesMap.GetSize) :
    fMC.GetNumberOfTracks <
      (((ConvertMCParticles.sized fMC b.fParticlesMap).GetSize : Nat) : Int) ∧
    ∀ iPart, iPart < fMC.GetNumberOfTracks.toNat →
      ConvertMCParticles.survives cfg fMC iPart = true →
      (0 ≤ (iPart : Int) ∧ (iPart : Int) < fMC.GetNumberOfTracks) ∧
      iPart < ((List.range iPart).foldl
        (ConvertMCParticles.body cfg fMC fMC.GetNumberOfPrimaries)
        { fParticlesOut := [], fParticlesMap := ConvertMCParticles.sized fMC b.fParticlesMap,
          nacc := 0 }).fParticlesMap.GetSize ∧
      0 ≤ ((List.range iPart).foldl
        (ConvertMCParticles.body cfg fMC fMC.GetNumberOfPrimaries)
        { fParticlesOut := [], fParticlesMap := ConvertMCParticles.sized fMC b.fParticlesMap,
          nacc := 0 }).nacc ∧
      ((List.range iPart).foldl
        (ConvertMCParticles.body cfg fMC fMC.GetNumberOfPrimaries)
        { fParticlesOut := [], fParticlesMap := ConvertMCParticles.sized fMC b.fParticlesMap,
          nacc := 0 }).nacc ≤ iPart := by
  have hc := ConvertMCParticles.convert_sized_cases fMC b.fParticlesMap hN
  refine ⟨hc.2.1 hcap, ?_⟩
  intro iPart hi _
  rw [ConvertMCParticles.convert_prefix_eq_run, LoopState.run_size,
    (LoopState.run_out _ _ _).1]
  have hlen := survivors_length_le (ConvertMCParticles.derive cfg fMC) iPart
  have hsz := hc.2.1 hcap
  refine ⟨⟨by omega, by omega⟩, by omega, Nat.zero_le _, hlen⟩

/-- C20, witness: the five-pion event on the buffers of setup; track `4` is written at
`nacc = 2`. -/
theorem C20_convert_writes_in_bounds_witness :
    0 ≤ (pionEvent 5).GetNumberOfTracks ∧
    (pionEvent 5).GetNumberOfTracks * 2 ≤ 2147483647 ∧
    1 ≤ setupBuffers.fParticlesMap.GetSize ∧
    (pionEvent 5).GetNumberOfTracks <
      (((ConvertMCParticles.sized (pionEvent 5) setupBuffers.fParticlesMap).GetSize : Nat) :
        Int) ∧
    ((List.range 4).foldl
      (ConvertMCParticles.body defaultConfig (pionEvent 5) (pionEvent 5).GetNumberOfPrimaries)
      { fParticlesOut := [],
        fParticlesMap := ConvertMCParticles.sized (pionEvent 5) setupBuffers.fParticlesMap,
        nacc := 0 }).nacc ≤ 4 :=
  ⟨by decide, by decide, by rw [setupBuffers_GetSize]; decide,
    (C20_convert_writes_in_bounds defaultConfig (pionEvent 5) setupBuffers (by decide)
      (by decide) (by rw [setupBuffers_GetSize]; decide)).1,
    ((C20_convert_writes_in_bounds defaultConfig (pionEvent 5) setupBuffers (by decide)
      (by decide) (by rw [setupBuffers_GetSize]; decide)).2 4 (by decide) (by decide)).2.2.2⟩

end AliEmcalMCTrackSelector
